import Mathlib

/-!
# mft-cloud agent supervisor (`mft-containers/agent/golang/mftcfg.go`)

A shallow embedding of the Go program that provisions, starts and monitors an
IBM MQ Managed File Transfer agent, together with theorems about its behaviour.

Modelling conventions.

* Everything the program does to the outside world is recorded, in order, in a
  trace of `Event`s (console output included).  What the outside world answers
  (command results, file contents, executable lookup) is supplied by a `World`;
  every answer may depend on the logical clock, which is the number of events
  recorded so far.
* The JSON library `gjson` is not part of the repository: `World.Get json path`
  stands for `gjson.Get(json, path)` and `Result` for what the program reads off
  a `gjson.Result`.
* `main` is sequential up to the monitoring loop.  From there on two goroutines
  run (the loop and the signal handler); they are modelled as a step function
  driven by a schedule.  A command's `Run` together with the read of its captured
  output is one atomic step.
* The goroutine started by `DisplayAgentOutputLog` only reads the log file and
  prints; `main` records that it is started, and its first loop is modelled on
  its own (`pushLine`, `readBacklog`).
* Closing files has no effect any statement speaks about and is not recorded.
-/

namespace MftCfg

/-- Go `error` values are represented by their message. -/
abbrev Error := String

/-- What the program observes from a `gjson.Result`: `Exists()`, `String()`, `Int()`,
`Bool()` and, for `ForEach`, the `String()` of every key and value in iteration order. -/
structure Result where
  Exists : Bool
  Str : String
  Int : Int
  Bool : Bool
  Each : List (String × String)

/-- An `exec.Cmd`.  `Path` and `Args` are the Go fields; `name` records the file name that
was handed to `exec.LookPath` to obtain `Path`. -/
structure Cmd where
  name : String
  Path : String
  Args : List String
deriving DecidableEq, Repr

/-- Outcome of `cmd.Run()`: the returned error (`none` is `nil`) and the text captured in
the `Stdout` and `Stderr` buffers. -/
structure RunResult where
  err : Option Error
  out : String
  errOut : String
deriving DecidableEq, Repr

/-- Observable actions of the program. -/
inductive Event where
  | print (text : String)
  | osOpen (name : String) (err : Option Error)
  | readAll (name : String) (data : String) (err : Option Error)
  | setenv (key value : String)
  | lookPath (file : String) (path : String) (err : Option Error)
  | run (cmd : Cmd) (res : RunResult)
  | openFile (name : String) (err : Option Error)
  | writeString (name text : String) (err : Option Error)
  | sleep (nanoseconds : Int)
  | goDisplayLog (displayLines : Int) (agentLogPath : String)
  | notify
  | signal
deriving DecidableEq

/-- The environment of one execution. -/
structure World where
  Args : List String
  Get : String → String → Result
  Open : Nat → String → Option Error
  ReadAll : Nat → String → String × Option Error
  LookPath : Nat → String → String × Option Error
  Run : Nat → Cmd → RunResult
  OpenFile : Nat → String → Option Error
  WriteString : Nat → String → String → Option Error

/-- How a piece of `main` ends: it falls through to the next statement with a value,
`main` executes `return`, or it panics. -/
inductive Flow (α : Type) where
  | next (a : α)
  | returned
  | panicked (e : Error)
deriving DecidableEq

/-- A piece of the program: started at a clock value, the events it performs, in order,
and how control continues. -/
def Prog (α : Type) : Type := Nat → Flow α × List Event

/-- Put events that happened earlier in front of an outcome. -/
def after {α : Type} (es : List Event) (r : Flow α × List Event) : Flow α × List Event :=
  (r.1, es ++ r.2)

/-- Sequencing of statements; `return` and `panic` skip the rest. -/
def Prog.bind {α β : Type} (m : Prog α) (f : α → Prog β) : Prog β := fun n =>
  match m n with
  | (Flow.next a, es) => after es (f a (n + es.length))
  | (Flow.returned, es) => (Flow.returned, es)
  | (Flow.panicked e, es) => (Flow.panicked e, es)

/-- A statement without effect. -/
def Prog.pure {α : Type} (a : α) : Prog α := fun _ => (Flow.next a, [])

instance : Monad Prog where
  pure := Prog.pure
  bind := Prog.bind

/-- Record one event. -/
def emit (e : Event) : Prog Unit := fun _ => (Flow.next (), [e])

/-- Ask the world a question at the current clock and record the answer. -/
def ask {α : Type} (q : Nat → α) (ev : α → Event) : Prog α := fun n =>
  (Flow.next (q n), [ev (q n)])

/-- The Go statement `return` inside `main`. -/
def ret {α : Type} : Prog α := fun _ => (Flow.returned, [])

/-- The Go builtin `panic(e)`. -/
def panic {α : Type} (e : Error) : Prog α := fun _ => (Flow.panicked e, [])

/-- The operands of `fmt.Println`, separated by a blank. -/
def spaced : List String → String
  | [] => ""
  | [a] => a
  | a :: b :: rest => a ++ " " ++ spaced (b :: rest)

/-- The text `fmt.Println` writes for string operands: operands separated by a blank,
then a newline. -/
def Println (xs : List String) : Prog Unit :=
  emit (Event.print (spaced xs ++ "\n"))

/-- The text `fmt.Printf` or `fmt.Print` writes, already formatted. -/
def Print (s : String) : Prog Unit := emit (Event.print s)

/-- Whether `p` is an initial segment of `s`. -/
def startsWith : List Char → List Char → Bool
  | _, [] => true
  | [], _ :: _ => false
  | a :: s, b :: p => a == b && startsWith s p

/-- Whether `p` occurs in `s` as a contiguous block. -/
def occursIn : List Char → List Char → Bool
  | [], p => startsWith [] p
  | a :: s, p => startsWith (a :: s) p || occursIn s p

/-- Go `strings.Contains(s, substr)`. -/
def Contains (s substr : String) : Bool := occursIn s.data substr.data

/-- Go `strconv.ParseBool`.  The error text of the library quotes the input with
`strconv.Quote`; the text here puts the input between plain quotes, which is the same text
for an input without a character that `Quote` escapes.  `main` compares the error with `nil`
only (line 60). -/
def ParseBool (str : String) : Bool × Option Error :=
  if str ∈ ["1", "t", "T", "TRUE", "true", "True"] then (true, none)
  else if str ∈ ["0", "f", "F", "FALSE", "false", "False"] then (false, none)
  else (false, some ("strconv.ParseBool: parsing \"" ++ str ++ "\": invalid syntax"))

/-- Simple case folding of one character to a representative: ASCII letters fold to upper
case, and the two characters outside ASCII whose fold orbit meets ASCII (U+017F long s,
U+212A Kelvin sign) fold to `S` and `K`. -/
def foldChar (c : Char) : Char :=
  if c = Char.ofNat 0x17F then 'S'
  else if c = Char.ofNat 0x212A then 'K'
  else c.toUpper

/-- Go `strings.EqualFold`: equality under simple case folding.  Exact whenever one of the
two texts is ASCII, which is the case at the program's only call (the literal `STANDARD`). -/
def EqualFold (s t : String) : Bool := s.data.map foldChar == t.data.map foldChar

/-- Source `validateAttributes` (lines 555-592): `none` is a `nil` error. -/
def validateAttributes (Get : String → String → Result) (jsonData : String) : Option Error :=
  if !(Get jsonData "dataPath").Exists then
    some "dataPath attribute missing. Can't setup agent configuration"
  else if !(Get jsonData "coordinationQMgr.name").Exists then
    some "Coordination queue manager name missing. Can't setup agent configuration"
  else if !(Get jsonData "commandsQMgr.name").Exists then
    some "Command queue manager name missing. Can't setup agent configuration"
  else if !(Get jsonData "agent.name").Exists then
    some "Agent name missing. Can't setup agent configuration"
  else if !(Get jsonData "agent.qmgrName").Exists then
    some "Agent queue manager name missing. Can't setup agent configuration"
  else if !(Get jsonData "agent.credentialsFile").Exists then
    some "Agent credentials file missing. Can't setup agent configuration"
  else none

/-- Source `ReadConfigurationDataFromFile` (lines 528-552): the configuration text and the
error (`none` is `nil`). -/
def ReadConfigurationDataFromFile (w : World) (configFile : String) :
    Prog (String × Option Error) := do
  let err ← ask (fun n => w.Open n configFile) (Event.osOpen configFile)
  match err with
  | some e =>
    Println [e]
    pure ("", some e)
  | none =>
    Println ["Setting up agent using configuration file " ++ configFile]
    let (data, err) ← ask (fun n => w.ReadAll n configFile)
      (fun r => Event.readAll configFile r.1 r.2)
    match err with
    | some e =>
      Print e
      pure ("", some e)
    | none =>
      let agentConfig := data
      pure (agentConfig, validateAttributes w.Get agentConfig)

/-- The variables `main` sets from its arguments and the configuration (lines 34-77). -/
structure Vars where
  bfgDataPath : String
  agentConfig : String
  showAgentLogs : Bool
  displayLines : Int
  monitorWaitInterval : Int
  startOnly : Bool

/-- The executable paths `main` resolves before the setup (lines 82-129). -/
structure Paths where
  cmdCoordPath : String
  cmdCmdsPath : String
  cmdCrtAgntPath : String
  cmdCrtBridgeAgntPath : String
  cmdStrAgntPath : String
  cmdStopAgntPath : String
  cmdPingAgntPath : String

/-- Go `exec.LookPath(file)`. -/
def LookPath (w : World) (file : String) : Prog (String × Option Error) :=
  ask (fun n => w.LookPath n file) (fun r => Event.lookPath file r.1 r.2)

/-- The pattern `path, lookErr := exec.LookPath(file); if lookErr != nil { panic(lookErr) }`. -/
def lookPathOrPanic (w : World) (file : String) : Prog String := do
  let (path, lookErr) ← LookPath w file
  match lookErr with
  | some e => panic e
  | none => pure path

/-- Go `cmd.Run()` with the captured output. -/
def Run (w : World) (cmd : Cmd) : Prog RunResult :=
  ask (fun n => w.Run n cmd) (Event.run cmd)

/-- Lines 58-65 of `main`: the value of `startOnly` computed from `os.Args`. -/
def startOnlyOf (args : List String) : Bool :=
  if args.length = 3 then
    match ParseBool (args.getD 2 "") with
    | (_, some _) => false
    | (b, none) => b
  else false

/-- Lines 66-73 of `main`: the variables read off the configuration. -/
def configVars (w : World) (agentConfig : String) : Vars :=
  ⟨(w.Get agentConfig "dataPath").Str, agentConfig,
    (w.Get agentConfig "displayAgentLogs").Bool,
    (w.Get agentConfig "displayLineCount").Int,
    (w.Get agentConfig "monitoringInterval").Int, startOnlyOf w.Args⟩

/-- Lines 45-77 of `main`: arguments and configuration. -/
def readArguments (w : World) : Prog Vars := do
  if 2 ≤ w.Args.length then
    let bfgConfigFilePath := w.Args.getD 1 ""
    let (agentConfig, e) ← ReadConfigurationDataFromFile w bfgConfigFilePath
    match e with
    | some e => panic e
    | none => pure (configVars w agentConfig)
  else
    Println ["Invalid parameters were provided.\nUsage: docker run --mount type=volume,source=mftdata,target=/mftdata -e AGENT_CONFIG_FILE=\"/mftdata/agentconfigsrc.json\" -e START_ONLY -d --name=AGENTSRC mftagentredist\n"]
    pure ⟨"", "", false, 0, 0, false⟩

/-- Lines 79-129 of `main`: `BFG_DATA` and the seven executables. -/
def resolveCommands (w : World) (v : Vars) : Prog Paths := do
  emit (Event.setenv "BFG_DATA" v.bfgDataPath)
  let cmdCoordPath ← lookPathOrPanic w "fteSetupCoordination"
  let cmdCmdsPath ← lookPathOrPanic w "fteSetupCommands"
  let cmdCrtAgntPath ← lookPathOrPanic w "fteCreateAgent"
  let cmdCrtBridgeAgntPath ← lookPathOrPanic w "fteCreateBridgeAgent"
  let cmdStrAgntPath ← lookPathOrPanic w "fteStartAgent"
  let cmdStopAgntPath ← lookPathOrPanic w "fteStopAgent"
  let cmdPingAgntPath ← lookPathOrPanic w "ftePingAgent"
  pure ⟨cmdCoordPath, cmdCmdsPath, cmdCrtAgntPath, cmdCrtBridgeAgntPath, cmdStrAgntPath,
    cmdStopAgntPath, cmdPingAgntPath⟩

/-- The command `cmdSetupCoord` (lines 134-140). -/
def cmdSetupCoord (w : World) (v : Vars) (p : Paths) : Cmd :=
  ⟨"fteSetupCoordination", p.cmdCoordPath,
    [p.cmdCoordPath, "-coordinationQMgr", (w.Get v.agentConfig "coordinationQMgr.name").Str,
      "-coordinationQMgrHost", (w.Get v.agentConfig "coordinationQMgr.host").Str,
      "-coordinationQMgrPort", (w.Get v.agentConfig "coordinationQMgr.port").Str,
      "-coordinationQMgrChannel", (w.Get v.agentConfig "coordinationQMgr.channel").Str, "-f"]⟩

/-- The command `cmdSetupCmds` (lines 154-161). -/
def cmdSetupCmds (w : World) (v : Vars) (p : Paths) : Cmd :=
  ⟨"fteSetupCommands", p.cmdCmdsPath,
    [p.cmdCmdsPath, "-p", (w.Get v.agentConfig "coordinationQMgr.name").Str,
      "-connectionQMgr", (w.Get v.agentConfig "commandsQMgr.name").Str,
      "-connectionQMgrHost", (w.Get v.agentConfig "commandsQMgr.host").Str,
      "-connectionQMgrPort", (w.Get v.agentConfig "commandsQMgr.port").Str,
      "-connectionQMgrChannel", (w.Get v.agentConfig "commandsQMgr.channel").Str, "-f"]⟩

/-- The arguments shared by both agent creation commands, after the executable path
(lines 182-188 and 193-199). -/
def agentArgs (w : World) (v : Vars) : List String :=
  ["-p", (w.Get v.agentConfig "coordinationQMgr.name").Str,
    "-agentName", (w.Get v.agentConfig "agent.name").Str,
    "-agentQMgr", (w.Get v.agentConfig "agent.qmgrName").Str,
    "-agentQMgrHost", (w.Get v.agentConfig "agent.qmgrHost").Str,
    "-agentQMgrPort", (w.Get v.agentConfig "agent.qmgrPort").Str,
    "-agentQMgrChannel", (w.Get v.agentConfig "agent.qmgrChannel").Str,
    "-credentialsFile", (w.Get v.agentConfig "agent.credentialsFile").Str, "-f"]

/-- The standard agent creation command (lines 180-189). -/
def cmdCrtStandardAgnt (w : World) (v : Vars) (p : Paths) : Cmd :=
  ⟨"fteCreateAgent", p.cmdCrtAgntPath, p.cmdCrtAgntPath :: agentArgs w v⟩

/-- The argument list `params` of the bridge agent creation command (lines 191-253). -/
def bridgeParams (w : World) (v : Vars) (p : Paths) : List String :=
  let params := p.cmdCrtBridgeAgntPath :: agentArgs w v
  let serverType := w.Get v.agentConfig "agent.protocolBridge.serverType"
  let params := if serverType.Exists then params ++ ["-bt", serverType.Str]
    else params ++ ["-bt", "FTP"]
  let serverHost := w.Get v.agentConfig "agent.protocolBridge.serverHost"
  let params := if serverHost.Exists then params ++ ["-bh", serverHost.Str]
    else params ++ ["-bh", "localhost"]
  let serverTimezone := w.Get v.agentConfig "agent.protocolBridge.serverTimezone"
  let params := if serverTimezone.Exists then params ++ ["-btz", serverTimezone.Str]
    else params
  let serverPlatform := w.Get v.agentConfig "agent.protocolBridge.serverPlatform"
  let params := if serverPlatform.Exists then params ++ ["-bm", serverPlatform.Str]
    else params
  let serverLocale := w.Get v.agentConfig "agent.protocolBridge.serverLocale"
  let params := if serverType.Str ≠ "SFTP" ∧ serverLocale.Exists = true
    then params ++ ["-bsl", serverLocale.Str] else params
  let serverFileEncoding := w.Get v.agentConfig "agent.protocolBridge.serverFileEncoding"
  let params := if serverFileEncoding.Exists then params ++ ["-bfe", serverFileEncoding.Str]
    else params
  let serverPort := w.Get v.agentConfig "agent.protocolBridge.serverPort"
  let params := if serverPort.Exists then params ++ ["-bp", serverPort.Str] else params
  let serverTrustStoreFile := w.Get v.agentConfig "agent.protocolBridge.serverTrustStoreFile"
  let params := if serverTrustStoreFile.Exists
    then params ++ ["-bts", serverTrustStoreFile.Str] else params
  let serverLimitedWrite := w.Get v.agentConfig "agent.protocolBridge.serverLimitedWrite"
  let params := if serverLimitedWrite.Exists
    then params ++ ["-blw", serverLimitedWrite.Str] else params
  let serverListFormat := w.Get v.agentConfig "agent.protocolBridge.serverListFormat"
  let params := if serverListFormat.Exists
    then params ++ ["-blf", serverListFormat.Str] else params
  params

/-- The bridge agent creation command (lines 255-258). -/
def cmdCrtBridgeAgnt (w : World) (v : Vars) (p : Paths) : Cmd :=
  ⟨"fteCreateBridgeAgent", p.cmdCrtBridgeAgntPath, bridgeParams w v p⟩

/-- The command `cmdCrtAgnt` chosen at lines 178-259. -/
def cmdCrtAgnt (w : World) (v : Vars) (p : Paths) : Cmd :=
  if EqualFold (w.Get v.agentConfig "agent.type").Str "STANDARD" = true
  then cmdCrtStandardAgnt w v p else cmdCrtBridgeAgnt w v p

/-- The two diagnostic lines printed after a failed command:
`fmt.Println("Command: %s\n", outb.String())` and `fmt.Println("Error %s\n", errb.String())`. -/
def printBuffers (r : RunResult) : Prog Unit := do
  Println ["Command: %s\n", r.out]
  Println ["Error %s\n", r.errOut]

/-- Lines 131-273 of `main`: the block guarded by `if !startOnly`. -/
def setup (w : World) (v : Vars) (p : Paths) : Prog Unit := do
  Print ("Setting up coordination configuration "
    ++ (w.Get v.agentConfig "coordinationQMgr.name").Str ++ " for agent "
    ++ (w.Get v.agentConfig "agent.name").Str ++ "\n")
  let r ← Run w (cmdSetupCoord w v p)
  match r.err with
  | some err =>
    Println ["fteSetupCoordination command failed. The error is: ", err]
    printBuffers r
    ret
  | none =>
  Print ("Setting up commands configuration "
    ++ (w.Get v.agentConfig "coordinationQMgr.name").Str ++ " for agent "
    ++ (w.Get v.agentConfig "agent.name").Str ++ "\n")
  let r ← Run w (cmdSetupCmds w v p)
  match r.err with
  | some err =>
    Println ["fteSetupCommands command failed. The errror is: ", err]
    printBuffers r
    ret
  | none =>
  Print ("Creating " ++ (w.Get v.agentConfig "agent.type").Str ++ " agent with name "
    ++ (w.Get v.agentConfig "agent.name").Str ++ " \n")
  let r ← Run w (cmdCrtAgnt w v p)
  match r.err with
  | some err =>
    printBuffers r
    Println ["Create Agent command failed. The error is: ", err]
    ret
  | none => pure ()

/-- Go `gjson.Result.ForEach`: the callback runs on every entry in order until it returns
`false`. -/
def forEach (entries : List (String × String)) (f : String → String → Prog Bool) : Prog Unit :=
  match entries with
  | [] => pure ()
  | (key, value) :: rest => do
    let more ← f key value
    if more then forEach rest f else pure ()

/-- Go `f.WriteString(text)` on the file `name`; on the `nil` file left by a failed
`os.OpenFile` it fails with `os.ErrInvalid` and touches nothing. -/
def WriteString (w : World) (opened : Bool) (name text : String) : Prog (Option Error) :=
  if opened then ask (fun n => w.WriteString n name text) (Event.writeString name text)
  else pure (some "invalid argument")

/-- The callback handed to `ForEach` in `updateAgentProperties` (lines 635-640); `opened`
says whether `os.OpenFile` succeeded. -/
def writeProperty (w : World) (opened : Bool) (propertiesFile key value : String) :
    Prog Bool := do
  let werr ← WriteString w opened propertiesFile ("\n" ++ key ++ "=" ++ value ++ "\n")
  match werr with
  | some e => Println [e]
  | none => pure ()
  pure true

/-- Source `updateAgentProperties` (lines 626-642). -/
def updateAgentProperties (w : World) (propertiesFile agentConfig : String) : Prog Unit := do
  let err ← ask (fun n => w.OpenFile n propertiesFile) (Event.openFile propertiesFile)
  match err with
  | some e => Println [e]
  | none => pure ()
  if (w.Get agentConfig "agent.additionalProperties").Exists then
    forEach (w.Get agentConfig "agent.additionalProperties").Each
      (writeProperty w err.isNone propertiesFile)
  else pure ()

/-- The path of the agent's properties file (line 276). -/
def agentPropertiesFile (w : World) (v : Vars) : String :=
  v.bfgDataPath ++ "/mqft/config/" ++ (w.Get v.agentConfig "coordinationQMgr.name").Str
    ++ "/agents/" ++ (w.Get v.agentConfig "agent.name").Str ++ "/agent.properties"

/-- The command `cmdStrAgnt` (lines 280-283). -/
def cmdStrAgnt (w : World) (v : Vars) (p : Paths) : Cmd :=
  ⟨"fteStartAgent", p.cmdStrAgntPath,
    [p.cmdStrAgntPath, "-p", (w.Get v.agentConfig "coordinationQMgr.name").Str,
      (w.Get v.agentConfig "agent.name").Str]⟩

/-- Lines 275-295 of `main`: properties file and agent start. -/
def startAgent (w : World) (v : Vars) (p : Paths) : Prog Unit := do
  updateAgentProperties w (agentPropertiesFile w v) v.agentConfig
  Print ("Starting agent " ++ (w.Get v.agentConfig "agent.name").Str ++ "\n")
  let r ← Run w (cmdStrAgnt w v p)
  match r.err with
  | some _ =>
    printBuffers r
    ret
  | none => pure ()

/-- The command `cmdListAgents` (lines 305-308, 340-343 and 413-416). -/
def cmdListAgents (w : World) (v : Vars) (cmdListAgentPath : String) : Cmd :=
  ⟨"fteListAgents", cmdListAgentPath,
    [cmdListAgentPath, "-p", (w.Get v.agentConfig "coordinationQMgr.name").Str,
      (w.Get v.agentConfig "agent.name").Str]⟩

/-- Go `int64` wrap-around. -/
def wrapInt64 (x : Int) : Int := (x + 2 ^ 63) % 2 ^ 64 - 2 ^ 63

/-- Go `time.Duration(n) * time.Second`, in nanoseconds. -/
def seconds (n : Int) : Int := wrapInt64 (n * 1000000000)

/-- The path of the agent's log file (line 330). -/
def agentLogPath (w : World) (v : Vars) : String :=
  v.bfgDataPath ++ "/mqft/logs/" ++ (w.Get v.agentConfig "coordinationQMgr.name").Str
    ++ "/agents/" ++ (w.Get v.agentConfig "agent.name").Str ++ "/logs/output0.log"

/-- Lines 297-359 of `main`: the status check after the start, with its one repetition.
The value is the path of `fteListAgents` and the final `agentStatus`. -/
def confirmStart (w : World) (v : Vars) : Prog (String × String) := do
  Print ("Verifying status of agent " ++ (w.Get v.agentConfig "agent.name").Str ++ "\n")
  let cmdListAgentPath ← lookPathOrPanic w "fteListAgents"
  let r ← Run w (cmdListAgents w v cmdListAgentPath)
  match r.err with
  | some err =>
    Println ["Error: ", err]
    printBuffers r
    ret
  | none =>
  let agentStatus := r.out
  if v.showAgentLogs = true then
    emit (Event.goDisplayLog v.displayLines (agentLogPath w v))
  if Contains agentStatus "STOPPED" = true then
    Println ["Agent not started yet. Wait for 10 seconds and recheck status again"]
    emit (Event.sleep (10 * 1000000000))
    let r ← Run w (cmdListAgents w v cmdListAgentPath)
    match r.err with
    | some err =>
      Println ["Error: ", err]
      printBuffers r
      ret
    | none => pure (cmdListAgentPath, r.out)
  else pure (cmdListAgentPath, agentStatus)

/-- The command `cmdCrtMonitorCmd` (lines 604-611). -/
def cmdCrtMonitorCmd
    (cmdCrtMonitorPath coordinationQMgr agentName agentQMgr monitorName fileName : String) :
    Cmd :=
  ⟨"fteCreateMonitor", cmdCrtMonitorPath,
    [cmdCrtMonitorPath, "-p", coordinationQMgr, "-mm", agentQMgr, "-ma", agentName,
      "-mn", monitorName, "-ix", fileName, "-f"]⟩

/-- Source `createResourceMonitor` (lines 595-624); the value is the returned error. -/
def createResourceMonitor (w : World)
    (coordinationQMgr agentName agentQMgr monitorName fileName : String) :
    Prog (Option Error) := do
  Println ["Creating resource monitor " ++ monitorName]
  let (cmdCrtMonitorPath, lookErr) ← LookPath w "fteCreateMonitor"
  match lookErr with
  | some e => pure (some e)
  | none =>
    let res ← Run w (cmdCrtMonitorCmd cmdCrtMonitorPath coordinationQMgr agentName agentQMgr
      monitorName fileName)
    match res.err with
    | some err =>
      Println ["fteCreateMonitor command failed. The errror is: ", err]
      printBuffers res
      pure (some err)
    | none => pure none

/-- The callback handed to `ForEach` for the resource monitors (lines 369-376): the error
of `createResourceMonitor` is dropped and the iteration goes on. -/
def monitorEntry (w : World) (v : Vars) (key value : String) : Prog Bool := do
  let _ ← createResourceMonitor w (w.Get v.agentConfig "coordinationQMgr.name").Str
    (w.Get v.agentConfig "agent.name").Str (w.Get v.agentConfig "agent.qmgrName").Str
    key value
  pure true

/-- Lines 361-389 and 465-468 of `main`: the decision on the final status, the resource
monitors, and the registration of the signal handler. -/
def enterMonitoring (w : World) (v : Vars) (agentStatus : String) : Prog Unit := do
  if Contains agentStatus "READY" = true ∨ Contains agentStatus "ACTIVE" = true then
    Println ["Agent has started."]
    if !v.startOnly then
      if (w.Get v.agentConfig "agent.resourceMonitors").Exists then
        forEach (w.Get v.agentConfig "agent.resourceMonitors").Each (monitorEntry w v)
    Println ["Starting to monitor agent status"]
    emit Event.notify
  else
    Println ["Agent not started. Quitting"]
    ret

/-- Lines 297-389 and 465-468 of `main`: what follows a successful `fteStartAgent`, up to
the monitoring loop.  Falling through (`Flow.next`) is entering the loop. -/
def afterStart (w : World) (v : Vars) (p : Paths) : Prog (Vars × Paths × String) := do
  let (cmdListAgentPath, agentStatus) ← confirmStart w v
  enterMonitoring w v agentStatus
  pure (v, p, cmdListAgentPath)

/-- Everything `main` does before the monitoring loop (lines 33-389). -/
def startup (w : World) : Prog (Vars × Paths × String) := do
  let v ← readArguments w
  let p ← resolveCommands w v
  if !v.startOnly then
    setup w v p
  startAgent w v p
  afterStart w v p

/-- Control points of the monitoring loop (lines 411-464): about to run `fteListAgents`
(`polling`), about to run `ftePingAgent` (`pingCheck`), about to sleep (`sleeping`), and
`main` has returned (`terminated`). -/
inductive LoopPC where
  | polling
  | pingCheck
  | sleeping
  | terminated
deriving DecidableEq, Repr

/-- Control points of the signal handler goroutine (lines 391-408): blocked on `<-sigs`,
about to run `fteStopAgent`, finished. -/
inductive HandlerPC where
  | waiting
  | stopping
  | done
deriving DecidableEq, Repr

/-- The command `cmdPingAgent` (lines 436-439). -/
def cmdPingAgent (w : World) (v : Vars) (p : Paths) : Cmd :=
  ⟨"ftePingAgent", p.cmdPingAgntPath,
    [p.cmdPingAgntPath, "-p", (w.Get v.agentConfig "commandsQMgr.name").Str,
      (w.Get v.agentConfig "agent.name").Str]⟩

/-- The command `cmdStopAgnt` (lines 394-397). -/
def cmdStopAgnt (w : World) (v : Vars) (p : Paths) : Cmd :=
  ⟨"fteStopAgent", p.cmdStopAgntPath,
    [p.cmdStopAgntPath, "-p", (w.Get v.agentConfig "coordinationQMgr.name").Str,
      (w.Get v.agentConfig "agent.name").Str, "-i"]⟩

/-- Lines 413-435 and 459-461: the status query and its classification. -/
def pollStatus (w : World) (v : Vars) (cmdListAgentPath : String) : Prog LoopPC := do
  let r ← Run w (cmdListAgents w v cmdListAgentPath)
  match r.err with
  | some err =>
    Print ("An error occurred when running fteListAgents command. The error is " ++ err
      ++ "\n: ")
    printBuffers r
    ret
  | none =>
    if Contains r.out "UNKNOWN" = true then
      Println ["Agent status unknown. Pinging the agent"]
      pure LoopPC.pingCheck
    else
      Print ("Agent " ++ (w.Get v.agentConfig "agent.name").Str ++ " is running\n")
      pure LoopPC.sleeping

/-- Lines 436-458: the ping probe; falling out of the `if` leads to the next iteration. -/
def pingAgent (w : World) (v : Vars) (p : Paths) : Prog LoopPC := do
  let r ← Run w (cmdPingAgent w v p)
  match r.err with
  | some err =>
    Println ["An error occurred when running ftePingAgent command. The error is: ", err]
    printBuffers r
    ret
  | none =>
    if Contains r.out "BFGCL0214I" = true then
      Print ("Agent " ++ (w.Get v.agentConfig "agent.name").Str
        ++ " did not respond to ping. Monitor exiting\n")
      ret
    else pure LoopPC.polling

/-- Line 462: the sleep that ends an iteration of the `else` branch. -/
def sleepInterval (v : Vars) : Prog LoopPC := do
  emit (Event.sleep (seconds v.monitorWaitInterval))
  pure LoopPC.polling

/-- One step of the monitoring loop from a control point. -/
def loopStep (w : World) (v : Vars) (p : Paths) (cmdListAgentPath : String) :
    LoopPC → Prog LoopPC
  | LoopPC.polling => pollStatus w v cmdListAgentPath
  | LoopPC.pingCheck => pingAgent w v p
  | LoopPC.sleeping => sleepInterval v
  | LoopPC.terminated => ret

/-- One pass through the body of the `for` loop (lines 412-463), from the status query to
the point where the next pass begins or `main` returns. -/
def iteration (w : World) (v : Vars) (p : Paths) (cmdListAgentPath : String) : Prog LoopPC := do
  let pc ← pollStatus w v cmdListAgentPath
  loopStep w v p cmdListAgentPath pc

/-- State of the process once monitoring has begun: both goroutines, whether a signal is
buffered in the channel `sigs` (capacity 1), and the trace. -/
structure Monitor where
  loop : LoopPC
  handler : HandlerPC
  pending : Bool
  trace : List Event
deriving DecidableEq

/-- What happens next: a signal arrives, the handler goroutine moves, or the loop moves. -/
inductive Tick where
  | signal
  | handler
  | loop
deriving DecidableEq, Repr

/-- The loop goroutine moves. -/
def tickLoop (w : World) (v : Vars) (p : Paths) (cmdListAgentPath : String) (m : Monitor) :
    Monitor :=
  match loopStep w v p cmdListAgentPath m.loop m.trace.length with
  | (Flow.next pc, es) => ⟨pc, m.handler, m.pending, m.trace ++ es⟩
  | (_, es) => ⟨LoopPC.terminated, m.handler, m.pending, m.trace ++ es⟩

/-- The handler goroutine moves (lines 391-408). -/
def tickHandler (w : World) (v : Vars) (p : Paths) (m : Monitor) : Monitor :=
  match m.handler with
  | HandlerPC.waiting =>
    if m.pending then
      ⟨m.loop, HandlerPC.stopping, false, m.trace ++
        (Print ("Stopping agent " ++ (w.Get v.agentConfig "agent.name").Str ++ "\n")
          m.trace.length).2⟩
    else m
  | HandlerPC.stopping =>
    let prog : Prog Unit := do
      let r ← Run w (cmdStopAgnt w v p)
      match r.err with
      | some err =>
        Println ["An error occured when running fteStopAgent command. The error is: ", err]
      | none => pure ()
      Print ("Stopped agent " ++ (w.Get v.agentConfig "agent.name").Str ++ "\n")
    ⟨m.loop, HandlerPC.done, m.pending, m.trace ++ (prog m.trace.length).2⟩
  | HandlerPC.done => m

/-- One step of the process after `signal.Notify`.  Once `main` has returned the process
is gone and nothing happens any more.  A `sleep` event is recorded when the sleep ends, so
a signal that arrives while the loop is at `sleeping` arrives during the sleep. -/
def tick (w : World) (v : Vars) (p : Paths) (cmdListAgentPath : String) (m : Monitor) :
    Tick → Monitor
  | Tick.signal =>
    if m.loop = LoopPC.terminated then m
    else ⟨m.loop, m.handler, true, m.trace ++ [Event.signal]⟩
  | Tick.handler =>
    if m.loop = LoopPC.terminated then m else tickHandler w v p m
  | Tick.loop => tickLoop w v p cmdListAgentPath m

/-- The monitoring phase under a schedule. -/
def monitor (w : World) (v : Vars) (p : Paths) (cmdListAgentPath : String)
    (sched : List Tick) (m : Monitor) : Monitor :=
  sched.foldl (tick w v p cmdListAgentPath) m

/-- Source `main` (lines 33-469) under a schedule for the monitoring phase.  `Flow.next`
says that the process is still running when the schedule is used up. -/
def main (w : World) (sched : List Tick) : Flow Unit × List Event :=
  match startup w 0 with
  | (Flow.next (v, p, cmdListAgentPath), t) =>
    let m := monitor w v p cmdListAgentPath sched
      ⟨LoopPC.polling, HandlerPC.waiting, false, t⟩
    (if m.loop = LoopPC.terminated then Flow.returned else Flow.next (), m.trace)
  | (Flow.returned, t) => (Flow.returned, t)
  | (Flow.panicked e, t) => (Flow.panicked e, t)

/-- The body of the first loop of `DisplayAgentOutputLog` for a line that was read
(lines 490-494): append it and, when the length then equals `displayLines`, drop the
front element. -/
def pushLine (displayLines : Int) (logFileLines : List String) (s : String) : List String :=
  let logFileLines := logFileLines ++ [s]
  if (logFileLines.length : Int) = displayLines then logFileLines.tail else logFileLines

/-- The first loop of `DisplayAgentOutputLog` (lines 485-498) over the successive results
of `Readln`: it stops at the first error. -/
def readBacklog (displayLines : Int) :
    List String → List (String × Option Error) → List String
  | logFileLines, [] => logFileLines
  | logFileLines, (s, none) :: rest => readBacklog displayLines (pushLine displayLines logFileLines s) rest
  | logFileLines, (_, some _) :: _ => logFileLines

/-- The buffer after `lines` have been read successfully one after the other. -/
def bufferAfter (displayLines : Int) (lines : List String) : List String :=
  readBacklog displayLines [] (lines.map (fun s => (s, none)))

/-- The attributes `validateAttributes` checks. -/
def requiredAttributes : List String :=
  ["dataPath", "coordinationQMgr.name", "commandsQMgr.name", "agent.name", "agent.qmgrName",
    "agent.credentialsFile"]

/-- The commands run in a trace, in order, each with its result. -/
def commands : List Event → List (Cmd × RunResult)
  | [] => []
  | Event.run c r :: rest => (c, r) :: commands rest
  | _ :: rest => commands rest

/-- A `gjson.Get` over a table of the paths that exist, for example configurations. -/
def tableGet (table : List (String × Result)) (_json path : String) : Result :=
  (table.lookup path).getD ⟨false, "", 0, false, []⟩

/-- A configuration value that exists and is a string. -/
def text (s : String) : Result := ⟨true, s, 0, false, []⟩

/-- The six required attributes of the example configurations. -/
def exampleRequired : List (String × Result) :=
  [("dataPath", text "/mnt"), ("coordinationQMgr.name", text "QMC"),
    ("commandsQMgr.name", text "QMD"), ("agent.name", text "AG"),
    ("agent.qmgrName", text "QMA"), ("agent.credentialsFile", text "cred.xml")]

/-- An example environment: arguments and configuration table as given, every file opens,
every executable is found in `/bin`, and the command run at clock `n` answers
`answers n`. -/
def exampleWorld (args : List String) (table : List (String × Result))
    (answers : Nat → RunResult) : World :=
  ⟨args, tableGet table, fun _ _ => none, fun _ _ => ("doc", none),
    fun _ file => ("/bin/" ++ file, none), fun n _ => answers n, fun _ _ => none,
    fun _ _ _ => none⟩

/-- An example environment whose configuration lacks `coordinationQMgr.name`. -/
def worldMissingName : World :=
  exampleWorld ["mftcfg", "cfg.json"] [("dataPath", text "/mnt")] (fun _ => ⟨none, "", ""⟩)

/-- Example variables: data path `/mnt`, polling every 30 seconds. -/
def exampleVars : Vars := ⟨"/mnt", "doc", false, 0, 30, false⟩

/-- Example executable paths. -/
def examplePaths : Paths :=
  ⟨"/bin/fteSetupCoordination", "/bin/fteSetupCommands", "/bin/fteCreateAgent",
    "/bin/fteCreateBridgeAgent", "/bin/fteStartAgent", "/bin/fteStopAgent",
    "/bin/ftePingAgent"⟩

/-- An example environment in which every command succeeds with the same output. -/
def worldAnswering (out : String) : World :=
  exampleWorld ["mftcfg", "cfg.json"] exampleRequired (fun _ => ⟨none, out, ""⟩)

/-- Whether a trace contains a run of `ftePingAgent`. -/
def pinged (es : List Event) : Bool :=
  (commands es).any (fun cr => cr.1.name == "ftePingAgent")

/-- An example environment for the monitoring loop started at clock 0: the agent is
reported as `UNKNOWN` and answers every ping. -/
def worldUnknownResponsive : World :=
  exampleWorld ["mftcfg", "cfg.json"] exampleRequired
    (fun n => if n % 3 = 2 then ⟨none, "BFGCL0213I: Agent AG responded to ping", ""⟩
      else ⟨none, "AG QMA UNKNOWN", ""⟩)

/-- An example environment for a signal that arrives at clock 0: the stop command runs at
clock 2, later status queries report the agent as stopped. -/
def worldStopping : World :=
  exampleWorld ["mftcfg", "cfg.json"] exampleRequired
    (fun n => if n = 2 then ⟨none, "BFGCL0034I: Stop request issued to agent AG", ""⟩
      else ⟨none, "AG QMA STOPPED", ""⟩)

/-- The steps of the pipeline that leads to a started agent. -/
inductive Action where
  | coordinationSetup
  | commandsSetup
  | agentCreation
  | propertiesPatch
  | agentStart
deriving DecidableEq, Repr

/-- The step an event stands for: the run of one of the setup or start commands, or the
`os.OpenFile` with which `updateAgentProperties` begins. -/
def actionOf : Event → Option Action
  | Event.run c _ =>
    if c.name = "fteSetupCoordination" then some Action.coordinationSetup
    else if c.name = "fteSetupCommands" then some Action.commandsSetup
    else if c.name = "fteCreateAgent" ∨ c.name = "fteCreateBridgeAgent"
      then some Action.agentCreation
    else if c.name = "fteStartAgent" then some Action.agentStart
    else none
  | Event.openFile _ _ => some Action.propertiesPatch
  | _ => none

/-- The steps performed in a trace, in order. -/
def actions (es : List Event) : List Action := es.filterMap actionOf

/-- The pipeline in full. -/
def pipeline : List Action :=
  [Action.coordinationSetup, Action.commandsSetup, Action.agentCreation,
    Action.propertiesPatch, Action.agentStart]

/-- Whether an event is the run of a pipeline command that failed. -/
def failedStep : Event → Bool
  | Event.run c r => (actionOf (Event.run c r)).isSome && r.err.isSome
  | _ => false

/-- The events that follow the first failed pipeline command (none when no such command
failed). -/
def afterFailedStep : List Event → List Event
  | [] => []
  | e :: es => if failedStep e then es else afterFailedStep es

/-- Whether an event is console output. -/
def isPrint : Event → Bool
  | Event.print _ => true
  | _ => false

/-- The file and text of a `WriteString` event. -/
def writeOf : Event → Option (String × String)
  | Event.writeString name text _ => some (name, text)
  | _ => none

/-- The texts handed to `WriteString`, in order, each with its file. -/
def writes (es : List Event) : List (String × String) := es.filterMap writeOf

/-- Every event a piece of the program performs satisfies `P`. -/
def Emits {α : Type} (P : Event → Prop) (m : Prog α) : Prop :=
  ∀ n, ∀ e ∈ (m n).2, P e

/-- A piece of the program never ends `main`: it always falls through. -/
def Falls {α : Type} (m : Prog α) : Prop := ∀ n, ∃ a, (m n).1 = Flow.next a

/-- The events of a successful `ReadConfigurationDataFromFile` on the first argument. -/
def readEvents (w : World) (doc : String) : List Event :=
  [Event.osOpen (w.Args.getD 1 "") none,
    Event.print ("Setting up agent using configuration file " ++ w.Args.getD 1 "" ++ "\n"),
    Event.readAll (w.Args.getD 1 "") doc none]

/-- An event that is neither a pipeline step nor a write to a file. -/
def Quiet (e : Event) : Prop := actionOf e = none ∧ writeOf e = none

/-- An event that is neither a pipeline step, nor a write, nor the run of a command. -/
def Idle (e : Event) : Prop := Quiet e ∧ ∀ c r, e ≠ Event.run c r

/-- A piece of the program never executes `return`. -/
def NoReturn {α : Type} (m : Prog α) : Prop := ∀ n, (m n).1 ≠ Flow.returned

/-- An event that is neither a pipeline step nor the run of a command. -/
def Still (e : Event) : Prop := actionOf e = none ∧ ∀ c r, e ≠ Event.run c r

/-- The line appended to the properties file for one entry (line 636). -/
def propertyLine (propertiesFile : String) (kv : String × String) : String × String :=
  (propertiesFile, "\n" ++ kv.1 ++ "=" ++ kv.2 ++ "\n")

/-- A panic of this piece of the program is the error of a failed `exec.LookPath` that it
has recorded. -/
def PanicsOnLookup {α : Type} (m : Prog α) : Prop :=
  ∀ n e, (m n).1 = Flow.panicked e → ∃ file path, Event.lookPath file path (some e) ∈ (m n).2

/-- What C10 says about an outcome of `main`: the steps are an initial part of the
pipeline; with no failed step they are the whole pipeline, unless `main` panicked on a
failed executable lookup before the first step; after a failed step `main` has returned
and only console output follows. -/
def PipelineCut (r : Flow Unit × List Event) : Prop :=
  actions r.2 <+: pipeline ∧
    (r.2.any failedStep = false →
      actions r.2 = pipeline ∨
        (actions r.2 = [] ∧ ∃ e file path, r.1 = Flow.panicked e ∧
          Event.lookPath file path (some e) ∈ r.2)) ∧
    (r.2.any failedStep = true →
      r.1 = Flow.returned ∧ (afterFailedStep r.2).all isPrint = true)

/-- The commands of the setup block. -/
def setupCommands : List String :=
  ["fteSetupCoordination", "fteSetupCommands", "fteCreateAgent", "fteCreateBridgeAgent"]

/-- An example environment started with `START_ONLY` true whose configuration has one
additional property. -/
def worldStartOnly : World :=
  exampleWorld ["mftcfg", "cfg.json", "true"]
    (exampleRequired ++ [("agent.additionalProperties",
      ⟨true, "\x7b\"maxSourceTransfers\":10\x7d", 0, false, [("maxSourceTransfers", "10")]⟩)])
    (fun _ => ⟨none, "AG QMA READY", ""⟩)

/-- What the start confirmation does to learn the agent's status: a status query with its
result, or a wait. -/
inductive Probe where
  | query (r : RunResult)
  | wait (nanoseconds : Int)
deriving DecidableEq

/-- The probe an event stands for: a run of `fteListAgents` or a sleep. -/
def probeOf : Event → Option Probe
  | Event.run c r => if c.name = "fteListAgents" then some (Probe.query r) else none
  | Event.sleep d => some (Probe.wait d)
  | _ => none

/-- The probes of a trace, in order. -/
def probes (es : List Event) : List Probe := es.filterMap probeOf

/-- The console line, lookup and command events of resource monitor creation are no
probes. -/
def NoProbe (e : Event) : Prop := probeOf e = none

/-- The agent creation commands run in a trace, in order, each with its result. -/
def creations (es : List Event) : List (Cmd × RunResult) :=
  (commands es).filter
    (fun cr => decide (cr.1.name = "fteCreateAgent" ∨ cr.1.name = "fteCreateBridgeAgent"))

/-- An example environment whose configuration spells the agent type in lower case. -/
def worldLowerCaseType : World :=
  exampleWorld ["mftcfg", "cfg.json"] (exampleRequired ++ [("agent.type", text "standard")])
    (fun _ => ⟨none, "AG QMA READY", ""⟩)

/-- Read an argument list as flag/value pairs. -/
def pairUp : List String → List (String × String)
  | a :: b :: rest => (a, b) :: pairUp rest
  | _ => []

/-- Write flag/value pairs as an argument list. -/
def unpair : List (String × String) → List String
  | [] => []
  | (a, b) :: rest => a :: b :: unpair rest

/-- The flag/value pairs that follow the sixteen fixed arguments of the bridge agent
creation command (the executable path, the seven flag/value pairs of `agentArgs` and
`-f`). -/
def bridgeOptions (args : List String) : List (String × String) := pairUp (args.drop 16)

/-- The pairs with a given flag. -/
def withFlag (flag : String) (ps : List (String × String)) : List (String × String) :=
  ps.filter (fun q => decide (q.1 = flag))

/-- The pair an optional parameter contributes: its flag and value when it exists. -/
def optional (flag : String) (r : Result) : List (String × String) :=
  if r.Exists then [(flag, r.Str)] else []

/-- The flag/value pairs that lines 201-253 append to `params`, in order. -/
def bridgePairs (w : World) (v : Vars) : List (String × String) :=
  [("-bt", if (w.Get v.agentConfig "agent.protocolBridge.serverType").Exists
        then (w.Get v.agentConfig "agent.protocolBridge.serverType").Str else "FTP"),
      ("-bh", if (w.Get v.agentConfig "agent.protocolBridge.serverHost").Exists
        then (w.Get v.agentConfig "agent.protocolBridge.serverHost").Str
        else "localhost")] ++
    optional "-btz" (w.Get v.agentConfig "agent.protocolBridge.serverTimezone") ++
    optional "-bm" (w.Get v.agentConfig "agent.protocolBridge.serverPlatform") ++
    (if (w.Get v.agentConfig "agent.protocolBridge.serverType").Str ≠ "SFTP" ∧
        (w.Get v.agentConfig "agent.protocolBridge.serverLocale").Exists = true
      then [("-bsl", (w.Get v.agentConfig "agent.protocolBridge.serverLocale").Str)]
      else []) ++
    optional "-bfe" (w.Get v.agentConfig "agent.protocolBridge.serverFileEncoding") ++
    optional "-bp" (w.Get v.agentConfig "agent.protocolBridge.serverPort") ++
    optional "-bts" (w.Get v.agentConfig "agent.protocolBridge.serverTrustStoreFile") ++
    optional "-blw" (w.Get v.agentConfig "agent.protocolBridge.serverLimitedWrite") ++
    optional "-blf" (w.Get v.agentConfig "agent.protocolBridge.serverListFormat")

/-- An example environment with a bridge agent for an FTP server: type, host, locale and
port are configured, the other bridge parameters are not. -/
def worldBridge : World :=
  exampleWorld ["mftcfg", "cfg.json"]
    (exampleRequired ++ [("agent.type", text "BRIDGE"),
      ("agent.protocolBridge.serverType", text "FTP"),
      ("agent.protocolBridge.serverHost", text "ftp.example.com"),
      ("agent.protocolBridge.serverLocale", text "en_US"),
      ("agent.protocolBridge.serverPort", text "21")])
    (fun _ => ⟨none, "AG QMA READY", ""⟩)

/-- What resource monitor creation does with `fteCreateMonitor`: the lookup of the
executable with which every call of `createResourceMonitor` begins, with the error it gave,
or the run of the command. -/
inductive Provision where
  | lookup (err : Option Error)
  | create (c : Cmd)
deriving DecidableEq

/-- The provisioning step an event stands for: an `exec.LookPath` of `fteCreateMonitor` or a
run of that command. -/
def provisionOf : Event → Option Provision
  | Event.lookPath file _ err =>
    if file = "fteCreateMonitor" then some (Provision.lookup err) else none
  | Event.run c _ => if c.name = "fteCreateMonitor" then some (Provision.create c) else none
  | _ => none

/-- The provisioning steps of a trace, in order. -/
def provisions (es : List Event) : List Provision := es.filterMap provisionOf

/-- Whether a provisioning step is the lookup that opens a call of
`createResourceMonitor`. -/
def isLookup : Provision → Bool
  | Provision.lookup _ => true
  | Provision.create _ => false

/-- An event that is no provisioning step. -/
def NoProvision (e : Event) : Prop := provisionOf e = none

/-- The entries of `agent.resourceMonitors` that lines 361-378 hand to
`createResourceMonitor`, given the final status text: every entry when the text contains
`READY` or `ACTIVE`, `startOnly` is false and the attribute exists; none otherwise. -/
def monitorsToCreate (w : World) (v : Vars) (agentStatus : String) : List (String × String) :=
  if (Contains agentStatus "READY" = true ∨ Contains agentStatus "ACTIVE" = true) ∧
      v.startOnly = false ∧ (w.Get v.agentConfig "agent.resourceMonitors").Exists = true
    then (w.Get v.agentConfig "agent.resourceMonitors").Each
    else []

/-- The provisioning steps of one call of `createResourceMonitor` (from the callback of
lines 369-376) for an entry, when `fteCreateMonitor` is found at `cmdCrtMonitorPath`. -/
def provisionOfEntry (w : World) (v : Vars) (cmdCrtMonitorPath : String)
    (kv : String × String) : List Provision :=
  [Provision.lookup none,
    Provision.create (cmdCrtMonitorCmd cmdCrtMonitorPath
      (w.Get v.agentConfig "coordinationQMgr.name").Str (w.Get v.agentConfig "agent.name").Str
      (w.Get v.agentConfig "agent.qmgrName").Str kv.1 kv.2)]

/-- The resource monitors of the example configurations below. -/
def exampleMonitors : List (String × Result) :=
  [("agent.resourceMonitors",
    ⟨true, "\x7b\"MON1\":\"/mnt/in\",\"MON2\":\"/mnt/out\"\x7d", 0, false,
      [("MON1", "/mnt/in"), ("MON2", "/mnt/out")]⟩)]

/-- An example environment whose configuration asks for two resource monitors; every status
query reports the agent as `READY`. -/
def worldMonitors : World :=
  exampleWorld ["mftcfg", "cfg.json"] (exampleRequired ++ exampleMonitors)
    (fun _ => ⟨none, "AG QMA READY", ""⟩)

/-- The same environment started with `START_ONLY` true. -/
def worldStartOnlyMonitors : World :=
  exampleWorld ["mftcfg", "cfg.json", "true"] (exampleRequired ++ exampleMonitors)
    (fun _ => ⟨none, "AG QMA READY", ""⟩)

/-! ## Theorems -/

theorem after_nil {α : Type} (r : Flow α × List Event) : after [] r = r := rfl

theorem after_after {α : Type} (es fs : List Event) (r : Flow α × List Event) :
    after es (after fs r) = after (es ++ fs) r := by
  simp [after]

theorem after_mk {α : Type} (es fs : List Event) (x : Flow α) :
    after es (x, fs) = (x, es ++ fs) := rfl

theorem bind_emit {β : Type} (e : Event) (f : Unit → Prog β) (n : Nat) :
    (emit e >>= f) n = after [e] (f () (n + 1)) := rfl

theorem bind_ask {α β : Type} (q : Nat → α) (ev : α → Event) (f : α → Prog β) (n : Nat) :
    (ask q ev >>= f) n = after [ev (q n)] (f (q n) (n + 1)) := rfl

theorem bind_ret {α β : Type} (f : α → Prog β) (n : Nat) :
    ((ret : Prog α) >>= f) n = (Flow.returned, []) := rfl

theorem bind_panic {α β : Type} (e : Error) (f : α → Prog β) (n : Nat) :
    ((panic e : Prog α) >>= f) n = (Flow.panicked e, []) := rfl

theorem bind_pure {α β : Type} (a : α) (f : α → Prog β) (n : Nat) :
    ((pure a : Prog α) >>= f) n = f a n := by
  show after [] (f a (n + 0)) = f a n
  rfl

theorem pure_apply {α : Type} (a : α) (n : Nat) :
    (pure a : Prog α) n = (Flow.next a, []) := rfl

theorem ret_apply {α : Type} (n : Nat) : (ret : Prog α) n = (Flow.returned, []) := rfl

theorem panic_apply {α : Type} (e : Error) (n : Nat) :
    (panic e : Prog α) n = (Flow.panicked e, []) := rfl

theorem emit_apply (e : Event) (n : Nat) : emit e n = (Flow.next (), [e]) := rfl

theorem ask_apply {α : Type} (q : Nat → α) (ev : α → Event) (n : Nat) :
    ask q ev n = (Flow.next (q n), [ev (q n)]) := rfl

theorem bind_apply {α β : Type} (m : Prog α) (f : α → Prog β) (n : Nat) :
    (m >>= f) n = match m n with
      | (Flow.next a, es) => after es (f a (n + es.length))
      | (Flow.returned, es) => (Flow.returned, es)
      | (Flow.panicked e, es) => (Flow.panicked e, es) := rfl

theorem bind_assoc {α β γ : Type} (m : Prog α) (f : α → Prog β) (g : β → Prog γ) :
    (m >>= f) >>= g = m >>= fun a => f a >>= g := by
  funext n
  simp only [bind_apply]
  rcases h : m n with ⟨x, es⟩
  cases x with
  | next a =>
    simp only []
    rcases h2 : f a (n + es.length) with ⟨y, fs⟩
    cases y <;> simp [after, Nat.add_assoc]
  | returned => rfl
  | panicked e => rfl

theorem validate_missing (Get : String → String → Result) (doc : String)
    (h : ∃ path ∈ requiredAttributes, (Get doc path).Exists = false) :
    ∃ e, validateAttributes Get doc = some e := by
  obtain ⟨path, hp, hx⟩ := h
  unfold validateAttributes
  simp only [requiredAttributes, List.mem_cons, List.mem_singleton, List.not_mem_nil,
    or_false] at hp
  rcases hp with rfl | rfl | rfl | rfl | rfl | rfl <;> simp [hx] <;> (repeat' split) <;> simp

/-- C1: when the configuration file named by the first argument opens and reads as a
document in which one of the six required attributes does not exist, `validateAttributes`
returns an error, `ReadConfigurationDataFromFile` returns that same error, and `main`
panics with it after three events (open, console line, read): no command has been run and
no executable has even been looked up. -/
theorem missing_attribute_panics_before_commands (w : World) (sched : List Tick)
    (doc : String) (hargs : 2 ≤ w.Args.length)
    (hopen : w.Open 0 (w.Args.getD 1 "") = none)
    (hread : w.ReadAll 2 (w.Args.getD 1 "") = (doc, none))
    (hmiss : ∃ path ∈ requiredAttributes, (w.Get doc path).Exists = false) :
    ∃ e, validateAttributes w.Get doc = some e ∧
      (ReadConfigurationDataFromFile w (w.Args.getD 1 "") 0).1 = Flow.next (doc, some e) ∧
      main w sched =
        (Flow.panicked e,
          [Event.osOpen (w.Args.getD 1 "") none,
           Event.print ("Setting up agent using configuration file " ++ w.Args.getD 1 ""
             ++ "\n"),
           Event.readAll (w.Args.getD 1 "") doc none]) ∧
      commands (main w sched).2 = [] := by
  obtain ⟨e, he⟩ := validate_missing w.Get doc hmiss
  have hR : ReadConfigurationDataFromFile w (w.Args.getD 1 "") 0 =
        (Flow.next (doc, some e),
          [Event.osOpen (w.Args.getD 1 "") none,
           Event.print ("Setting up agent using configuration file " ++ w.Args.getD 1 ""
             ++ "\n"),
           Event.readAll (w.Args.getD 1 "") doc none]) := by
    simp only [ReadConfigurationDataFromFile, bind_ask, hopen, Println, bind_emit, hread, he,
      spaced, pure_apply, after_mk, after_after]
    rfl
  have hM : main w sched =
        (Flow.panicked e,
          [Event.osOpen (w.Args.getD 1 "") none,
           Event.print ("Setting up agent using configuration file " ++ w.Args.getD 1 ""
             ++ "\n"),
           Event.readAll (w.Args.getD 1 "") doc none]) := by
    simp only [main, startup, readArguments, hargs, if_true, bind_assoc]
    simp only [bind_apply, hR, panic_apply, after_mk]
    rfl
  refine ⟨e, he, ?_, hM, ?_⟩
  · rw [hR]
  · rw [hM]; rfl

theorem missing_attribute_panics_before_commands_witness :
    (2 ≤ worldMissingName.Args.length ∧
      worldMissingName.Open 0 (worldMissingName.Args.getD 1 "") = none ∧
      worldMissingName.ReadAll 2 (worldMissingName.Args.getD 1 "") = ("doc", none) ∧
      ∃ path ∈ requiredAttributes, (worldMissingName.Get "doc" path).Exists = false) ∧
    ∃ e, validateAttributes worldMissingName.Get "doc" = some e ∧
      (ReadConfigurationDataFromFile worldMissingName
        (worldMissingName.Args.getD 1 "") 0).1 = Flow.next ("doc", some e) ∧
      main worldMissingName [] =
        (Flow.panicked e,
          [Event.osOpen (worldMissingName.Args.getD 1 "") none,
           Event.print ("Setting up agent using configuration file "
             ++ worldMissingName.Args.getD 1 "" ++ "\n"),
           Event.readAll (worldMissingName.Args.getD 1 "") "doc" none]) ∧
      commands (main worldMissingName []).2 = [] :=
  ⟨⟨by decide, rfl, rfl, "coordinationQMgr.name", by decide, rfl⟩,
    missing_attribute_panics_before_commands worldMissingName [] "doc" (by decide) rfl rfl
      ⟨"coordinationQMgr.name", by decide, rfl⟩⟩

theorem readBacklog_map (d : Int) (lines : List String) (buf : List String) :
    readBacklog d buf (lines.map (fun s => (s, none))) = lines.foldl (pushLine d) buf := by
  induction lines generalizing buf with
  | nil => rfl
  | cons s rest ih => simp [readBacklog, ih]

theorem bufferAfter_snoc (d : Int) (lines : List String) (s : String) :
    bufferAfter d (lines ++ [s]) = pushLine d (bufferAfter d lines) s := by
  unfold bufferAfter
  rw [readBacklog_map, readBacklog_map, List.foldl_append]
  rfl

/-- With a capacity `displayLines = k + 1`, the buffer holds the last `k` lines read (all of
them while fewer than `k` have been read). -/
theorem bufferAfter_succ (k : Nat) (lines : List String) :
    bufferAfter ((k : Int) + 1) lines = lines.drop (lines.length - k) := by
  induction lines using List.reverseRecOn with
  | nil => simp [bufferAfter, readBacklog]
  | append_singleton lines s ih =>
    rw [bufferAfter_snoc, ih]
    unfold pushLine
    simp only [List.length_append, List.length_drop, List.length_singleton]
    by_cases h : k ≤ lines.length
    · have h1 : lines.length - (lines.length - k) + 1 = k + 1 := by omega
      have h2 : ((lines.length - (lines.length - k) + 1 : Nat) : Int) = (k : Int) + 1 := by
        rw [h1]; push_cast; ring
      rw [if_pos h2]
      have h3 : lines.length + 1 - k = (lines.length - k) + 1 := by omega
      rw [h3, ← List.drop_drop, List.drop_one]
      congr 1
      rw [List.drop_append_of_le_length (by omega)]
    · have h1 : lines.length - k = 0 := by omega
      have h2 : lines.length + 1 - k = 0 := by omega
      rw [h1, h2]
      simp only [Nat.sub_zero, List.drop_zero]
      rw [if_neg]
      intro hc
      have : (lines.length + 1 : Int) = k + 1 := by exact_mod_cast hc
      omega

/-- With `displayLines` zero or negative nothing is ever dropped. -/
theorem bufferAfter_nonpos (d : Int) (hd : d ≤ 0) (lines : List String) :
    bufferAfter d lines = lines := by
  induction lines using List.reverseRecOn with
  | nil => rfl
  | append_singleton lines s ih =>
    rw [bufferAfter_snoc, ih]
    unfold pushLine
    rw [if_neg]
    intro hc
    have : (0 : Int) ≤ ((lines ++ [s]).length : Int) := Int.natCast_nonneg _
    simp at hc
    omega

/-- C2: with `displayLineCount` 3 and three lines read, the buffer of
`DisplayAgentOutputLog` holds only the last two lines, not the `min 3 3 = 3` most recent
ones: the front element is dropped as soon as the length reaches `displayLines`. -/
theorem backlog_keeps_one_line_less :
    bufferAfter 3 ["l1", "l2", "l3"] = ["l2", "l3"] ∧
      (bufferAfter 3 ["l1", "l2", "l3"]).length ≠ min 3 3 := by decide

/-- While the product fits into an `int64`, `seconds n` is `n` times a billion. -/
theorem seconds_of_small (n : Int) (h0 : 0 ≤ n) (h1 : n * 1000000000 < 2 ^ 63) :
    seconds n = n * 1000000000 := by
  unfold seconds wrapInt64
  have h2 : (0 : Int) ≤ n * 1000000000 := by positivity
  rw [Int.emod_eq_of_lt (by omega) (by omega)]
  omega

/-- Beyond that range the product wraps around: for 9223372037 seconds the duration handed
to `time.Sleep` is negative. -/
theorem seconds_beyond_int64 : seconds 9223372037 = -9223372036709551616 := by
  decide

theorem commands_append (es fs : List Event) :
    commands (es ++ fs) = commands es ++ commands fs := by
  induction es with
  | nil => rfl
  | cons e es ih => cases e <;> simp [commands, ih]

theorem pollStatus_ok (w : World) (v : Vars) (lp : String) (n : Nat)
    (hok : (w.Run n (cmdListAgents w v lp)).err = none) :
    pollStatus w v lp n =
      if Contains (w.Run n (cmdListAgents w v lp)).out "UNKNOWN" = true then
        (Flow.next LoopPC.pingCheck,
          [Event.run (cmdListAgents w v lp) (w.Run n (cmdListAgents w v lp)),
            Event.print "Agent status unknown. Pinging the agent\n"])
      else
        (Flow.next LoopPC.sleeping,
          [Event.run (cmdListAgents w v lp) (w.Run n (cmdListAgents w v lp)),
            Event.print ("Agent " ++ (w.Get v.agentConfig "agent.name").Str
              ++ " is running\n")]) := by
  simp only [pollStatus, Run, bind_ask, hok]
  split <;> simp [Println, Print, emit_apply, bind_emit, pure_apply, after_mk, spaced]

theorem pollStatus_err (w : World) (v : Vars) (lp : String) (n : Nat) (e : Error)
    (herr : (w.Run n (cmdListAgents w v lp)).err = some e) :
    ∃ es, pollStatus w v lp n =
      (Flow.returned, Event.run (cmdListAgents w v lp) (w.Run n (cmdListAgents w v lp)) :: es)
      ∧ commands es = [] := by
  simp only [pollStatus, Run, bind_ask, herr, Print, printBuffers, Println, bind_emit,
    bind_assoc, ret_apply, after_mk, after_after]
  exact ⟨_, rfl, rfl⟩

theorem pingAgent_ok (w : World) (v : Vars) (p : Paths) (n : Nat)
    (hok : (w.Run n (cmdPingAgent w v p)).err = none) :
    pingAgent w v p n =
      if Contains (w.Run n (cmdPingAgent w v p)).out "BFGCL0214I" = true then
        (Flow.returned,
          [Event.run (cmdPingAgent w v p) (w.Run n (cmdPingAgent w v p)),
            Event.print ("Agent " ++ (w.Get v.agentConfig "agent.name").Str
              ++ " did not respond to ping. Monitor exiting\n")])
      else
        (Flow.next LoopPC.polling,
          [Event.run (cmdPingAgent w v p) (w.Run n (cmdPingAgent w v p))]) := by
  simp only [pingAgent, Run, bind_ask, hok]
  split <;> simp [Print, emit_apply, bind_emit, pure_apply, ret_apply, after_mk]

theorem pingAgent_err (w : World) (v : Vars) (p : Paths) (n : Nat) (e : Error)
    (herr : (w.Run n (cmdPingAgent w v p)).err = some e) :
    ∃ es, pingAgent w v p n =
      (Flow.returned, Event.run (cmdPingAgent w v p) (w.Run n (cmdPingAgent w v p)) :: es)
      ∧ commands es = [] := by
  simp only [pingAgent, Run, bind_ask, herr, Print, printBuffers, Println, bind_emit,
    bind_assoc, ret_apply, after_mk, after_after]
  exact ⟨_, rfl, rfl⟩

theorem iteration_eq (w : World) (v : Vars) (p : Paths) (lp : String) (n : Nat)
    (hok : (w.Run n (cmdListAgents w v lp)).err = none) :
    iteration w v p lp n =
      if Contains (w.Run n (cmdListAgents w v lp)).out "UNKNOWN" = true then
        after [Event.run (cmdListAgents w v lp) (w.Run n (cmdListAgents w v lp)),
            Event.print "Agent status unknown. Pinging the agent\n"]
          (pingAgent w v p (n + 2))
      else
        (Flow.next LoopPC.polling,
          [Event.run (cmdListAgents w v lp) (w.Run n (cmdListAgents w v lp)),
            Event.print ("Agent " ++ (w.Get v.agentConfig "agent.name").Str
              ++ " is running\n"),
            Event.sleep (seconds v.monitorWaitInterval)]) := by
  by_cases hu : Contains (w.Run n (cmdListAgents w v lp)).out "UNKNOWN" = true
  · simp only [iteration, bind_apply, pollStatus_ok w v lp n hok, hu, if_true]
    rfl
  · simp only [iteration, bind_apply, pollStatus_ok w v lp n hok, hu, if_false]
    rfl

theorem pingAgent_head (w : World) (v : Vars) (p : Paths) (n : Nat) :
    ∃ es, (pingAgent w v p n).2 =
      Event.run (cmdPingAgent w v p) (w.Run n (cmdPingAgent w v p)) :: es := by
  rcases h : (w.Run n (cmdPingAgent w v p)).err with _ | e
  · rw [pingAgent_ok w v p n h]
    split <;> exact ⟨_, rfl⟩
  · obtain ⟨es, h1, _⟩ := pingAgent_err w v p n e h
    exact ⟨es, by rw [h1]⟩

theorem pollStatus_head (w : World) (v : Vars) (lp : String) (n : Nat) :
    ∃ es, (pollStatus w v lp n).2 =
      Event.run (cmdListAgents w v lp) (w.Run n (cmdListAgents w v lp)) :: es := by
  rcases h : (w.Run n (cmdListAgents w v lp)).err with _ | e
  · rw [pollStatus_ok w v lp n h]
    split <;> exact ⟨_, rfl⟩
  · obtain ⟨es, h1, _⟩ := pollStatus_err w v lp n e h
    exact ⟨es, by rw [h1]⟩

/-- Two steps of the loop goroutine from `polling` are one pass through the loop body. -/
theorem two_steps_are_an_iteration (w : World) (v : Vars) (p : Paths) (lp : String)
    (m : Monitor) (h : m.loop = LoopPC.polling) :
    (monitor w v p lp [Tick.loop, Tick.loop] m).trace =
      m.trace ++ (iteration w v p lp m.trace.length).2 := by
  obtain ⟨l, hd, pe, tr⟩ := m
  simp only at h
  subst h
  show (tickLoop w v p lp (tickLoop w v p lp _)).trace = _
  simp only [iteration, bind_apply, tickLoop, loopStep]
  rcases hp : pollStatus w v lp tr.length with ⟨fl, es⟩
  cases fl with
  | next pc =>
    cases pc with
    | polling =>
      simp only [loopStep, List.length_append]
      rcases hq : pollStatus w v lp (tr.length + es.length) with ⟨f2, es2⟩
      cases f2 <;> simp [after]
    | pingCheck =>
      simp only [loopStep, List.length_append]
      rcases hq : pingAgent w v p (tr.length + es.length) with ⟨f2, es2⟩
      cases f2 <;> simp [after]
    | sleeping =>
      simp only [loopStep, List.length_append]
      rcases hq : sleepInterval v (tr.length + es.length) with ⟨f2, es2⟩
      cases f2 <;> simp [after]
    | terminated =>
      simp [loopStep, after, ret_apply]
  | returned => simp [loopStep, ret_apply]
  | panicked e => simp [loopStep, ret_apply]

/-- C5: after a successful `fteListAgents` query, the pass through the loop body runs
`ftePingAgent` if and only if the status text contains `UNKNOWN`; when it does not, the
pass is the query, the line that reports the agent as running and one call of `time.Sleep`
with `time.Duration(monitorWaitInterval) * time.Second`, and the next thing the loop does is
another `fteListAgents` query. For a configured interval of `monitorWaitInterval` seconds
that is not negative and whose count of nanoseconds is below `2 ^ 63`, the duration slept is
exactly `monitorWaitInterval * 1000000000` nanoseconds. -/
theorem ping_iff_status_unknown (w : World) (v : Vars) (p : Paths) (lp : String) (n : Nat)
    (hok : (w.Run n (cmdListAgents w v lp)).err = none) :
    (pinged (iteration w v p lp n).2 = true ↔
        Contains (w.Run n (cmdListAgents w v lp)).out "UNKNOWN" = true) ∧
      (Contains (w.Run n (cmdListAgents w v lp)).out "UNKNOWN" = false →
        iteration w v p lp n =
          (Flow.next LoopPC.polling,
            [Event.run (cmdListAgents w v lp) (w.Run n (cmdListAgents w v lp)),
              Event.print ("Agent " ++ (w.Get v.agentConfig "agent.name").Str
                ++ " is running\n"),
              Event.sleep (seconds v.monitorWaitInterval)]) ∧
        (0 ≤ v.monitorWaitInterval → v.monitorWaitInterval * 1000000000 < 2 ^ 63 →
          iteration w v p lp n =
            (Flow.next LoopPC.polling,
              [Event.run (cmdListAgents w v lp) (w.Run n (cmdListAgents w v lp)),
                Event.print ("Agent " ++ (w.Get v.agentConfig "agent.name").Str
                  ++ " is running\n"),
                Event.sleep (v.monitorWaitInterval * 1000000000)])) ∧
        ∃ es, (loopStep w v p lp LoopPC.polling (n + 3)).2 =
          Event.run (cmdListAgents w v lp) (w.Run (n + 3) (cmdListAgents w v lp)) :: es) := by
  have h := iteration_eq w v p lp n hok
  by_cases hu : Contains (w.Run n (cmdListAgents w v lp)).out "UNKNOWN" = true
  · rw [if_pos hu] at h
    obtain ⟨es, hes⟩ := pingAgent_head w v p (n + 2)
    refine ⟨?_, fun hc => by rw [hu] at hc; cases hc⟩
    rw [h]
    simp [hu, after, hes, pinged, commands, cmdPingAgent]
  · rw [if_neg hu] at h
    refine ⟨⟨fun hp => ?_, fun hc => absurd hc hu⟩,
      fun _ => ⟨h, fun h0 h1 => ?_, pollStatus_head w v lp (n + 3)⟩⟩
    · rw [h] at hp
      simp [pinged, commands, cmdListAgents] at hp
    · have hs : seconds v.monitorWaitInterval = v.monitorWaitInterval * 1000000000 := by
        unfold seconds wrapInt64
        rw [Int.emod_eq_of_lt (by omega) (by omega)]
        omega
      rw [h, hs]

/-- C4 (as amended): when a successful `fteListAgents` query returns a status text that
contains `READY` or `ACTIVE` and does not contain `UNKNOWN`, the pass through the loop body
consists of the query, the console line and the sleep of the configured interval, and no
`ftePingAgent` is run. -/
theorem ready_without_unknown_sleeps_without_ping (w : World) (v : Vars) (p : Paths) (lp : String) (n : Nat)
    (hok : (w.Run n (cmdListAgents w v lp)).err = none)
    (_hready : Contains (w.Run n (cmdListAgents w v lp)).out "READY" = true ∨
      Contains (w.Run n (cmdListAgents w v lp)).out "ACTIVE" = true)
    (hu : Contains (w.Run n (cmdListAgents w v lp)).out "UNKNOWN" = false) :
    iteration w v p lp n =
        (Flow.next LoopPC.polling,
          [Event.run (cmdListAgents w v lp) (w.Run n (cmdListAgents w v lp)),
            Event.print ("Agent " ++ (w.Get v.agentConfig "agent.name").Str
              ++ " is running\n"),
            Event.sleep (seconds v.monitorWaitInterval)]) ∧
      pinged (iteration w v p lp n).2 = false := by
  have h := iteration_eq w v p lp n hok
  rw [if_neg (by rw [hu]; simp)] at h
  rw [h]
  simp [pinged, commands, cmdListAgents]

/-- C4, counterexample: the status text `ACTIVE1 QMA UNKNOWN` (an agent named `ACTIVE1`
whose status is unknown) contains `ACTIVE`, and yet the pass through the loop body runs
`ftePingAgent`. -/
theorem ready_with_unknown_is_pinged :
    ((worldAnswering "ACTIVE1 QMA UNKNOWN").Run 0
        (cmdListAgents (worldAnswering "ACTIVE1 QMA UNKNOWN") exampleVars "/bin/fteListAgents")).err = none ∧
      Contains ((worldAnswering "ACTIVE1 QMA UNKNOWN").Run 0
        (cmdListAgents (worldAnswering "ACTIVE1 QMA UNKNOWN") exampleVars "/bin/fteListAgents")).out "ACTIVE" = true ∧
      pinged (iteration (worldAnswering "ACTIVE1 QMA UNKNOWN") exampleVars examplePaths
        "/bin/fteListAgents" 0).2 = true := by
  decide

theorem tick_terminated (w : World) (v : Vars) (p : Paths) (lp : String) (m : Monitor)
    (t : Tick) (h : m.loop = LoopPC.terminated) : tick w v p lp m t = m := by
  cases t with
  | signal => simp [tick, h]
  | handler => simp [tick, h]
  | loop =>
    obtain ⟨l, hd, pe, tr⟩ := m
    simp only at h
    subst h
    simp [tick, tickLoop, loopStep, ret_apply]

theorem monitor_terminated (w : World) (v : Vars) (p : Paths) (lp : String)
    (sched : List Tick) (m : Monitor) (h : m.loop = LoopPC.terminated) :
    monitor w v p lp sched m = m := by
  induction sched with
  | nil => rfl
  | cons t sched ih =>
    show monitor w v p lp sched (tick w v p lp m t) = m
    rw [tick_terminated w v p lp m t h]
    exact ih

/-- C6: when the loop is about to query and the query fails to run, or is about to ping
and the ping fails to run or its output contains `BFGCL0214I`, the step of the loop ends in
`terminated` (`main` has returned), the only command it runs is that query or ping, and
whatever is scheduled afterwards changes nothing: no further query, ping or stop command. -/
theorem loop_terminates_on_failure (w : World) (v : Vars) (p : Paths) (lp : String) (m : Monitor)
    (h : (m.loop = LoopPC.polling ∧
          (w.Run m.trace.length (cmdListAgents w v lp)).err ≠ none) ∨
        (m.loop = LoopPC.pingCheck ∧
          ((w.Run m.trace.length (cmdPingAgent w v p)).err ≠ none ∨
            Contains (w.Run m.trace.length (cmdPingAgent w v p)).out "BFGCL0214I" = true))) :
    (tickLoop w v p lp m).loop = LoopPC.terminated ∧
      commands (tickLoop w v p lp m).trace = commands m.trace ++
        [if m.loop = LoopPC.polling
          then (cmdListAgents w v lp, w.Run m.trace.length (cmdListAgents w v lp))
          else (cmdPingAgent w v p, w.Run m.trace.length (cmdPingAgent w v p))] ∧
      ∀ sched, monitor w v p lp (Tick.loop :: sched) m = tickLoop w v p lp m := by
  have key : (tickLoop w v p lp m).loop = LoopPC.terminated ∧
      commands (tickLoop w v p lp m).trace = commands m.trace ++
        [if m.loop = LoopPC.polling
          then (cmdListAgents w v lp, w.Run m.trace.length (cmdListAgents w v lp))
          else (cmdPingAgent w v p, w.Run m.trace.length (cmdPingAgent w v p))] := by
    obtain ⟨l, hd, pe, tr⟩ := m
    rcases h with ⟨hl, herr⟩ | ⟨hl, herr⟩
    · simp only at hl herr
      subst hl
      rcases he : (w.Run tr.length (cmdListAgents w v lp)).err with _ | e
      · exact absurd he herr
      · obtain ⟨es, h1, h2⟩ := pollStatus_err w v lp tr.length e he
        simp [tickLoop, loopStep, h1, commands_append, commands, h2]
    · simp only at hl herr
      subst hl
      rcases he : (w.Run tr.length (cmdPingAgent w v p)).err with _ | e
      · have hc : Contains (w.Run tr.length (cmdPingAgent w v p)).out "BFGCL0214I" = true := by
          rcases herr with h1 | h1
          · exact absurd he h1
          · exact h1
        have h1 := pingAgent_ok w v p tr.length he
        rw [if_pos hc] at h1
        simp [tickLoop, loopStep, h1, commands_append, commands]
      · obtain ⟨es, h1, h2⟩ := pingAgent_err w v p tr.length e he
        simp [tickLoop, loopStep, h1, commands_append, commands, h2]
  refine ⟨key.1, key.2, fun sched => ?_⟩
  show monitor w v p lp sched (tickLoop w v p lp m) = tickLoop w v p lp m
  exact monitor_terminated w v p lp sched _ key.1

theorem loop_terminates_on_failure_witness :
    ((⟨LoopPC.pingCheck, HandlerPC.waiting, false, []⟩ : Monitor).loop = LoopPC.polling ∧
          ((worldAnswering "BFGCL0214I: no response").Run 0
            (cmdListAgents (worldAnswering "BFGCL0214I: no response") exampleVars "/bin/fteListAgents")).err ≠ none ∨
        ((⟨LoopPC.pingCheck, HandlerPC.waiting, false, []⟩ : Monitor).loop = LoopPC.pingCheck ∧
          (((worldAnswering "BFGCL0214I: no response").Run 0
              (cmdPingAgent (worldAnswering "BFGCL0214I: no response") exampleVars examplePaths)).err ≠ none ∨
            Contains ((worldAnswering "BFGCL0214I: no response").Run 0
              (cmdPingAgent (worldAnswering "BFGCL0214I: no response") exampleVars examplePaths)).out
              "BFGCL0214I" = true))) ∧
    (tickLoop (worldAnswering "BFGCL0214I: no response") exampleVars examplePaths
        "/bin/fteListAgents" ⟨LoopPC.pingCheck, HandlerPC.waiting, false, []⟩).loop
      = LoopPC.terminated :=
  ⟨by decide,
    (loop_terminates_on_failure (worldAnswering "BFGCL0214I: no response") exampleVars examplePaths
      "/bin/fteListAgents" ⟨LoopPC.pingCheck, HandlerPC.waiting, false, []⟩ (by decide)).1⟩

/-- C7: with status `UNKNOWN` and a ping that ran and was answered (no `BFGCL0214I`), the
pass through the loop body ends right after the ping, and the loop's next step is the next
`fteListAgents` query: no `sleep` event lies between the ping and that query. -/
theorem responsive_ping_repolls_without_sleep :
    iteration worldUnknownResponsive exampleVars examplePaths "/bin/fteListAgents" 0 =
        (Flow.next LoopPC.polling,
          [Event.run ⟨"fteListAgents", "/bin/fteListAgents",
              ["/bin/fteListAgents", "-p", "QMC", "AG"]⟩ ⟨none, "AG QMA UNKNOWN", ""⟩,
            Event.print "Agent status unknown. Pinging the agent\n",
            Event.run ⟨"ftePingAgent", "/bin/ftePingAgent",
              ["/bin/ftePingAgent", "-p", "QMD", "AG"]⟩
              ⟨none, "BFGCL0213I: Agent AG responded to ping", ""⟩]) ∧
      (monitor worldUnknownResponsive exampleVars examplePaths "/bin/fteListAgents"
          [Tick.loop, Tick.loop, Tick.loop]
          ⟨LoopPC.polling, HandlerPC.waiting, false, []⟩).trace =
        [Event.run ⟨"fteListAgents", "/bin/fteListAgents",
            ["/bin/fteListAgents", "-p", "QMC", "AG"]⟩ ⟨none, "AG QMA UNKNOWN", ""⟩,
          Event.print "Agent status unknown. Pinging the agent\n",
          Event.run ⟨"ftePingAgent", "/bin/ftePingAgent",
            ["/bin/ftePingAgent", "-p", "QMD", "AG"]⟩
            ⟨none, "BFGCL0213I: Agent AG responded to ping", ""⟩,
          Event.run ⟨"fteListAgents", "/bin/fteListAgents",
            ["/bin/fteListAgents", "-p", "QMC", "AG"]⟩ ⟨none, "AG QMA UNKNOWN", ""⟩,
          Event.print "Agent status unknown. Pinging the agent\n"] := by
  decide

/-- C8: a signal arrives while the loop sleeps; the handler runs `fteStopAgent ... -i`
once, and the loop, which never looks at the request, finishes its sleep, issues another
`fteListAgents` query, reports the agent as running and goes back to sleep.  Seen from
`main` as a whole: after `fteStopAgent` comes one more `fteListAgents`, and `main` has not
returned. -/
theorem signal_while_sleeping_loop_polls_again :
    monitor worldStopping exampleVars examplePaths "/bin/fteListAgents"
        [Tick.signal, Tick.handler, Tick.handler, Tick.loop, Tick.loop]
        ⟨LoopPC.sleeping, HandlerPC.waiting, false, []⟩ =
      ⟨LoopPC.sleeping, HandlerPC.done, false,
        [Event.signal,
          Event.print "Stopping agent AG\n",
          Event.run ⟨"fteStopAgent", "/bin/fteStopAgent",
              ["/bin/fteStopAgent", "-p", "QMC", "AG", "-i"]⟩
            ⟨none, "BFGCL0034I: Stop request issued to agent AG", ""⟩,
          Event.print "Stopped agent AG\n",
          Event.sleep 30000000000,
          Event.run ⟨"fteListAgents", "/bin/fteListAgents",
              ["/bin/fteListAgents", "-p", "QMC", "AG"]⟩ ⟨none, "AG QMA STOPPED", ""⟩,
          Event.print "Agent AG is running\n"]⟩ ∧
      (main (worldAnswering "AG QMA READY")
          [Tick.loop, Tick.signal, Tick.handler, Tick.handler, Tick.loop, Tick.loop]).1
        = Flow.next () ∧
      (commands (main (worldAnswering "AG QMA READY")
          [Tick.loop, Tick.signal, Tick.handler, Tick.handler, Tick.loop, Tick.loop]).2).map
          (fun cr => cr.1.name) =
        ["fteSetupCoordination", "fteSetupCommands", "fteCreateBridgeAgent", "fteStartAgent",
          "fteListAgents", "fteListAgents", "fteStopAgent", "fteListAgents"] := by
  decide

theorem ping_iff_status_unknown_witness :
    ((worldAnswering "AG QMA READY").Run 0
        (cmdListAgents (worldAnswering "AG QMA READY") exampleVars
          "/bin/fteListAgents")).err = none ∧
      Contains ((worldAnswering "AG QMA READY").Run 0
        (cmdListAgents (worldAnswering "AG QMA READY") exampleVars
          "/bin/fteListAgents")).out "UNKNOWN" = false ∧
      (0 : Int) ≤ exampleVars.monitorWaitInterval ∧
      exampleVars.monitorWaitInterval * 1000000000 < 2 ^ 63 ∧
      iteration (worldAnswering "AG QMA READY") exampleVars examplePaths
          "/bin/fteListAgents" 0 =
        (Flow.next LoopPC.polling,
          [Event.run (cmdListAgents (worldAnswering "AG QMA READY") exampleVars
              "/bin/fteListAgents")
            ((worldAnswering "AG QMA READY").Run 0
              (cmdListAgents (worldAnswering "AG QMA READY") exampleVars
                "/bin/fteListAgents")),
            Event.print ("Agent " ++
              ((worldAnswering "AG QMA READY").Get exampleVars.agentConfig "agent.name").Str
                ++ " is running\n"),
            Event.sleep (exampleVars.monitorWaitInterval * 1000000000)]) ∧
      exampleVars.monitorWaitInterval * 1000000000 = 30000000000 :=
  ⟨rfl, by decide, by decide, by decide,
    ((ping_iff_status_unknown (worldAnswering "AG QMA READY") exampleVars examplePaths
      "/bin/fteListAgents" 0 rfl).2 (by decide)).2.1 (by decide) (by decide),
    by decide⟩

theorem ready_without_unknown_sleeps_without_ping_witness :
    (((worldAnswering "AG QMA ACTIVE").Run 0
        (cmdListAgents (worldAnswering "AG QMA ACTIVE") exampleVars
          "/bin/fteListAgents")).err = none ∧
      (Contains ((worldAnswering "AG QMA ACTIVE").Run 0
          (cmdListAgents (worldAnswering "AG QMA ACTIVE") exampleVars
            "/bin/fteListAgents")).out "READY" = true ∨
        Contains ((worldAnswering "AG QMA ACTIVE").Run 0
          (cmdListAgents (worldAnswering "AG QMA ACTIVE") exampleVars
            "/bin/fteListAgents")).out "ACTIVE" = true) ∧
      Contains ((worldAnswering "AG QMA ACTIVE").Run 0
        (cmdListAgents (worldAnswering "AG QMA ACTIVE") exampleVars
          "/bin/fteListAgents")).out "UNKNOWN" = false) ∧
    pinged (iteration (worldAnswering "AG QMA ACTIVE") exampleVars examplePaths
      "/bin/fteListAgents" 0).2 = false :=
  ⟨⟨rfl, by decide, by decide⟩,
    (ready_without_unknown_sleeps_without_ping (worldAnswering "AG QMA ACTIVE") exampleVars
      examplePaths "/bin/fteListAgents" 0 rfl (by decide) (by decide)).2⟩

theorem bind_next {α β : Type} {m : Prog α} {f : α → Prog β} {n : Nat} {a : α}
    {es : List Event} (h : m n = (Flow.next a, es)) :
    (m >>= f) n = after es (f a (n + es.length)) := by
  rw [bind_apply, h]

theorem bind_returned {α β : Type} {m : Prog α} {f : α → Prog β} {n : Nat}
    {es : List Event} (h : m n = (Flow.returned, es)) :
    (m >>= f) n = (Flow.returned, es) := by
  rw [bind_apply, h]

theorem bind_panicked {α β : Type} {m : Prog α} {f : α → Prog β} {n : Nat} {e : Error}
    {es : List Event} (h : m n = (Flow.panicked e, es)) :
    (m >>= f) n = (Flow.panicked e, es) := by
  rw [bind_apply, h]

theorem emits_bind {α β : Type} {P : Event → Prop} {m : Prog α} {f : α → Prog β}
    (hm : Emits P m) (hf : ∀ a, Emits P (f a)) : Emits P (m >>= f) := by
  intro n e he
  rw [bind_apply] at he
  have h1 := hm n
  rcases h : m n with ⟨x, es⟩
  rw [h] at he h1
  cases x with
  | next a =>
    simp only [after, List.mem_append] at he
    rcases he with he | he
    · exact h1 e he
    · exact hf a _ e he
  | returned => exact h1 e he
  | panicked err => exact h1 e he

theorem emits_pure {α : Type} {P : Event → Prop} (a : α) : Emits P (pure a : Prog α) := by
  intro n e he
  cases he

theorem emits_ret {α : Type} {P : Event → Prop} : Emits P (ret : Prog α) := by
  intro n e he
  cases he

theorem emits_panic {α : Type} {P : Event → Prop} (err : Error) :
    Emits P (panic err : Prog α) := by
  intro n e he
  cases he

theorem emits_emit {P : Event → Prop} {e : Event} (h : P e) : Emits P (emit e) := by
  intro n x hx
  change x ∈ [e] at hx
  rw [List.mem_singleton] at hx
  rw [hx]; exact h

theorem emits_ask {α : Type} {P : Event → Prop} {q : Nat → α} {ev : α → Event}
    (h : ∀ a, P (ev a)) : Emits P (ask q ev) := by
  intro n x hx
  change x ∈ [ev (q n)] at hx
  rw [List.mem_singleton] at hx
  rw [hx]; exact h _

theorem emits_forEach {P : Event → Prop} (entries : List (String × String))
    (f : String → String → Prog Bool) (hf : ∀ k x, Emits P (f k x)) :
    Emits P (forEach entries f) := by
  induction entries with
  | nil => exact emits_pure ()
  | cons kv rest ih =>
    obtain ⟨k, x⟩ := kv
    unfold forEach
    refine emits_bind (hf k x) (fun more => ?_)
    cases more
    · exact emits_pure ()
    · exact ih

theorem actions_append (es fs : List Event) : actions (es ++ fs) = actions es ++ actions fs :=
  List.filterMap_append _ _ _

theorem writes_append (es fs : List Event) : writes (es ++ fs) = writes es ++ writes fs :=
  List.filterMap_append _ _ _

theorem actions_silent (es : List Event) (h : ∀ e ∈ es, actionOf e = none) :
    actions es = [] := by
  induction es with
  | nil => rfl
  | cons e es ih =>
    have h1 := h e (List.mem_cons_self _ _)
    have h2 := ih (fun x hx => h x (List.mem_cons_of_mem _ hx))
    simp [actions, List.filterMap_cons, h1] at h2 ⊢
    exact h2

theorem failedStep_silent (e : Event) (h : actionOf e = none) : failedStep e = false := by
  cases e <;> simp_all [failedStep]

theorem any_failedStep_silent (es fs : List Event) (h : ∀ e ∈ es, actionOf e = none) :
    (es ++ fs).any failedStep = fs.any failedStep := by
  induction es with
  | nil => rfl
  | cons e es ih =>
    have h1 := failedStep_silent e (h e (List.mem_cons_self _ _))
    simp [h1, ih (fun x hx => h x (List.mem_cons_of_mem _ hx))]

theorem afterFailedStep_silent (es fs : List Event) (h : ∀ e ∈ es, actionOf e = none) :
    afterFailedStep (es ++ fs) = afterFailedStep fs := by
  induction es with
  | nil => rfl
  | cons e es ih =>
    have h1 := failedStep_silent e (h e (List.mem_cons_self _ _))
    simp [afterFailedStep, h1, ih (fun x hx => h x (List.mem_cons_of_mem _ hx))]

theorem commands_silent (es : List Event) (h : ∀ e ∈ es, ∀ c r, e ≠ Event.run c r) :
    commands es = [] := by
  induction es with
  | nil => rfl
  | cons e es ih =>
    have h1 := h e (List.mem_cons_self _ _)
    have h2 := ih (fun x hx => h x (List.mem_cons_of_mem _ hx))
    cases e <;> simp_all [commands]

theorem idle_print (s : String) : Idle (Event.print s) :=
  ⟨⟨rfl, rfl⟩, fun _ _ h => by cases h⟩

theorem quiet_print (s : String) : Quiet (Event.print s) := ⟨rfl, rfl⟩

theorem emits_Println {P : Event → Prop} (hP : ∀ s, P (Event.print s)) (xs : List String) :
    Emits P (Println xs) := emits_emit (hP _)

theorem emits_Print {P : Event → Prop} (hP : ∀ s, P (Event.print s)) (s : String) :
    Emits P (Print s) := emits_emit (hP _)

theorem emits_printBuffers {P : Event → Prop} (hP : ∀ s, P (Event.print s)) (r : RunResult) :
    Emits P (printBuffers r) :=
  emits_bind (emits_Println hP _) (fun _ => emits_Println hP _)

theorem readArguments_ok (w : World) (doc : String) (hargs : 2 ≤ w.Args.length)
    (hopen : w.Open 0 (w.Args.getD 1 "") = none)
    (hread : w.ReadAll 2 (w.Args.getD 1 "") = (doc, none))
    (hvalid : validateAttributes w.Get doc = none) :
    readArguments w 0 = (Flow.next (configVars w doc), readEvents w doc) := by
  unfold readEvents
  have hR : ReadConfigurationDataFromFile w (w.Args.getD 1 "") 0 =
        (Flow.next (doc, none),
          [Event.osOpen (w.Args.getD 1 "") none,
           Event.print ("Setting up agent using configuration file " ++ w.Args.getD 1 ""
             ++ "\n"),
           Event.readAll (w.Args.getD 1 "") doc none]) := by
    simp only [ReadConfigurationDataFromFile, bind_ask, hopen, Println, bind_emit, hread,
      hvalid, spaced, pure_apply, after_mk, after_after]
    rfl
  simp only [readArguments, hargs, if_true]
  rw [bind_next hR]
  rfl

theorem emits_lookPathOrPanic {P : Event → Prop} (w : World) (file : String)
    (hP : ∀ f x e, P (Event.lookPath f x e)) : Emits P (lookPathOrPanic w file) := by
  unfold lookPathOrPanic LookPath
  refine emits_bind (emits_ask (fun a => hP _ _ _)) (fun r => ?_)
  obtain ⟨path, err⟩ := r
  cases err
  · exact emits_pure _
  · exact emits_panic _

theorem idle_lookPath (f x : String) (e : Option Error) : Idle (Event.lookPath f x e) :=
  ⟨⟨rfl, rfl⟩, fun _ _ h => by cases h⟩

theorem quiet_lookPath (f x : String) (e : Option Error) : Quiet (Event.lookPath f x e) :=
  ⟨rfl, rfl⟩

theorem resolveCommands_idle (w : World) (v : Vars) : Emits Idle (resolveCommands w v) := by
  unfold resolveCommands
  refine emits_bind (emits_emit ⟨⟨rfl, rfl⟩, fun _ _ h => by cases h⟩) (fun _ => ?_)
  refine emits_bind (emits_lookPathOrPanic w _ idle_lookPath) (fun _ => ?_)
  refine emits_bind (emits_lookPathOrPanic w _ idle_lookPath) (fun _ => ?_)
  refine emits_bind (emits_lookPathOrPanic w _ idle_lookPath) (fun _ => ?_)
  refine emits_bind (emits_lookPathOrPanic w _ idle_lookPath) (fun _ => ?_)
  refine emits_bind (emits_lookPathOrPanic w _ idle_lookPath) (fun _ => ?_)
  refine emits_bind (emits_lookPathOrPanic w _ idle_lookPath) (fun _ => ?_)
  refine emits_bind (emits_lookPathOrPanic w _ idle_lookPath) (fun _ => ?_)
  exact emits_pure _

theorem noReturn_bind {α β : Type} {m : Prog α} {f : α → Prog β}
    (hm : NoReturn m) (hf : ∀ a, NoReturn (f a)) : NoReturn (m >>= f) := by
  intro n
  rw [bind_apply]
  have h1 := hm n
  rcases h : m n with ⟨x, es⟩
  rw [h] at h1
  cases x with
  | next a => exact hf a _
  | returned => exact absurd rfl h1
  | panicked err => intro hc; cases hc

theorem noReturn_lookPathOrPanic (w : World) (file : String) :
    NoReturn (lookPathOrPanic w file) := by
  intro n
  unfold lookPathOrPanic LookPath
  rw [bind_ask]
  rcases h : w.LookPath n file with ⟨path, err⟩
  cases err <;> (intro hc; cases hc)

theorem resolveCommands_noReturn (w : World) (v : Vars) : NoReturn (resolveCommands w v) := by
  unfold resolveCommands
  refine noReturn_bind (fun n hc => by cases hc) (fun _ => ?_)
  refine noReturn_bind (noReturn_lookPathOrPanic w _) (fun _ => ?_)
  refine noReturn_bind (noReturn_lookPathOrPanic w _) (fun _ => ?_)
  refine noReturn_bind (noReturn_lookPathOrPanic w _) (fun _ => ?_)
  refine noReturn_bind (noReturn_lookPathOrPanic w _) (fun _ => ?_)
  refine noReturn_bind (noReturn_lookPathOrPanic w _) (fun _ => ?_)
  refine noReturn_bind (noReturn_lookPathOrPanic w _) (fun _ => ?_)
  refine noReturn_bind (noReturn_lookPathOrPanic w _) (fun _ => ?_)
  intro n hc
  cases hc

theorem actionOf_crt (w : World) (v : Vars) (p : Paths) (r : RunResult) :
    actionOf (Event.run (cmdCrtAgnt w v p) r) = some Action.agentCreation := by
  unfold cmdCrtAgnt
  split <;> simp [actionOf, cmdCrtStandardAgnt, cmdCrtBridgeAgnt]

theorem actionOf_coord (w : World) (v : Vars) (p : Paths) (r : RunResult) :
    actionOf (Event.run (cmdSetupCoord w v p) r) = some Action.coordinationSetup := by
  simp [actionOf, cmdSetupCoord]

theorem actionOf_cmds (w : World) (v : Vars) (p : Paths) (r : RunResult) :
    actionOf (Event.run (cmdSetupCmds w v p) r) = some Action.commandsSetup := by
  simp [actionOf, cmdSetupCmds]

theorem actionOf_str (w : World) (v : Vars) (p : Paths) (r : RunResult) :
    actionOf (Event.run (cmdStrAgnt w v p) r) = some Action.agentStart := by
  simp [actionOf, cmdStrAgnt]

theorem actionOf_print (s : String) : actionOf (Event.print s) = none := rfl

theorem failedStep_print (s : String) : failedStep (Event.print s) = false := rfl

theorem failedStep_run (c : Cmd) (r : RunResult) :
    failedStep (Event.run c r) = ((actionOf (Event.run c r)).isSome && r.err.isSome) := rfl

theorem writeOf_print (s : String) : writeOf (Event.print s) = none := rfl

theorem writeOf_run (c : Cmd) (r : RunResult) : writeOf (Event.run c r) = none := rfl

theorem isPrint_print (s : String) : isPrint (Event.print s) = true := rfl

theorem setup_cases (w : World) (v : Vars) (p : Paths) (n : Nat) :
    ∃ fl es, setup w v p n = (fl, es) ∧ writes es = [] ∧
      ((fl = Flow.returned ∧ es.any failedStep = true ∧
          (afterFailedStep es).all isPrint = true ∧
          (actions es = [Action.coordinationSetup] ∨
            actions es = [Action.coordinationSetup, Action.commandsSetup] ∨
            actions es = [Action.coordinationSetup, Action.commandsSetup,
              Action.agentCreation])) ∨
        (fl = Flow.next () ∧ es.any failedStep = false ∧
          actions es = [Action.coordinationSetup, Action.commandsSetup,
            Action.agentCreation])) := by
  simp only [setup, Run, Print, Println, printBuffers, bind_emit, bind_ask, bind_assoc,
    Nat.add_assoc, Nat.reduceAdd]
  rcases h1 : (w.Run (n + 1) (cmdSetupCoord w v p)).err with _ | err
  · simp only [bind_emit, bind_ask, Nat.add_assoc, Nat.reduceAdd]
    rcases h2 : (w.Run (n + 3) (cmdSetupCmds w v p)).err with _ | err
    · simp only [bind_emit, bind_ask, Nat.add_assoc, Nat.reduceAdd]
      rcases h3 : (w.Run (n + 5) (cmdCrtAgnt w v p)).err with _ | err
      · simp only [pure_apply, after_mk, after_after]
        refine ⟨_, _, rfl, rfl, Or.inr ⟨rfl, ?_, ?_⟩⟩
        · simp [failedStep_run, failedStep_print, actionOf_coord, actionOf_cmds, actionOf_crt, h1, h2, h3]
        · simp [actions, actionOf_coord, actionOf_cmds, actionOf_crt, actionOf_print]
      · simp only [bind_emit, ret_apply, after_mk, after_after]
        refine ⟨_, _, rfl, rfl, Or.inl ⟨rfl, ?_, ?_, Or.inr (Or.inr ?_)⟩⟩
        · simp [failedStep_run, failedStep_print, actionOf_coord, actionOf_cmds, actionOf_crt, h1, h2, h3]
        · simp [afterFailedStep, failedStep_run, failedStep_print, actionOf_coord, actionOf_cmds, actionOf_crt, h1, h2, h3, isPrint_print]
        · simp [actions, actionOf_coord, actionOf_cmds, actionOf_crt, actionOf_print]
    · simp only [bind_emit, ret_apply, after_mk, after_after]
      refine ⟨_, _, rfl, rfl, Or.inl ⟨rfl, ?_, ?_, Or.inr (Or.inl ?_)⟩⟩
      · simp [failedStep_run, failedStep_print, actionOf_coord, actionOf_cmds, actionOf_crt, h1, h2]
      · simp [afterFailedStep, failedStep_run, failedStep_print, actionOf_coord, actionOf_cmds, actionOf_crt, h1, h2, isPrint_print]
      · simp [actions, actionOf_coord, actionOf_cmds, actionOf_crt, actionOf_print]
  · simp only [bind_emit, ret_apply, after_mk, after_after]
    refine ⟨_, _, rfl, rfl, Or.inl ⟨rfl, ?_, ?_, Or.inl ?_⟩⟩
    · simp [failedStep_run, failedStep_print, actionOf_coord, actionOf_cmds, actionOf_crt, h1]
    · simp [afterFailedStep, failedStep_run, failedStep_print, actionOf_coord, actionOf_cmds, actionOf_crt, h1, isPrint_print]
    · simp [actions, actionOf_coord, actionOf_cmds, actionOf_crt, actionOf_print]

theorem still_print (s : String) : Still (Event.print s) := ⟨rfl, fun _ _ h => by cases h⟩

theorem idle_still {e : Event} (h : Idle e) : Still e := ⟨h.1.1, h.2⟩

theorem writeProperty_shape (w : World) (opened : Bool) (f k x : String) (n : Nat) :
    ∃ es, writeProperty w opened f k x n = (Flow.next true, es) ∧ (∀ e ∈ es, Still e) ∧
      writes es = if opened then [propertyLine f (k, x)] else [] := by
  cases opened
  · simp only [writeProperty, WriteString, Bool.false_eq_true, if_false, bind_pure, Println,
      bind_emit, pure_apply, after_mk]
    refine ⟨_, rfl, ?_, rfl⟩
    intro e he
    simp only [List.append_nil, List.mem_singleton] at he
    rw [he]; exact still_print _
  · simp only [writeProperty, WriteString, if_true, bind_ask]
    rcases h : w.WriteString n f ("\n" ++ k ++ "=" ++ x ++ "\n") with _ | err
    · simp only [bind_pure, pure_apply, after_mk]
      refine ⟨_, rfl, ?_, rfl⟩
      intro e he
      simp only [List.append_nil, List.mem_singleton] at he
      rw [he]; exact ⟨rfl, fun _ _ h => by cases h⟩
    · simp only [Println, bind_emit, pure_apply, after_mk, after_after]
      refine ⟨_, rfl, ?_, rfl⟩
      intro e he
      simp only [List.append_nil, List.mem_append, List.mem_singleton, List.mem_cons,
        List.not_mem_nil, or_false] at he
      rcases he with he | he
      · rw [he]; exact ⟨rfl, fun _ _ h => by cases h⟩
      · rw [he]; exact still_print _

theorem forEach_writeProperty (w : World) (opened : Bool) (f : String)
    (entries : List (String × String)) (n : Nat) :
    ∃ es, forEach entries (writeProperty w opened f) n = (Flow.next (), es) ∧
      (∀ e ∈ es, Still e) ∧
      writes es = if opened then entries.map (propertyLine f) else [] := by
  induction entries generalizing n with
  | nil =>
    refine ⟨[], rfl, (fun e he => by cases he), ?_⟩
    cases opened <;> rfl
  | cons kv rest ih =>
    obtain ⟨k, x⟩ := kv
    obtain ⟨es1, h1, s1, w1⟩ := writeProperty_shape w opened f k x n
    obtain ⟨es2, h2, s2, w2⟩ := ih (n + es1.length)
    refine ⟨es1 ++ es2, ?_, ?_, ?_⟩
    · unfold forEach
      rw [bind_next h1]
      simp only [if_true]
      rw [h2]
      rfl
    · intro e he
      rcases List.mem_append.1 he with he | he
      · exact s1 e he
      · exact s2 e he
    · rw [writes_append, w1, w2]
      cases opened <;> simp

theorem updateAgentProperties_shape (w : World) (f cfg : String) (n : Nat) :
    ∃ es, updateAgentProperties w f cfg n =
        (Flow.next (), Event.openFile f (w.OpenFile n f) :: es) ∧
      (∀ e ∈ es, Still e) ∧
      writes es = if (w.OpenFile n f).isNone ∧ (w.Get cfg "agent.additionalProperties").Exists
        then (w.Get cfg "agent.additionalProperties").Each.map (propertyLine f) else [] := by
  simp only [updateAgentProperties, bind_ask, bind_assoc]
  rcases ho : w.OpenFile n f with _ | err
  · simp only [bind_pure]
    cases hx : (w.Get cfg "agent.additionalProperties").Exists
    · refine ⟨[], rfl, (fun e he => by cases he), ?_⟩
      simp [writes]
    · obtain ⟨es, h1, s1, w1⟩ := forEach_writeProperty w true f
        (w.Get cfg "agent.additionalProperties").Each (n + 1)
      refine ⟨es, ?_, s1, ?_⟩
      · simp only [if_true, Option.isNone_none, h1, after_mk]
        rfl
      · rw [w1]; simp
  · simp only [Println, bind_emit]
    cases hx : (w.Get cfg "agent.additionalProperties").Exists
    · simp only [Bool.false_eq_true, if_false, pure_apply, after_mk]
      refine ⟨_, rfl, ?_, ?_⟩
      · intro e he
        change e ∈ [Event.print (spaced [err] ++ "\n")] at he
        rw [List.mem_singleton] at he
        rw [he]; exact still_print _
      · simp [writes, writeOf_print]
    · obtain ⟨es, h1, s1, w1⟩ := forEach_writeProperty w false f
        (w.Get cfg "agent.additionalProperties").Each (n + 1 + 1)
      refine ⟨Event.print (spaced [err] ++ "\n") :: es, ?_, ?_, ?_⟩
      · simp only [if_true, Option.isNone_some, h1, after_mk, after_after]
        rfl
      · intro e he
        rcases List.mem_cons.1 he with he | he
        · rw [he]; exact still_print _
        · exact s1 e he
      · simp [writes, writeOf_print] at w1 ⊢
        exact w1

theorem startAgent_cases (w : World) (v : Vars) (p : Paths) (n : Nat) :
    ∃ U r fl tail, startAgent w v p n =
        (fl, Event.openFile (agentPropertiesFile w v) (w.OpenFile n (agentPropertiesFile w v))
          :: U ++ (Event.print ("Starting agent " ++ (w.Get v.agentConfig "agent.name").Str
            ++ "\n") :: Event.run (cmdStrAgnt w v p) r :: tail)) ∧
      (∀ e ∈ U, Still e) ∧
      (writes U = if (w.OpenFile n (agentPropertiesFile w v)).isNone ∧
          (w.Get v.agentConfig "agent.additionalProperties").Exists
        then (w.Get v.agentConfig "agent.additionalProperties").Each.map
          (propertyLine (agentPropertiesFile w v)) else []) ∧
      ((r.err = none ∧ fl = Flow.next () ∧ tail = []) ∨
        (r.err ≠ none ∧ fl = Flow.returned ∧ tail.all isPrint = true)) := by
  obtain ⟨U, hU, sU, wU⟩ := updateAgentProperties_shape w (agentPropertiesFile w v)
    v.agentConfig n
  simp only [startAgent]
  rw [bind_next hU]
  simp only [Print, Run, bind_emit, bind_ask]
  generalize hk : n + (Event.openFile (agentPropertiesFile w v)
    (w.OpenFile n (agentPropertiesFile w v)) :: U).length + 1 = k
  rcases hr : (w.Run k (cmdStrAgnt w v p)).err with _ | err
  · refine ⟨U, w.Run k (cmdStrAgnt w v p), Flow.next (), [], ?_, sU, wU, Or.inl ⟨hr, rfl, rfl⟩⟩
    simp [pure_apply, after]
  · refine ⟨U, w.Run k (cmdStrAgnt w v p), Flow.returned,
      [Event.print (spaced ["Command: %s\n", (w.Run k (cmdStrAgnt w v p)).out] ++ "\n"),
        Event.print (spaced ["Error %s\n", (w.Run k (cmdStrAgnt w v p)).errOut] ++ "\n")],
      ?_, sU, wU, Or.inr ⟨by rw [hr]; simp, rfl, rfl⟩⟩
    simp [printBuffers, Println, bind_emit, bind_assoc, ret_apply, after]

theorem quiet_run_list (w : World) (v : Vars) (lp : String) (r : RunResult) :
    Quiet (Event.run (cmdListAgents w v lp) r) := by
  constructor
  · simp [actionOf, cmdListAgents]
  · rfl

theorem confirmStart_quiet (w : World) (v : Vars) : Emits Quiet (confirmStart w v) := by
  unfold confirmStart
  refine emits_bind (emits_Print quiet_print _) (fun _ => ?_)
  refine emits_bind (emits_lookPathOrPanic w _ quiet_lookPath) (fun lp => ?_)
  refine emits_bind (emits_ask (fun r => quiet_run_list w v lp r)) (fun r => ?_)
  split
  · refine emits_bind (emits_Println quiet_print _) (fun _ => ?_)
    exact emits_bind (emits_printBuffers quiet_print _) (fun _ => emits_ret)
  · dsimp only
    have hjp : Emits Quiet (if Contains r.out "STOPPED" = true then do
          Println ["Agent not started yet. Wait for 10 seconds and recheck status again"]
          emit (Event.sleep (10 * 1000000000))
          let r ← Run w (cmdListAgents w v lp)
          match r.err with
            | some err => do
              Println ["Error: ", err]
              printBuffers r
              ret
            | none => pure (lp, r.out)
        else pure (lp, r.out)) := by
      split
      · refine emits_bind (emits_Println quiet_print _) (fun _ => ?_)
        refine emits_bind (emits_emit ⟨rfl, rfl⟩) (fun _ => ?_)
        refine emits_bind (emits_ask (fun r => quiet_run_list w v lp r)) (fun r => ?_)
        split
        · refine emits_bind (emits_Println quiet_print _) (fun _ => ?_)
          exact emits_bind (emits_printBuffers quiet_print _) (fun _ => emits_ret)
        · exact emits_pure _
      · exact emits_pure _
    split
    · exact emits_bind (emits_emit ⟨rfl, rfl⟩) (fun _ => hjp)
    · exact emits_bind (emits_pure _) (fun _ => hjp)

theorem createResourceMonitor_quiet (w : World) (a b c d e : String) :
    Emits Quiet (createResourceMonitor w a b c d e) := by
  unfold createResourceMonitor LookPath
  refine emits_bind (emits_Println quiet_print _) (fun _ => ?_)
  refine emits_bind (emits_ask (fun r => quiet_lookPath _ _ _)) (fun r => ?_)
  obtain ⟨path, err⟩ := r
  cases err
  · refine emits_bind (emits_ask (fun r => ⟨by simp [actionOf, cmdCrtMonitorCmd], rfl⟩)) (fun r => ?_)
    split
    · refine emits_bind (emits_Println quiet_print _) (fun _ => ?_)
      exact emits_bind (emits_printBuffers quiet_print _) (fun _ => emits_pure _)
    · exact emits_pure _
  · exact emits_pure _

theorem enterMonitoring_quiet (w : World) (v : Vars) (s : String) :
    Emits Quiet (enterMonitoring w v s) := by
  unfold enterMonitoring
  split
  · refine emits_bind (emits_Println quiet_print _) (fun _ => ?_)
    dsimp only
    have hjp : Emits Quiet (do
        Println ["Starting to monitor agent status"]
        emit Event.notify) :=
      emits_bind (emits_Println quiet_print _) (fun _ => emits_emit ⟨rfl, rfl⟩)
    split
    · split
      · refine emits_bind (emits_forEach _ _ (fun k x => ?_)) (fun _ => hjp)
        unfold monitorEntry
        exact emits_bind (createResourceMonitor_quiet w _ _ _ _ _) (fun _ => emits_pure _)
      · exact emits_bind (emits_pure _) (fun _ => hjp)
    · exact emits_bind (emits_pure _) (fun _ => hjp)
  · exact emits_bind (emits_Println quiet_print _) (fun _ => emits_ret)

theorem afterStart_quiet (w : World) (v : Vars) (p : Paths) :
    Emits Quiet (afterStart w v p) := by
  unfold afterStart
  refine emits_bind (confirmStart_quiet w v) (fun r => ?_)
  exact emits_bind (enterMonitoring_quiet w v _) (fun _ => emits_pure _)

theorem loopStep_quiet (w : World) (v : Vars) (p : Paths) (lp : String) (pc : LoopPC) :
    Emits Quiet (loopStep w v p lp pc) := by
  cases pc
  · show Emits Quiet (pollStatus w v lp)
    unfold pollStatus
    refine emits_bind (emits_ask (fun r => quiet_run_list w v lp r)) (fun r => ?_)
    split
    · refine emits_bind (emits_Print quiet_print _) (fun _ => ?_)
      exact emits_bind (emits_printBuffers quiet_print _) (fun _ => emits_ret)
    · split
      · exact emits_bind (emits_Println quiet_print _) (fun _ => emits_pure _)
      · exact emits_bind (emits_Print quiet_print _) (fun _ => emits_pure _)
  · show Emits Quiet (pingAgent w v p)
    unfold pingAgent
    refine emits_bind (emits_ask (fun r => ⟨by simp [actionOf, cmdPingAgent], rfl⟩))
      (fun r => ?_)
    split
    · refine emits_bind (emits_Println quiet_print _) (fun _ => ?_)
      exact emits_bind (emits_printBuffers quiet_print _) (fun _ => emits_ret)
    · split
      · exact emits_bind (emits_Print quiet_print _) (fun _ => emits_ret)
      · exact emits_pure _
  · show Emits Quiet (sleepInterval v)
    unfold sleepInterval
    exact emits_bind (emits_emit ⟨rfl, rfl⟩) (fun _ => emits_pure _)
  · exact emits_ret

theorem tick_trace (w : World) (v : Vars) (p : Paths) (lp : String) (m : Monitor)
    (t : Tick) :
    ∃ es, (tick w v p lp m t).trace = m.trace ++ es ∧ ∀ e ∈ es, Quiet e := by
  cases t with
  | signal =>
    simp only [tick]
    split
    · exact ⟨[], by simp, fun e he => by cases he⟩
    · refine ⟨[Event.signal], rfl, fun e he => ?_⟩
      rw [List.mem_singleton] at he
      rw [he]; exact ⟨rfl, rfl⟩
  | handler =>
    simp only [tick]
    split
    · exact ⟨[], by simp, fun e he => by cases he⟩
    · unfold tickHandler
      split
      · split
        · exact ⟨_, rfl, emits_Print quiet_print _ _⟩
        · exact ⟨[], by simp, fun e he => by cases he⟩
      · refine ⟨_, rfl, ?_⟩
        refine emits_bind (emits_ask (fun r => ⟨by simp [actionOf, cmdStopAgnt], rfl⟩))
          (fun r => ?_) _
        dsimp only
        split
        · exact emits_bind (emits_Println quiet_print _) (fun _ => emits_Print quiet_print _)
        · exact emits_bind (emits_pure _) (fun _ => emits_Print quiet_print _)
      · exact ⟨[], by simp, fun e he => by cases he⟩
  | loop =>
    show ∃ es, (tickLoop w v p lp m).trace = m.trace ++ es ∧ ∀ e ∈ es, Quiet e
    unfold tickLoop
    have h := loopStep_quiet w v p lp m.loop m.trace.length
    rcases hs : loopStep w v p lp m.loop m.trace.length with ⟨fl, es⟩
    rw [hs] at h
    cases fl <;> exact ⟨es, rfl, h⟩

theorem monitor_trace (w : World) (v : Vars) (p : Paths) (lp : String) (sched : List Tick)
    (m : Monitor) :
    ∃ es, (monitor w v p lp sched m).trace = m.trace ++ es ∧ ∀ e ∈ es, Quiet e := by
  induction sched generalizing m with
  | nil => exact ⟨[], by simp [monitor], fun e he => by cases he⟩
  | cons t sched ih =>
    obtain ⟨es1, h1, q1⟩ := tick_trace w v p lp m t
    obtain ⟨es2, h2, q2⟩ := ih (tick w v p lp m t)
    refine ⟨es1 ++ es2, ?_, ?_⟩
    · show (monitor w v p lp sched (tick w v p lp m t)).trace = _
      rw [h2, h1, List.append_assoc]
    · intro e he
      rcases List.mem_append.1 he with he | he
      · exact q1 e he
      · exact q2 e he

theorem startup_eq (w : World) :
    startup w = readArguments w >>= fun v => resolveCommands w v >>= fun p =>
      (if v.startOnly = true then pure () else setup w v p) >>= fun _ =>
        startAgent w v p >>= fun _ => afterStart w v p := by
  unfold startup
  congr 1
  funext v
  congr 1
  funext p
  cases v.startOnly <;> rfl

theorem panicsOnLookup_bind {α β : Type} {m : Prog α} {f : α → Prog β}
    (hm : PanicsOnLookup m) (hf : ∀ a, PanicsOnLookup (f a)) : PanicsOnLookup (m >>= f) := by
  intro n e he
  rw [bind_apply] at he ⊢
  have h1 := hm n
  rcases h : m n with ⟨x, es⟩
  rw [h] at he h1
  cases x with
  | next a =>
    simp only [after] at he ⊢
    obtain ⟨file, path, hmem⟩ := hf a _ e he
    exact ⟨file, path, List.mem_append_right _ hmem⟩
  | returned => cases he
  | panicked err =>
    simp only at he h1 ⊢
    have hee : err = e := by injection he
    subst hee
    exact h1 err rfl

theorem panicsOnLookup_lookPathOrPanic (w : World) (file : String) :
    PanicsOnLookup (lookPathOrPanic w file) := by
  intro n e he
  unfold lookPathOrPanic LookPath at he ⊢
  rw [bind_ask] at he ⊢
  rcases h : w.LookPath n file with ⟨path, err⟩
  simp only [h] at he ⊢
  cases err with
  | none => cases he
  | some err =>
    simp only [panic_apply, after_mk, Flow.panicked.injEq] at he
    subst he
    exact ⟨file, path, by simp [panic_apply, after_mk]⟩

theorem resolveCommands_panics (w : World) (v : Vars) : PanicsOnLookup (resolveCommands w v) := by
  unfold resolveCommands
  refine panicsOnLookup_bind (fun n e he => by cases he) (fun _ => ?_)
  refine panicsOnLookup_bind (panicsOnLookup_lookPathOrPanic w _) (fun _ => ?_)
  refine panicsOnLookup_bind (panicsOnLookup_lookPathOrPanic w _) (fun _ => ?_)
  refine panicsOnLookup_bind (panicsOnLookup_lookPathOrPanic w _) (fun _ => ?_)
  refine panicsOnLookup_bind (panicsOnLookup_lookPathOrPanic w _) (fun _ => ?_)
  refine panicsOnLookup_bind (panicsOnLookup_lookPathOrPanic w _) (fun _ => ?_)
  refine panicsOnLookup_bind (panicsOnLookup_lookPathOrPanic w _) (fun _ => ?_)
  refine panicsOnLookup_bind (panicsOnLookup_lookPathOrPanic w _) (fun _ => ?_)
  intro n e he
  cases he

theorem main_of_startup (w : World) (sched : List Tick) (fl : Flow (Vars × Paths × String))
    (t : List Event) (h : startup w 0 = (fl, t)) :
    ∃ es, (main w sched).2 = t ++ es ∧ (∀ e ∈ es, Quiet e) ∧
      (fl = Flow.returned → main w sched = (Flow.returned, t)) ∧
      (∀ e, fl = Flow.panicked e → main w sched = (Flow.panicked e, t)) := by
  unfold main
  rw [h]
  cases fl with
  | next a =>
    obtain ⟨v, p, lp⟩ := a
    obtain ⟨es, h1, h2⟩ := monitor_trace w v p lp sched
      ⟨LoopPC.polling, HandlerPC.waiting, false, t⟩
    exact ⟨es, h1, h2, (fun hc => by cases hc), (fun e hc => by cases hc)⟩
  | returned =>
    exact ⟨[], by simp, (fun e he => by cases he), (fun _ => rfl), (fun e hc => by cases hc)⟩
  | panicked e =>
    refine ⟨[], by simp, (fun e he => by cases he), (fun hc => by cases hc), ?_⟩
    intro e2 hc
    cases hc
    rfl

theorem afterFailedStep_append (es fs : List Event) (h : es.any failedStep = true) :
    afterFailedStep (es ++ fs) = afterFailedStep es ++ fs := by
  induction es with
  | nil => simp at h
  | cons e es ih =>
    cases he : failedStep e
    · simp only [List.any_cons, he, Bool.false_or] at h
      simp [afterFailedStep, he, ih h]
    · simp [afterFailedStep, he]

theorem quiet_silent {e : Event} (h : Quiet e) : actionOf e = none := h.1

theorem idle_silent {e : Event} (h : Idle e) : actionOf e = none := h.1.1

theorem still_silent {e : Event} (h : Still e) : actionOf e = none := h.1

theorem any_failedStep_eq_false (es : List Event) (h : ∀ e ∈ es, actionOf e = none) :
    es.any failedStep = false := by
  have := any_failedStep_silent es [] h
  simpa using this

theorem afterFailedStep_skip (es fs : List Event) (h : es.any failedStep = false) :
    afterFailedStep (es ++ fs) = afterFailedStep fs := by
  induction es with
  | nil => rfl
  | cons e es ih =>
    simp only [List.any_cons, Bool.or_eq_false_iff] at h
    simp [afterFailedStep, h.1, ih h.2]

theorem readEvents_silent (w : World) (doc : String) :
    ∀ e ∈ readEvents w doc, actionOf e = none := by
  intro e he
  simp only [readEvents, List.mem_cons, List.mem_singleton, List.not_mem_nil, or_false] at he
  rcases he with rfl | rfl | rfl <;> rfl

theorem readEvents_still (w : World) (doc : String) :
    ∀ e ∈ readEvents w doc, Still e := by
  intro e he
  simp only [readEvents, List.mem_cons, List.mem_singleton, List.not_mem_nil, or_false] at he
  rcases he with rfl | rfl | rfl <;> exact ⟨rfl, fun _ _ h => by cases h⟩

theorem pipelineCut_panic (q : List Event) (e : Error) (hq : ∀ x ∈ q, actionOf x = none)
    (hl : ∃ file path, Event.lookPath file path (some e) ∈ q) :
    PipelineCut (Flow.panicked e, q) := by
  have ha := actions_silent q hq
  have hf := any_failedStep_eq_false q hq
  refine ⟨?_, fun _ => Or.inr ⟨ha, ?_⟩, fun h => ?_⟩
  · show actions q <+: pipeline
    rw [ha]; exact List.nil_prefix
  · obtain ⟨file, path, hmem⟩ := hl
    exact ⟨e, file, path, rfl, hmem⟩
  · simp only [hf] at h
    cases h

theorem pipelineCut_failed (q s : List Event) (hq : ∀ x ∈ q, actionOf x = none)
    (hs : s.any failedStep = true) (hp : (afterFailedStep s).all isPrint = true)
    (ha : actions s <+: pipeline) :
    PipelineCut (Flow.returned, q ++ s) := by
  refine ⟨?_, fun h => ?_, fun _ => ⟨rfl, ?_⟩⟩
  · show actions (q ++ s) <+: pipeline
    rw [actions_append, actions_silent q hq]; exact ha
  · have : (q ++ s).any failedStep = true := by
      rw [any_failedStep_silent q s hq]; exact hs
    simp only [this] at h
    cases h
  · show (afterFailedStep (q ++ s)).all isPrint = true
    rw [afterFailedStep_silent q s hq]; exact hp

theorem pipelineCut_complete (fl : Flow Unit) (q s q2 : List Event)
    (hq : ∀ x ∈ q, actionOf x = none) (hs : s.any failedStep = false)
    (ha : actions s = pipeline) (hq2 : ∀ x ∈ q2, actionOf x = none) :
    PipelineCut (fl, q ++ s ++ q2) := by
  have hact : actions (q ++ s ++ q2) = pipeline := by
    rw [actions_append, actions_append, actions_silent q hq, actions_silent q2 hq2, ha]
    rfl
  have hany : (q ++ s ++ q2).any failedStep = false := by
    rw [List.append_assoc, any_failedStep_silent q _ hq, List.any_append, hs,
      any_failedStep_eq_false q2 hq2]
    rfl
  refine ⟨?_, fun _ => Or.inl hact, fun h => ?_⟩
  · show actions (q ++ s ++ q2) <+: pipeline
    rw [hact]
  · simp only [hany] at h
    cases h

theorem isPrint_silent (tl : List Event) (h : tl.all isPrint = true) :
    ∀ x ∈ tl, actionOf x = none := by
  intro x hx
  have := List.all_eq_true.1 h x hx
  cases x <;> first | rfl | cases this

theorem startSegment_ok (f s : String) (o : Option Error) (U : List Event) (c : Cmd)
    (r : RunResult) (hU : ∀ x ∈ U, actionOf x = none) (hr : r.err = none) :
    (Event.openFile f o :: U ++ [Event.print s, Event.run c r]).any failedStep = false := by
  rw [List.any_append]
  have h1 : (Event.openFile f o :: U).any failedStep = false := by
    rw [List.any_cons, any_failedStep_eq_false U hU]
    rfl
  rw [h1]
  simp [failedStep_print, failedStep_run, hr]

theorem startSegment_failed (f s : String) (o : Option Error) (U tl : List Event) (c : Cmd)
    (r : RunResult) (a : Action) (hU : ∀ x ∈ U, actionOf x = none)
    (hc : actionOf (Event.run c r) = some a) (hr : r.err ≠ none) :
    (Event.openFile f o :: U ++ (Event.print s :: Event.run c r :: tl)).any failedStep = true ∧
      afterFailedStep (Event.openFile f o :: U ++ (Event.print s :: Event.run c r :: tl))
        = tl := by
  have h1 : (Event.openFile f o :: U).any failedStep = false := by
    rw [List.any_cons, any_failedStep_eq_false U hU]
    rfl
  have h2 : failedStep (Event.run c r) = true := by
    rw [failedStep_run, hc]
    cases h : r.err
    · exact absurd h hr
    · rfl
  constructor
  · rw [List.any_append, h1]
    simp [failedStep_print, h2]
  · rw [afterFailedStep_skip _ _ h1]
    simp [afterFailedStep, failedStep_print, h2]

theorem pipelineCut_main (w : World) (sched : List Tick) (doc : String)
    (hargs : 2 ≤ w.Args.length)
    (hopen : w.Open 0 (w.Args.getD 1 "") = none)
    (hread : w.ReadAll 2 (w.Args.getD 1 "") = (doc, none))
    (hvalid : validateAttributes w.Get doc = none)
    (hso : startOnlyOf w.Args = false) : PipelineCut (main w sched) := by
  have hRA := readArguments_ok w doc hargs hopen hread hvalid
  have hv : (configVars w doc).startOnly = false := hso
  have hE := readEvents_silent w doc
  rcases hres : resolveCommands w (configVars w doc) (0 + (readEvents w doc).length)
    with ⟨f1, Rv⟩
  have hidle : ∀ e ∈ Rv, Idle e := by
    have := resolveCommands_idle w (configVars w doc) (0 + (readEvents w doc).length)
    rwa [hres] at this
  have hq1 : ∀ x ∈ readEvents w doc ++ Rv, actionOf x = none := by
    intro x hx
    rcases List.mem_append.1 hx with hx | hx
    · exact hE x hx
    · exact idle_silent (hidle x hx)
  cases f1 with
  | returned =>
    exact absurd (by rw [hres]) (resolveCommands_noReturn w (configVars w doc)
      (0 + (readEvents w doc).length))
  | panicked e =>
    have hst : startup w 0 = (Flow.panicked e, readEvents w doc ++ Rv) := by
      rw [startup_eq, bind_next hRA, bind_panicked hres]
      rfl
    obtain ⟨es, -, -, -, hm⟩ := main_of_startup w sched _ _ hst
    rw [hm e rfl]
    refine pipelineCut_panic _ e hq1 ?_
    have hp := resolveCommands_panics w (configVars w doc) (0 + (readEvents w doc).length) e
      (by rw [hres])
    rw [hres] at hp
    obtain ⟨file, path, hmem⟩ := hp
    exact ⟨file, path, List.mem_append_right _ hmem⟩
  | next p =>
    obtain ⟨f2, S, hS, -, hcase⟩ := setup_cases w (configVars w doc) p
      (0 + (readEvents w doc).length + Rv.length)
    rcases hcase with ⟨hf2, hany, hpr, hact⟩ | ⟨hf2, hany, hact⟩
    · subst hf2
      have hst : startup w 0 = (Flow.returned, readEvents w doc ++ Rv ++ S) := by
        rw [startup_eq, bind_next hRA, bind_next hres]
        simp only [hv, Bool.false_eq_true, if_false]
        rw [bind_returned hS]
        simp [after]
      obtain ⟨es, -, -, hm, -⟩ := main_of_startup w sched _ _ hst
      rw [hm rfl]
      refine pipelineCut_failed _ S hq1 hany hpr ?_
      rcases hact with h | h | h <;> rw [h] <;> decide
    · subst hf2
      obtain ⟨U, r, f3, tail, hSt, hU, -, hcase3⟩ := startAgent_cases w (configVars w doc) p
        (0 + (readEvents w doc).length + Rv.length + S.length)
      have hUs : ∀ x ∈ U, actionOf x = none := fun x hx => still_silent (hU x hx)
      have hactSt : ∀ tl : List Event, (∀ x ∈ tl, actionOf x = none) →
          actions (Event.openFile (agentPropertiesFile w (configVars w doc))
            (w.OpenFile (0 + (readEvents w doc).length + Rv.length + S.length)
              (agentPropertiesFile w (configVars w doc))) :: U ++
            (Event.print ("Starting agent " ++
              (w.Get (configVars w doc).agentConfig "agent.name").Str ++ "\n") ::
              Event.run (cmdStrAgnt w (configVars w doc) p) r :: tl)) =
          [Action.propertiesPatch, Action.agentStart] := by
        intro tl htl
        rw [actions_append]
        have h1 : actions (Event.openFile (agentPropertiesFile w (configVars w doc))
            (w.OpenFile (0 + (readEvents w doc).length + Rv.length + S.length)
              (agentPropertiesFile w (configVars w doc))) :: U) = [Action.propertiesPatch] := by
          show actions ([Event.openFile _ _] ++ U) = _
          rw [actions_append, actions_silent U hUs]
          rfl
        have h2 : actions (Event.print ("Starting agent " ++
              (w.Get (configVars w doc).agentConfig "agent.name").Str ++ "\n") ::
              Event.run (cmdStrAgnt w (configVars w doc) p) r :: tl) = [Action.agentStart] := by
          show actions ([Event.print _, Event.run _ r] ++ tl) = _
          rw [actions_append, actions_silent tl htl]
          simp [actions, actionOf_print, actionOf_str]
        rw [h1, h2]
        rfl
      rcases hcase3 with ⟨hr, hf3, htl⟩ | ⟨hr, hf3, htl⟩
      · subst hf3
        subst htl
        rcases hA : afterStart w (configVars w doc) p
          (0 + (readEvents w doc).length + Rv.length + S.length +
            (Event.openFile (agentPropertiesFile w (configVars w doc))
              (w.OpenFile (0 + (readEvents w doc).length + Rv.length + S.length)
                (agentPropertiesFile w (configVars w doc))) :: U ++
              [Event.print ("Starting agent " ++
                (w.Get (configVars w doc).agentConfig "agent.name").Str ++ "\n"),
                Event.run (cmdStrAgnt w (configVars w doc) p) r]).length) with ⟨f4, A⟩
        have hAq : ∀ x ∈ A, Quiet x := by
          intro x hx
          exact afterStart_quiet w (configVars w doc) p _ x (by rw [hA]; exact hx)
        have hst : startup w 0 = (f4, readEvents w doc ++ Rv ++ (S ++
            (Event.openFile (agentPropertiesFile w (configVars w doc))
              (w.OpenFile (0 + (readEvents w doc).length + Rv.length + S.length)
                (agentPropertiesFile w (configVars w doc))) :: U ++
              [Event.print ("Starting agent " ++
                (w.Get (configVars w doc).agentConfig "agent.name").Str ++ "\n"),
                Event.run (cmdStrAgnt w (configVars w doc) p) r])) ++ A) := by
          rw [startup_eq, bind_next hRA, bind_next hres]
          simp only [hv, Bool.false_eq_true, if_false]
          rw [bind_next hS, bind_next hSt, hA]
          simp [after]
        obtain ⟨es, hes, hesq, -, -⟩ := main_of_startup w sched _ _ hst
        have hmain : main w sched = ((main w sched).1,
            readEvents w doc ++ Rv ++ (S ++
            (Event.openFile (agentPropertiesFile w (configVars w doc))
              (w.OpenFile (0 + (readEvents w doc).length + Rv.length + S.length)
                (agentPropertiesFile w (configVars w doc))) :: U ++
              [Event.print ("Starting agent " ++
                (w.Get (configVars w doc).agentConfig "agent.name").Str ++ "\n"),
                Event.run (cmdStrAgnt w (configVars w doc) p) r])) ++ (A ++ es)) := by
          rw [← List.append_assoc, ← hes]
        rw [hmain]
        refine pipelineCut_complete _ _ _ _ hq1 ?_ ?_ ?_
        · rw [List.any_append, hany, startSegment_ok _ _ _ U _ r hUs hr]
          rfl
        · rw [actions_append, hact, hactSt [] (fun x hx => by cases hx)]
          rfl
        · intro x hx
          rcases List.mem_append.1 hx with hx | hx
          · exact quiet_silent (hAq x hx)
          · exact quiet_silent (hesq x hx)
      · subst hf3
        have hst : startup w 0 = (Flow.returned, readEvents w doc ++ Rv ++ (S ++
            (Event.openFile (agentPropertiesFile w (configVars w doc))
              (w.OpenFile (0 + (readEvents w doc).length + Rv.length + S.length)
                (agentPropertiesFile w (configVars w doc))) :: U ++
              (Event.print ("Starting agent " ++
                (w.Get (configVars w doc).agentConfig "agent.name").Str ++ "\n") ::
                Event.run (cmdStrAgnt w (configVars w doc) p) r :: tail)))) := by
          rw [startup_eq, bind_next hRA, bind_next hres]
          simp only [hv, Bool.false_eq_true, if_false]
          rw [bind_next hS, bind_returned hSt]
          simp [after]
        obtain ⟨es, -, -, hm, -⟩ := main_of_startup w sched _ _ hst
        rw [hm rfl]
        have htls := isPrint_silent tail htl
        obtain ⟨hany2, haft⟩ := startSegment_failed
          (agentPropertiesFile w (configVars w doc))
          ("Starting agent " ++ (w.Get (configVars w doc).agentConfig "agent.name").Str
            ++ "\n")
          (w.OpenFile (0 + (readEvents w doc).length + Rv.length + S.length)
            (agentPropertiesFile w (configVars w doc))) U tail
          (cmdStrAgnt w (configVars w doc) p) r Action.agentStart hUs
          (actionOf_str w (configVars w doc) p r) hr
        refine pipelineCut_failed _ _ hq1 ?_ ?_ ?_
        · rw [List.any_append, hany2]
          simp
        · rw [afterFailedStep_skip _ _ hany, haft]
          exact htl
        · rw [actions_append, hact, hactSt tail htls]
          exact List.prefix_rfl

theorem isPrint_quiet (tl : List Event) (h : tl.all isPrint = true) :
    ∀ x ∈ tl, Quiet x := by
  intro x hx
  have := List.all_eq_true.1 h x hx
  cases x <;> first | exact ⟨rfl, rfl⟩ | cases this

theorem writes_quiet (es : List Event) (h : ∀ e ∈ es, Quiet e) : writes es = [] := by
  induction es with
  | nil => rfl
  | cons e es ih =>
    have h1 := (h e (List.mem_cons_self _ _)).2
    have h2 := ih (fun x hx => h x (List.mem_cons_of_mem _ hx))
    simp [writes, List.filterMap_cons, h1] at h2 ⊢
    exact h2

theorem not_setup_of_silent (c : Cmd) (r : RunResult)
    (h : actionOf (Event.run c r) = none) : c.name ∉ setupCommands := by
  intro hc
  simp only [setupCommands, List.mem_cons, List.mem_singleton, List.not_mem_nil,
    or_false] at hc
  simp only [actionOf] at h
  rcases hc with hc | hc | hc | hc <;> simp [hc] at h

theorem actionOf_openFile (f : String) (o : Option Error) :
    actionOf (Event.openFile f o) = some Action.propertiesPatch := rfl

theorem segment_actions (f s : String) (o : Option Error) (U tl : List Event) (c : Cmd)
    (r : RunResult) (a : Action) (hU : ∀ x ∈ U, actionOf x = none)
    (htl : ∀ x ∈ tl, actionOf x = none) (hc : actionOf (Event.run c r) = some a) :
    actions (Event.openFile f o :: U ++ (Event.print s :: Event.run c r :: tl)) =
      [Action.propertiesPatch, a] := by
  have h : Event.openFile f o :: U ++ (Event.print s :: Event.run c r :: tl) =
      [Event.openFile f o] ++ U ++ ([Event.print s, Event.run c r] ++ tl) := by simp
  rw [h, actions_append, actions_append, actions_append, actions_silent U hU,
    actions_silent tl htl]
  simp [actions, actionOf_print, hc, actionOf_openFile]

theorem segment_commands (f s : String) (o : Option Error) (U tl : List Event) (c : Cmd)
    (r : RunResult) (hU : ∀ x ∈ U, ∀ c r, x ≠ Event.run c r) :
    commands (Event.openFile f o :: U ++ (Event.print s :: Event.run c r :: tl)) =
      (c, r) :: commands tl := by
  have h : Event.openFile f o :: U ++ (Event.print s :: Event.run c r :: tl) =
      [Event.openFile f o] ++ U ++ ([Event.print s] ++ Event.run c r :: tl) := by simp
  rw [h, commands_append, commands_append, commands_append, commands_silent U hU]
  rfl

theorem segment_writes (f s : String) (o : Option Error) (U tl : List Event) (c : Cmd)
    (r : RunResult) (htl : ∀ x ∈ tl, Quiet x) :
    writes (Event.openFile f o :: U ++ (Event.print s :: Event.run c r :: tl)) = writes U := by
  have h : Event.openFile f o :: U ++ (Event.print s :: Event.run c r :: tl) =
      [Event.openFile f o] ++ U ++ ([Event.print s, Event.run c r] ++ tl) := by simp
  rw [h, writes_append, writes_append, writes_append, writes_quiet tl htl]
  simp [writes, writeOf]

theorem startOnly_shape (w : World) (sched : List Tick) (doc : String)
    (hargs : 2 ≤ w.Args.length)
    (hopen : w.Open 0 (w.Args.getD 1 "") = none)
    (hread : w.ReadAll 2 (w.Args.getD 1 "") = (doc, none))
    (hvalid : validateAttributes w.Get doc = none)
    (hso : startOnlyOf w.Args = true) :
    (∃ e Rv, main w sched = (Flow.panicked e, readEvents w doc ++ Rv) ∧ (∀ x ∈ Rv, Idle x) ∧
        ∃ file path, Event.lookPath file path (some e) ∈ Rv) ∨
      (∃ Rv U p r tl o, (main w sched).2 = readEvents w doc ++ Rv ++
          (Event.openFile (agentPropertiesFile w (configVars w doc)) o :: U ++
            (Event.print ("Starting agent " ++ (w.Get doc "agent.name").Str ++ "\n") ::
              Event.run (cmdStrAgnt w (configVars w doc) p) r :: tl)) ∧
        (∀ x ∈ Rv, Idle x) ∧ (∀ x ∈ U, Still x) ∧
        (writes U = if o.isNone ∧ (w.Get doc "agent.additionalProperties").Exists
          then (w.Get doc "agent.additionalProperties").Each.map
            (propertyLine (agentPropertiesFile w (configVars w doc))) else []) ∧
        (∀ x ∈ tl, Quiet x)) := by
  have hRA := readArguments_ok w doc hargs hopen hread hvalid
  have hv : (configVars w doc).startOnly = true := hso
  rcases hres : resolveCommands w (configVars w doc) (0 + (readEvents w doc).length)
    with ⟨f1, Rv⟩
  have hidle : ∀ e ∈ Rv, Idle e := by
    intro x hx
    exact resolveCommands_idle w (configVars w doc) _ x (by rw [hres]; exact hx)
  cases f1 with
  | returned =>
    exact absurd (by rw [hres]) (resolveCommands_noReturn w (configVars w doc)
      (0 + (readEvents w doc).length))
  | panicked e =>
    left
    have hst : startup w 0 = (Flow.panicked e, readEvents w doc ++ Rv) := by
      rw [startup_eq, bind_next hRA, bind_panicked hres]
      rfl
    obtain ⟨es, -, -, -, hm⟩ := main_of_startup w sched _ _ hst
    refine ⟨e, Rv, hm e rfl, hidle, ?_⟩
    have hp := resolveCommands_panics w (configVars w doc) (0 + (readEvents w doc).length) e
      (by rw [hres])
    rw [hres] at hp
    exact hp
  | next p =>
    right
    obtain ⟨U, r, f3, tail, hSt, hU, hw, hcase3⟩ := startAgent_cases w (configVars w doc) p
      (0 + (readEvents w doc).length + Rv.length)
    rcases hcase3 with ⟨hr, hf3, htl⟩ | ⟨hr, hf3, htl⟩
    · subst hf3
      subst htl
      rcases hA : afterStart w (configVars w doc) p
          (0 + (readEvents w doc).length + Rv.length +
            (Event.openFile (agentPropertiesFile w (configVars w doc))
              (w.OpenFile (0 + (readEvents w doc).length + Rv.length)
                (agentPropertiesFile w (configVars w doc))) :: U ++
              [Event.print ("Starting agent " ++
                (w.Get (configVars w doc).agentConfig "agent.name").Str ++ "\n"),
                Event.run (cmdStrAgnt w (configVars w doc) p) r]).length) with ⟨f4, A⟩
      have hAq : ∀ x ∈ A, Quiet x := by
        intro x hx
        exact afterStart_quiet w (configVars w doc) p _ x (by rw [hA]; exact hx)
      have hst : startup w 0 = (f4, readEvents w doc ++ Rv ++
            (Event.openFile (agentPropertiesFile w (configVars w doc))
              (w.OpenFile (0 + (readEvents w doc).length + Rv.length)
                (agentPropertiesFile w (configVars w doc))) :: U ++
              [Event.print ("Starting agent " ++
                (w.Get (configVars w doc).agentConfig "agent.name").Str ++ "\n"),
                Event.run (cmdStrAgnt w (configVars w doc) p) r]) ++ A) := by
        rw [startup_eq, bind_next hRA, bind_next hres]
        simp only [hv, if_true]
        rw [bind_pure, bind_next hSt, hA]
        simp [after]
      obtain ⟨es, hes, hesq, -, -⟩ := main_of_startup w sched _ _ hst
      refine ⟨Rv, U, p, r, A ++ es, _, ?_, hidle, hU, hw, ?_⟩
      · rw [hes]
        simp [configVars]
      · intro x hx
        rcases List.mem_append.1 hx with hx | hx
        · exact hAq x hx
        · exact hesq x hx
    · subst hf3
      have hst : startup w 0 = (Flow.returned, readEvents w doc ++ Rv ++
            (Event.openFile (agentPropertiesFile w (configVars w doc))
              (w.OpenFile (0 + (readEvents w doc).length + Rv.length)
                (agentPropertiesFile w (configVars w doc))) :: U ++
              (Event.print ("Starting agent " ++
                (w.Get (configVars w doc).agentConfig "agent.name").Str ++ "\n") ::
                Event.run (cmdStrAgnt w (configVars w doc) p) r :: tail))) := by
        rw [startup_eq, bind_next hRA, bind_next hres]
        simp only [hv, if_true]
        rw [bind_pure, bind_returned hSt]
        simp [after]
      obtain ⟨es, -, -, hm, -⟩ := main_of_startup w sched _ _ hst
      refine ⟨Rv, U, p, r, tail, _, ?_, hidle, hU, hw, isPrint_quiet tail htl⟩
      rw [hm rfl]
      rfl

/-- C3, counterexample: started with `true` as second argument and a valid configuration
with one additional property, `main` appends that property to the properties file. -/
theorem startOnly_patch_is_written :
    startOnlyOf worldStartOnly.Args = true ∧
      validateAttributes worldStartOnly.Get "doc" = none ∧
      Event.writeString "/mnt/mqft/config/QMC/agents/AG/agent.properties"
        "\nmaxSourceTransfers=10\n" none ∈ (main worldStartOnly []).2 := by
  decide

/-- C3 (as amended): for a valid configuration read from the file named by the first
argument, when `startOnly` is true `main` runs none of `fteSetupCoordination`,
`fteSetupCommands`, `fteCreateAgent`, `fteCreateBridgeAgent`; its steps are the properties
patch followed by the agent start (or none at all, when an executable lookup failed and
`main` panicked); the first command run is `fteStartAgent`; and the patch does write: when
the properties file opened and `agent.additionalProperties` exists, the texts written are
one `key=value` line per entry. -/
theorem startOnly_skips_setup_but_patches (w : World) (sched : List Tick) (doc : String)
    (hargs : 2 ≤ w.Args.length)
    (hopen : w.Open 0 (w.Args.getD 1 "") = none)
    (hread : w.ReadAll 2 (w.Args.getD 1 "") = (doc, none))
    (hvalid : validateAttributes w.Get doc = none)
    (hso : startOnlyOf w.Args = true) :
    (∀ c r, Event.run c r ∈ (main w sched).2 → c.name ∉ setupCommands) ∧
      (actions (main w sched).2 = [Action.propertiesPatch, Action.agentStart] ∨
        (actions (main w sched).2 = [] ∧ ∃ e file path,
          (main w sched).1 = Flow.panicked e ∧
            Event.lookPath file path (some e) ∈ (main w sched).2)) ∧
      (∀ c r, (commands (main w sched).2).head? = some (c, r) → c.name = "fteStartAgent") ∧
      (Event.openFile (agentPropertiesFile w (configVars w doc)) none ∈ (main w sched).2 →
        (w.Get doc "agent.additionalProperties").Exists = true →
        writes (main w sched).2 = (w.Get doc "agent.additionalProperties").Each.map
          (propertyLine (agentPropertiesFile w (configVars w doc)))) := by
  have hE := readEvents_still w doc
  rcases startOnly_shape w sched doc hargs hopen hread hvalid hso with
    ⟨e, Rv, hm, hidle, file, path, hmem⟩ | ⟨Rv, U, p, r, tl, o, hT, hidle, hU, hw, htl⟩
  · have hstill : ∀ x ∈ readEvents w doc ++ Rv, Still x := by
      intro x hx
      rcases List.mem_append.1 hx with hx | hx
      · exact hE x hx
      · exact idle_still (hidle x hx)
    rw [hm]
    refine ⟨?_, Or.inr ⟨?_, e, file, path, rfl, List.mem_append_right _ hmem⟩, ?_, ?_⟩
    · intro c r hc
      exact absurd rfl ((hstill _ hc).2 c r)
    · exact actions_silent _ (fun x hx => (hstill x hx).1)
    · intro c r hc
      have : commands (readEvents w doc ++ Rv) = [] :=
        commands_silent _ (fun x hx => (hstill x hx).2)
      simp only [this] at hc
      cases hc
    · intro hc
      have := (hstill _ hc).1
      cases this
  · have hstill : ∀ x ∈ readEvents w doc ++ Rv, Still x := by
      intro x hx
      rcases List.mem_append.1 hx with hx | hx
      · exact hE x hx
      · exact idle_still (hidle x hx)
    have hquiet : ∀ x ∈ readEvents w doc ++ Rv, Quiet x := by
      intro x hx
      rcases List.mem_append.1 hx with hx | hx
      · simp only [readEvents, List.mem_cons, List.mem_singleton, List.not_mem_nil,
          or_false] at hx
        rcases hx with rfl | rfl | rfl <;> exact ⟨rfl, rfl⟩
      · exact (hidle x hx).1
    rw [hT]
    refine ⟨?_, Or.inl ?_, ?_, ?_⟩
    · intro c r2 hc
      simp only [List.mem_append, List.mem_cons] at hc
      rcases hc with (hc | hc) | (hc | hc) | hc | hc | hc
      · exact absurd rfl ((hE _ hc).2 c r2)
      · exact absurd rfl ((hidle _ hc).2 c r2)
      · cases hc
      · exact absurd rfl ((hU _ hc).2 c r2)
      · cases hc
      · cases hc
        simp [cmdStrAgnt, setupCommands]
      · exact not_setup_of_silent c r2 (htl _ hc).1
    · rw [actions_append, actions_silent _ (fun x hx => (hstill x hx).1),
        segment_actions _ _ _ U tl _ r Action.agentStart (fun x hx => (hU x hx).1)
          (fun x hx => (htl x hx).1) (actionOf_str w (configVars w doc) p r)]
      rfl
    · intro c r2 hc
      rw [commands_append, commands_silent _ (fun x hx => (hstill x hx).2)] at hc
      rw [segment_commands _ _ _ U tl _ r (fun x hx => (hU x hx).2)] at hc
      simp only [List.nil_append, List.head?_cons, Option.some.injEq, Prod.mk.injEq] at hc
      rw [← hc.1]
      rfl
    · intro hc hx
      have ho : o = none := by
        simp only [List.mem_append, List.mem_cons] at hc
        rcases hc with (hc | hc) | (hc | hc) | hc | hc | hc
        · have := (hE _ hc).1; cases this
        · have := (hidle _ hc).1.1; cases this
        · injection hc with _ h2
          exact h2.symm
        · have := (hU _ hc).1; cases this
        · cases hc
        · cases hc
        · have := (htl _ hc).1; cases this
      rw [writes_append, writes_quiet _ hquiet, segment_writes _ _ _ U tl _ r htl, hw, ho, hx]
      simp

theorem startOnly_skips_setup_but_patches_witness :
    (2 ≤ worldStartOnly.Args.length ∧
      worldStartOnly.Open 0 (worldStartOnly.Args.getD 1 "") = none ∧
      worldStartOnly.ReadAll 2 (worldStartOnly.Args.getD 1 "") = ("doc", none) ∧
      validateAttributes worldStartOnly.Get "doc" = none ∧
      startOnlyOf worldStartOnly.Args = true) ∧
    (∀ c r, Event.run c r ∈ (main worldStartOnly []).2 → c.name ∉ setupCommands) ∧
    (∀ c r, (commands (main worldStartOnly []).2).head? = some (c, r) →
      c.name = "fteStartAgent") :=
  ⟨⟨by decide, rfl, rfl, by decide, by decide⟩,
    (startOnly_skips_setup_but_patches worldStartOnly [] "doc" (by decide) rfl rfl
      (by decide) (by decide)).1,
    (startOnly_skips_setup_but_patches worldStartOnly [] "doc" (by decide) rfl rfl
      (by decide) (by decide)).2.2.1⟩

/-- C10: for a valid configuration read from the file named by the first argument, with
`startOnly` false, the steps of `main` (coordination setup, commands setup, agent creation,
properties patch, agent start) form an initial part of that pipeline, in that order.  When
no pipeline command failed they are all five, unless an executable lookup failed before the
first step and `main` panicked.  When a pipeline command failed, `main` has returned and
everything after the first failed command is console output: no later step, no other
command. -/
theorem pipeline_is_cut_at_first_failure (w : World) (sched : List Tick) (doc : String)
    (hargs : 2 ≤ w.Args.length)
    (hopen : w.Open 0 (w.Args.getD 1 "") = none)
    (hread : w.ReadAll 2 (w.Args.getD 1 "") = (doc, none))
    (hvalid : validateAttributes w.Get doc = none)
    (hso : startOnlyOf w.Args = false) :
    actions (main w sched).2 <+: pipeline ∧
      ((main w sched).2.any failedStep = false →
        actions (main w sched).2 = pipeline ∨
          (actions (main w sched).2 = [] ∧ ∃ e file path,
            (main w sched).1 = Flow.panicked e ∧
              Event.lookPath file path (some e) ∈ (main w sched).2)) ∧
      ((main w sched).2.any failedStep = true →
        (main w sched).1 = Flow.returned ∧
          (afterFailedStep (main w sched).2).all isPrint = true) :=
  pipelineCut_main w sched doc hargs hopen hread hvalid hso

theorem pipeline_is_cut_at_first_failure_witness :
    (2 ≤ (worldAnswering "AG QMA READY").Args.length ∧
      (worldAnswering "AG QMA READY").Open 0
        ((worldAnswering "AG QMA READY").Args.getD 1 "") = none ∧
      (worldAnswering "AG QMA READY").ReadAll 2
        ((worldAnswering "AG QMA READY").Args.getD 1 "") = ("doc", none) ∧
      validateAttributes (worldAnswering "AG QMA READY").Get "doc" = none ∧
      startOnlyOf (worldAnswering "AG QMA READY").Args = false) ∧
    actions (main (worldAnswering "AG QMA READY") []).2 <+: pipeline :=
  ⟨⟨by decide, rfl, rfl, by decide, by decide⟩,
    (pipeline_is_cut_at_first_failure (worldAnswering "AG QMA READY") [] "doc" (by decide)
      rfl rfl (by decide) (by decide)).1⟩

theorem probes_append (es fs : List Event) : probes (es ++ fs) = probes es ++ probes fs :=
  List.filterMap_append _ _ _

theorem probes_none (es : List Event) (h : ∀ e ∈ es, probeOf e = none) : probes es = [] := by
  induction es with
  | nil => rfl
  | cons e es ih =>
    have h1 := h e (List.mem_cons_self _ _)
    have h2 := ih (fun x hx => h x (List.mem_cons_of_mem _ hx))
    simp [probes, List.filterMap_cons, h1] at h2 ⊢
    exact h2

theorem probeOf_print (s : String) : probeOf (Event.print s) = none := rfl

theorem probeOf_list (w : World) (v : Vars) (lp : String) (r : RunResult) :
    probeOf (Event.run (cmdListAgents w v lp) r) = some (Probe.query r) := by
  simp [probeOf, cmdListAgents]

theorem falls_bind {α β : Type} {m : Prog α} {f : α → Prog β}
    (hm : Falls m) (hf : ∀ a, Falls (f a)) : Falls (m >>= f) := by
  intro n
  obtain ⟨a, ha⟩ := hm n
  rcases h : m n with ⟨x, es⟩
  rw [h] at ha
  simp only at ha
  subst ha
  rw [bind_next h]
  exact hf a _

theorem falls_pure {α : Type} (a : α) : Falls (pure a : Prog α) := fun _ => ⟨a, rfl⟩

theorem falls_emit (e : Event) : Falls (emit e) := fun _ => ⟨(), rfl⟩

theorem falls_ask {α : Type} (q : Nat → α) (ev : α → Event) : Falls (ask q ev) :=
  fun n => ⟨q n, rfl⟩

theorem falls_printBuffers (r : RunResult) : Falls (printBuffers r) :=
  falls_bind (falls_emit _) (fun _ => falls_emit _)

theorem createResourceMonitor_falls (w : World) (a b c d e : String) :
    Falls (createResourceMonitor w a b c d e) := by
  unfold createResourceMonitor LookPath
  refine falls_bind (falls_emit _) (fun _ => ?_)
  refine falls_bind (falls_ask _ _) (fun r => ?_)
  obtain ⟨path, err⟩ := r
  cases err
  · refine falls_bind (falls_ask _ _) (fun r => ?_)
    split
    · refine falls_bind (falls_emit _) (fun _ => ?_)
      exact falls_bind (falls_printBuffers _) (fun _ => falls_pure _)
    · exact falls_pure _
  · exact falls_pure _

theorem monitorEntry_falls (w : World) (v : Vars) (k x : String) (n : Nat) :
    ∃ es, monitorEntry w v k x n = (Flow.next true, es) := by
  obtain ⟨y, hy⟩ := createResourceMonitor_falls w
    (w.Get v.agentConfig "coordinationQMgr.name").Str (w.Get v.agentConfig "agent.name").Str
    (w.Get v.agentConfig "agent.qmgrName").Str k x n
  rcases h : createResourceMonitor w
    (w.Get v.agentConfig "coordinationQMgr.name").Str (w.Get v.agentConfig "agent.name").Str
    (w.Get v.agentConfig "agent.qmgrName").Str k x n with ⟨fl, es⟩
  rw [h] at hy
  simp only at hy
  subst hy
  refine ⟨es, ?_⟩
  unfold monitorEntry
  rw [bind_next h]
  simp [pure_apply, after]

theorem forEach_falls (entries : List (String × String)) (f : String → String → Prog Bool)
    (hf : ∀ k x n, ∃ es, f k x n = (Flow.next true, es)) (n : Nat) :
    ∃ es, forEach entries f n = (Flow.next (), es) := by
  induction entries generalizing n with
  | nil => exact ⟨[], rfl⟩
  | cons kv rest ih =>
    obtain ⟨k, x⟩ := kv
    obtain ⟨es1, h1⟩ := hf k x n
    obtain ⟨es2, h2⟩ := ih (n + es1.length)
    refine ⟨es1 ++ es2, ?_⟩
    unfold forEach
    rw [bind_next h1]
    simp only [if_true]
    rw [h2]
    rfl

theorem noProbe_print (s : String) : NoProbe (Event.print s) := rfl

theorem noProbe_lookPath (f x : String) (e : Option Error) :
    NoProbe (Event.lookPath f x e) := rfl

theorem noProbe_notify : NoProbe Event.notify := rfl

theorem createResourceMonitor_noProbe (w : World) (a b c d e : String) :
    Emits NoProbe (createResourceMonitor w a b c d e) := by
  unfold createResourceMonitor LookPath
  refine emits_bind (emits_Println noProbe_print _) (fun _ => ?_)
  refine emits_bind (emits_ask (fun r => noProbe_lookPath _ _ _)) (fun r => ?_)
  obtain ⟨path, err⟩ := r
  cases err
  · refine emits_bind (emits_ask (fun r => by simp [NoProbe, probeOf, cmdCrtMonitorCmd])) (fun r => ?_)
    split
    · refine emits_bind (emits_Println noProbe_print _) (fun _ => ?_)
      exact emits_bind (emits_printBuffers noProbe_print _) (fun _ => emits_pure _)
    · exact emits_pure _
  · exact emits_pure _

theorem enterMonitoring_noProbe (w : World) (v : Vars) (s : String) :
    Emits NoProbe (enterMonitoring w v s) := by
  unfold enterMonitoring
  split
  · refine emits_bind (emits_Println noProbe_print _) (fun _ => ?_)
    dsimp only
    have hjp : Emits NoProbe (do
        Println ["Starting to monitor agent status"]
        emit Event.notify) :=
      emits_bind (emits_Println noProbe_print _) (fun _ => emits_emit noProbe_notify)
    split
    · split
      · refine emits_bind (emits_forEach _ _ (fun k x => ?_)) (fun _ => hjp)
        unfold monitorEntry
        exact emits_bind (createResourceMonitor_noProbe w _ _ _ _ _) (fun _ => emits_pure _)
      · exact emits_bind (emits_pure _) (fun _ => hjp)
    · exact emits_bind (emits_pure _) (fun _ => hjp)
  · exact emits_bind (emits_Println noProbe_print _) (fun _ => emits_ret)

theorem enterMonitoring_flow (w : World) (v : Vars) (s : String) (n : Nat) :
    (enterMonitoring w v s n).1 =
      if Contains s "READY" = true ∨ Contains s "ACTIVE" = true then Flow.next ()
      else Flow.returned := by
  unfold enterMonitoring
  split
  · simp only [Println, bind_emit, after]
    have hjp : ∀ k, ((do
        Println ["Starting to monitor agent status"]
        emit Event.notify : Prog Unit) k).1 = Flow.next () := fun k => rfl
    split
    · split
      · obtain ⟨es, h⟩ := forEach_falls (w.Get v.agentConfig "agent.resourceMonitors").Each
          (monitorEntry w v) (monitorEntry_falls w v) (n + 1)
        rw [bind_next h]
        exact hjp (n + 1 + es.length)
      · rfl
    · rfl
  · rfl

theorem probeOf_lookPath (f x : String) (e : Option Error) :
    probeOf (Event.lookPath f x e) = none := rfl

theorem probeOf_goDisplayLog (d : Int) (s : String) :
    probeOf (Event.goDisplayLog d s) = none := rfl

theorem probeOf_sleep (d : Int) : probeOf (Event.sleep d) = some (Probe.wait d) := rfl

theorem confirmStart_running (w : World) (v : Vars) (n : Nat) (lp : String)
    (hlook : w.LookPath (n + 1) "fteListAgents" = (lp, none))
    (hq1 : (w.Run (n + 2) (cmdListAgents w v lp)).err = none)
    (hc : Contains (w.Run (n + 2) (cmdListAgents w v lp)).out "STOPPED" = false) :
    ∃ es, confirmStart w v n =
        (Flow.next (lp, (w.Run (n + 2) (cmdListAgents w v lp)).out), es) ∧
      probes es = [Probe.query (w.Run (n + 2) (cmdListAgents w v lp))] := by
  cases hs : v.showAgentLogs
  · refine ⟨(confirmStart w v n).2, ?_, ?_⟩
    · simp only [confirmStart, Print, Println, lookPathOrPanic, LookPath, Run, bind_emit,
        bind_ask, bind_assoc, hlook, Nat.add_assoc, Nat.reduceAdd, bind_pure, hq1, hs, hc,
        Bool.false_eq_true, if_false, pure_apply, after_mk, after_after]
    · simp only [confirmStart, Print, Println, lookPathOrPanic, LookPath, Run, bind_emit,
        bind_ask, bind_assoc, hlook, Nat.add_assoc, Nat.reduceAdd, bind_pure, hq1, hs, hc,
        Bool.false_eq_true, if_false, pure_apply, after_mk, after_after]
      simp [probes, probeOf_print, probeOf_lookPath, probeOf_list]
  · refine ⟨(confirmStart w v n).2, ?_, ?_⟩
    · simp only [confirmStart, Print, Println, lookPathOrPanic, LookPath, Run, bind_emit,
        bind_ask, bind_assoc, hlook, Nat.add_assoc, Nat.reduceAdd, bind_pure, hq1, hs, hc,
        Bool.false_eq_true, if_false, if_true, pure_apply, after_mk, after_after]
    · simp only [confirmStart, Print, Println, lookPathOrPanic, LookPath, Run, bind_emit,
        bind_ask, bind_assoc, hlook, Nat.add_assoc, Nat.reduceAdd, bind_pure, hq1, hs, hc,
        Bool.false_eq_true, if_false, if_true, pure_apply, after_mk, after_after]
      simp [probes, probeOf_print, probeOf_lookPath, probeOf_list, probeOf_goDisplayLog]

theorem confirmStart_stopped (w : World) (v : Vars) (n : Nat) (lp : String)
    (hlook : w.LookPath (n + 1) "fteListAgents" = (lp, none))
    (hq1 : (w.Run (n + 2) (cmdListAgents w v lp)).err = none)
    (hc : Contains (w.Run (n + 2) (cmdListAgents w v lp)).out "STOPPED" = true) :
    ∃ r2 es,
      probes es = [Probe.query (w.Run (n + 2) (cmdListAgents w v lp)),
        Probe.wait 10000000000, Probe.query r2] ∧
      ((r2.err = none ∧ confirmStart w v n = (Flow.next (lp, r2.out), es)) ∨
        (r2.err ≠ none ∧ confirmStart w v n = (Flow.returned, es))) := by
  cases hs : v.showAgentLogs
  · rcases h2 : (w.Run (n + 5) (cmdListAgents w v lp)).err with _ | e2
    · refine ⟨w.Run (n + 5) (cmdListAgents w v lp), (confirmStart w v n).2, ?_, Or.inl ⟨h2, ?_⟩⟩
      rotate_left
      · simp only [confirmStart, Print, Println, lookPathOrPanic, LookPath, Run, bind_emit,
          bind_ask, bind_assoc, hlook, Nat.add_assoc, Nat.reduceAdd, bind_pure, hq1, hs, hc,
          h2, Bool.false_eq_true, if_false, if_true, pure_apply, after_mk, after_after]
      · simp only [confirmStart, Print, Println, printBuffers, lookPathOrPanic, LookPath, Run,
          bind_emit, bind_ask, bind_assoc, hlook, Nat.add_assoc, Nat.reduceAdd, bind_pure, hq1,
          hs, hc, h2, Bool.false_eq_true, if_false, if_true, ret_apply, pure_apply, after_mk,
          after_after]
        simp [probes, probeOf_print, probeOf_lookPath, probeOf_list, probeOf_sleep]
    · refine ⟨w.Run (n + 5) (cmdListAgents w v lp), (confirmStart w v n).2, ?_, Or.inr ⟨by rw [h2]; simp, ?_⟩⟩
      rotate_left
      · simp only [confirmStart, Print, Println, printBuffers, lookPathOrPanic, LookPath, Run,
          bind_emit, bind_ask, bind_assoc, hlook, Nat.add_assoc, Nat.reduceAdd, bind_pure, hq1,
          hs, hc, h2, Bool.false_eq_true, if_false, if_true, ret_apply, after_mk, after_after]
      · simp only [confirmStart, Print, Println, printBuffers, lookPathOrPanic, LookPath, Run,
          bind_emit, bind_ask, bind_assoc, hlook, Nat.add_assoc, Nat.reduceAdd, bind_pure, hq1,
          hs, hc, h2, Bool.false_eq_true, if_false, if_true, ret_apply, pure_apply, after_mk,
          after_after]
        simp [probes, probeOf_print, probeOf_lookPath, probeOf_list, probeOf_sleep]
  · rcases h2 : (w.Run (n + 6) (cmdListAgents w v lp)).err with _ | e2
    · refine ⟨w.Run (n + 6) (cmdListAgents w v lp), (confirmStart w v n).2, ?_, Or.inl ⟨h2, ?_⟩⟩
      rotate_left
      · simp only [confirmStart, Print, Println, lookPathOrPanic, LookPath, Run, bind_emit,
          bind_ask, bind_assoc, hlook, Nat.add_assoc, Nat.reduceAdd, bind_pure, hq1, hs, hc,
          h2, Bool.false_eq_true, if_false, if_true, pure_apply, after_mk, after_after]
      · simp only [confirmStart, Print, Println, printBuffers, lookPathOrPanic, LookPath, Run,
          bind_emit, bind_ask, bind_assoc, hlook, Nat.add_assoc, Nat.reduceAdd, bind_pure, hq1,
          hs, hc, h2, Bool.false_eq_true, if_false, if_true, ret_apply, pure_apply, after_mk,
          after_after]
        simp [probes, probeOf_print, probeOf_lookPath, probeOf_list, probeOf_sleep,
          probeOf_goDisplayLog]
    · refine ⟨w.Run (n + 6) (cmdListAgents w v lp), (confirmStart w v n).2, ?_, Or.inr ⟨by rw [h2]; simp, ?_⟩⟩
      rotate_left
      · simp only [confirmStart, Print, Println, printBuffers, lookPathOrPanic, LookPath, Run,
          bind_emit, bind_ask, bind_assoc, hlook, Nat.add_assoc, Nat.reduceAdd, bind_pure, hq1,
          hs, hc, h2, Bool.false_eq_true, if_false, if_true, ret_apply, after_mk, after_after]
      · simp only [confirmStart, Print, Println, printBuffers, lookPathOrPanic, LookPath, Run,
          bind_emit, bind_ask, bind_assoc, hlook, Nat.add_assoc, Nat.reduceAdd, bind_pure, hq1,
          hs, hc, h2, Bool.false_eq_true, if_false, if_true, ret_apply, pure_apply, after_mk,
          after_after]
        simp [probes, probeOf_print, probeOf_lookPath, probeOf_list, probeOf_sleep,
          probeOf_goDisplayLog]

theorem afterStart_of_confirm (w : World) (v : Vars) (p : Paths) (n : Nat) (lp s : String)
    (es : List Event) (h : confirmStart w v n = (Flow.next (lp, s), es)) :
    (afterStart w v p n).1 =
        (if Contains s "READY" = true ∨ Contains s "ACTIVE" = true
          then Flow.next (v, p, lp) else Flow.returned) ∧
      probes (afterStart w v p n).2 = probes es := by
  have hf := enterMonitoring_flow w v s (n + es.length)
  have hp := enterMonitoring_noProbe w v s (n + es.length)
  unfold afterStart
  rw [bind_next h]
  simp only []
  rcases hE : enterMonitoring w v s (n + es.length) with ⟨fl, evs⟩
  rw [hE] at hf hp
  simp only at hf
  have hpe : probes evs = [] := probes_none evs hp
  split at hf
  · rename_i hc
    subst hf
    rw [bind_next hE, if_pos hc]
    simp [after, pure_apply, probes_append, hpe]
  · rename_i hc
    subst hf
    rw [bind_returned hE, if_neg hc]
    simp [after, probes_append, hpe]

theorem afterStart_of_confirm_returned (w : World) (v : Vars) (p : Paths) (n : Nat)
    (es : List Event) (h : confirmStart w v n = (Flow.returned, es)) :
    afterStart w v p n = (Flow.returned, es) := by
  unfold afterStart
  rw [bind_returned h]

theorem provisions_append (es fs : List Event) :
    provisions (es ++ fs) = provisions es ++ provisions fs :=
  List.filterMap_append _ _ _

theorem provisions_none (es : List Event) (h : ∀ e ∈ es, NoProvision e) :
    provisions es = [] := by
  induction es with
  | nil => rfl
  | cons e es ih =>
    have h1 : provisionOf e = none := h e (List.mem_cons_self _ _)
    have h2 := ih (fun x hx => h x (List.mem_cons_of_mem _ hx))
    simp [provisions, List.filterMap_cons, h1] at h2 ⊢
    exact h2

theorem noProvision_print (s : String) : NoProvision (Event.print s) := rfl

theorem noProvision_list (w : World) (v : Vars) (lp : String) (r : RunResult) :
    NoProvision (Event.run (cmdListAgents w v lp) r) := by
  simp [NoProvision, provisionOf, cmdListAgents]

theorem noProvision_lookPathOrPanic (w : World) (n : Nat) :
    ∀ e ∈ (lookPathOrPanic w "fteListAgents" n).2, NoProvision e := by
  intro e he
  unfold lookPathOrPanic LookPath at he
  rw [bind_ask] at he
  rcases h : w.LookPath n "fteListAgents" with ⟨path, err⟩
  rw [h] at he
  cases err <;> simp [after, pure_apply, panic_apply] at he <;> subst he <;>
    simp [NoProvision, provisionOf]

theorem confirmStart_noProvision (w : World) (v : Vars) :
    Emits NoProvision (confirmStart w v) := by
  unfold confirmStart
  refine emits_bind (emits_Print noProvision_print _) (fun _ => ?_)
  refine emits_bind (noProvision_lookPathOrPanic w) (fun lp => ?_)
  refine emits_bind (emits_ask (fun r => noProvision_list w v lp r)) (fun r => ?_)
  split
  · refine emits_bind (emits_Println noProvision_print _) (fun _ => ?_)
    exact emits_bind (emits_printBuffers noProvision_print _) (fun _ => emits_ret)
  · dsimp only
    have hjp : Emits NoProvision (if Contains r.out "STOPPED" = true then do
          Println ["Agent not started yet. Wait for 10 seconds and recheck status again"]
          emit (Event.sleep (10 * 1000000000))
          let r ← Run w (cmdListAgents w v lp)
          match r.err with
            | some err => do
              Println ["Error: ", err]
              printBuffers r
              ret
            | none => pure (lp, r.out)
        else pure (lp, r.out)) := by
      split
      · refine emits_bind (emits_Println noProvision_print _) (fun _ => ?_)
        refine emits_bind (emits_emit rfl) (fun _ => ?_)
        refine emits_bind (emits_ask (fun r => noProvision_list w v lp r)) (fun r => ?_)
        split
        · refine emits_bind (emits_Println noProvision_print _) (fun _ => ?_)
          exact emits_bind (emits_printBuffers noProvision_print _) (fun _ => emits_ret)
        · exact emits_pure _
      · exact emits_pure _
    split
    · exact emits_bind (emits_emit rfl) (fun _ => hjp)
    · exact emits_bind (emits_pure _) (fun _ => hjp)

/-- The provisioning steps of one call of `createResourceMonitor`: the lookup and, when the
executable was found, the run of the command built from the path found. -/
theorem createResourceMonitor_provisions (w : World) (a b c d e : String) (n : Nat) :
    provisions (createResourceMonitor w a b c d e n).2 =
      Provision.lookup (w.LookPath (n + 1) "fteCreateMonitor").2 ::
        (if (w.LookPath (n + 1) "fteCreateMonitor").2 = none
          then [Provision.create
            (cmdCrtMonitorCmd (w.LookPath (n + 1) "fteCreateMonitor").1 a b c d e)]
          else []) := by
  unfold createResourceMonitor LookPath Println
  rw [bind_emit, bind_ask]
  rcases h : w.LookPath (n + 1) "fteCreateMonitor" with ⟨path, err⟩
  cases err with
  | some e1 =>
    simp [after, pure_apply, provisions, provisionOf]
  | none =>
    simp only [Run, bind_ask]
    rcases h2 : (w.Run (n + 1 + 1) (cmdCrtMonitorCmd path a b c d e)).err with _ | e2
    · simp [after, pure_apply, provisions, provisionOf, cmdCrtMonitorCmd]
    · simp only [printBuffers, Println, bind_emit, bind_assoc, pure_apply, after_mk,
        after_after]
      simp [after, provisions, provisionOf, cmdCrtMonitorCmd]

theorem monitorEntry_provisions (w : World) (v : Vars) (k x : String) (n : Nat) :
    provisions (monitorEntry w v k x n).2 =
      Provision.lookup (w.LookPath (n + 1) "fteCreateMonitor").2 ::
        (if (w.LookPath (n + 1) "fteCreateMonitor").2 = none
          then [Provision.create
            (cmdCrtMonitorCmd (w.LookPath (n + 1) "fteCreateMonitor").1
              (w.Get v.agentConfig "coordinationQMgr.name").Str
              (w.Get v.agentConfig "agent.name").Str
              (w.Get v.agentConfig "agent.qmgrName").Str k x)]
          else []) := by
  rw [← createResourceMonitor_provisions]
  obtain ⟨y, hy⟩ := createResourceMonitor_falls w
    (w.Get v.agentConfig "coordinationQMgr.name").Str (w.Get v.agentConfig "agent.name").Str
    (w.Get v.agentConfig "agent.qmgrName").Str k x n
  rcases h : createResourceMonitor w
    (w.Get v.agentConfig "coordinationQMgr.name").Str (w.Get v.agentConfig "agent.name").Str
    (w.Get v.agentConfig "agent.qmgrName").Str k x n with ⟨fl, es⟩
  rw [h] at hy
  simp only at hy
  subst hy
  unfold monitorEntry
  rw [bind_next h]
  simp [pure_apply, after]

theorem forEach_cons_next (k x : String) (rest : List (String × String))
    (f : String → String → Prog Bool) (n : Nat) (es : List Event)
    (h : f k x n = (Flow.next true, es)) :
    forEach ((k, x) :: rest) f n = after es (forEach rest f (n + es.length)) := by
  unfold forEach
  rw [bind_next h]
  simp only [if_true]
  cases rest <;> rfl

/-- The provisioning steps of the loop over the resource monitors: one lookup for every
entry. -/
theorem forEach_monitorEntry_lookups (w : World) (v : Vars)
    (entries : List (String × String)) (n : Nat) :
    (provisions (forEach entries (monitorEntry w v) n).2).countP isLookup =
      entries.length := by
  induction entries generalizing n with
  | nil => rfl
  | cons kv rest ih =>
    obtain ⟨k, x⟩ := kv
    obtain ⟨es, h⟩ := monitorEntry_falls w v k x n
    have hp := monitorEntry_provisions w v k x n
    rw [h] at hp
    simp only at hp
    rw [forEach_cons_next k x rest _ n es h]
    simp only [after, provisions_append, List.countP_append, ih, hp]
    split <;> simp [isLookup, List.countP_cons] <;> omega

/-- The provisioning steps of the loop over the resource monitors when `fteCreateMonitor`
is found at `mp` whenever it is looked up: for every entry, in order, the lookup and the
command for that entry. -/
theorem forEach_monitorEntry_provisions (w : World) (v : Vars) (mp : String)
    (hmon : ∀ k, w.LookPath k "fteCreateMonitor" = (mp, none))
    (entries : List (String × String)) (n : Nat) :
    provisions (forEach entries (monitorEntry w v) n).2 =
      entries.flatMap (provisionOfEntry w v mp) := by
  induction entries generalizing n with
  | nil => rfl
  | cons kv rest ih =>
    obtain ⟨k, x⟩ := kv
    obtain ⟨es, h⟩ := monitorEntry_falls w v k x n
    have hp := monitorEntry_provisions w v k x n
    rw [h, hmon] at hp
    simp only [if_true] at hp
    rw [forEach_cons_next k x rest _ n es h]
    simp only [after, provisions_append, ih, hp, List.flatMap_cons, provisionOfEntry]

/-- The provisioning steps of lines 361-389 and 465-468 are those of the loop over the
resource monitors, which runs when the status text contains `READY` or `ACTIVE`, `startOnly`
is false and `agent.resourceMonitors` exists. -/
theorem enterMonitoring_provisions (w : World) (v : Vars) (s : String) (n : Nat) :
    provisions (enterMonitoring w v s n).2 =
      provisions (forEach (monitorsToCreate w v s) (monitorEntry w v) (n + 1)).2 := by
  unfold enterMonitoring monitorsToCreate
  by_cases hc : Contains s "READY" = true ∨ Contains s "ACTIVE" = true
  · rw [if_pos hc]
    simp only [Println, bind_emit, after]
    have hjp : ∀ k, provisions ((emit (Event.print
        (spaced ["Starting to monitor agent status"] ++ "\n")) >>=
          fun _ => emit Event.notify) k).2 = [] := fun k => rfl
    cases hso : v.startOnly
    · by_cases hex : (w.Get v.agentConfig "agent.resourceMonitors").Exists = true
      · simp only [hc, hex, Bool.not_false, if_true, true_and]
        obtain ⟨es, h⟩ := forEach_falls (w.Get v.agentConfig "agent.resourceMonitors").Each
          (monitorEntry w v) (monitorEntry_falls w v) (n + 1)
        rw [bind_next h, h]
        simp only [after, provisions_append, hjp, List.append_nil]
        simp [provisions, provisionOf]
      · simp only [hc, hex, Bool.not_false, if_true, true_and, if_false, Bool.false_eq_true]
        rw [bind_pure]
        simp only [provisions_append, hjp, List.append_nil]
        rfl
    · simp only [hc, Bool.not_true, if_true, true_and, if_false, Bool.false_eq_true,
        false_and]
      rw [bind_pure]
      simp only [provisions_append, hjp, List.append_nil]
      rfl
  · rw [if_neg hc]
    simp only [hc, false_and, if_false]
    rfl

theorem afterStart_provisions (w : World) (v : Vars) (p : Paths) (n : Nat) (lp s : String)
    (es : List Event) (h : confirmStart w v n = (Flow.next (lp, s), es)) :
    provisions (afterStart w v p n).2 =
      provisions (forEach (monitorsToCreate w v s) (monitorEntry w v)
        (n + es.length + 1)).2 := by
  have hq : provisions es = [] := by
    have := confirmStart_noProvision w v n
    rw [h] at this
    exact provisions_none es this
  rw [← enterMonitoring_provisions]
  unfold afterStart
  rw [bind_next h]
  simp only []
  rcases hE : enterMonitoring w v s (n + es.length) with ⟨fl, evs⟩
  cases fl with
  | next a =>
    rw [bind_next hE]
    simp [after, pure_apply, provisions_append, hq]
  | returned =>
    rw [bind_returned hE]
    simp [after, provisions_append, hq]
  | panicked e =>
    rw [bind_panicked hE]
    simp [after, provisions_append, hq]

theorem afterStart_returned_provisions (w : World) (v : Vars) (p : Paths) (n : Nat)
    (es : List Event) (h : confirmStart w v n = (Flow.returned, es)) :
    provisions (afterStart w v p n).2 = [] := by
  have hq : provisions es = [] := by
    have := confirmStart_noProvision w v n
    rw [h] at this
    exact provisions_none es this
  rw [afterStart_of_confirm_returned w v p n es h]
  exact hq

theorem afterStart_panicked_provisions (w : World) (v : Vars) (p : Paths) (n : Nat)
    (e : Error) (es : List Event) (h : confirmStart w v n = (Flow.panicked e, es)) :
    provisions (afterStart w v p n).2 = [] := by
  have hq : provisions es = [] := by
    have := confirmStart_noProvision w v n
    rw [h] at this
    exact provisions_none es this
  unfold afterStart
  rw [bind_panicked h]
  exact hq

/-- In start-only mode nothing after the agent start looks up or runs
`fteCreateMonitor`. -/
theorem afterStart_startOnly_provisions (w : World) (v : Vars) (p : Paths) (n : Nat)
    (hso : v.startOnly = true) : provisions (afterStart w v p n).2 = [] := by
  rcases h : confirmStart w v n with ⟨fl, es⟩
  cases fl with
  | next a =>
    obtain ⟨lp, s⟩ := a
    rw [afterStart_provisions w v p n lp s es h]
    simp [monitorsToCreate, hso, forEach, pure_apply, provisions]
  | returned => exact afterStart_returned_provisions w v p n es h
  | panicked e => exact afterStart_panicked_provisions w v p n e es h

/-- C9 (as amended): after a successful `fteStartAgent` (the executable `fteListAgents`
being found and the first status query succeeding with result `r1`), the probes before the
monitoring loop are: that one query, when its text does not contain `STOPPED`; and the
query, a wait of 10 seconds and exactly one more query `r2`, when it does.  With the final
status text (of `r1`, or of a successful `r2`) `main` goes on to the monitoring loop if the
text contains `READY` or `ACTIVE`, and returns otherwise; it also returns when the second
query fails to run.  Resource monitors are provisioned for the entries `monitorsToCreate`
gives for the final status text: every entry of `agent.resourceMonitors` when the text
contains `READY` or `ACTIVE` and `startOnly` is false, none otherwise.  There is one lookup
of `fteCreateMonitor` per such entry, and when the executable is found at `mp` at every
lookup the provisioning steps are, entry by entry and in order, the lookup and the run of
`cmdCrtMonitorCmd` for that entry.  In start-only mode there is no lookup and no run of
`fteCreateMonitor` at all. -/
theorem start_confirmation_requeries_once (w : World) (v : Vars) (p : Paths) (n : Nat)
    (lp mp : String)
    (hlook : w.LookPath (n + 1) "fteListAgents" = (lp, none))
    (hq1 : (w.Run (n + 2) (cmdListAgents w v lp)).err = none) :
    (Contains (w.Run (n + 2) (cmdListAgents w v lp)).out "STOPPED" = false →
        probes (afterStart w v p n).2 = [Probe.query (w.Run (n + 2) (cmdListAgents w v lp))] ∧
        ((afterStart w v p n).1 =
          if Contains (w.Run (n + 2) (cmdListAgents w v lp)).out "READY" = true ∨
              Contains (w.Run (n + 2) (cmdListAgents w v lp)).out "ACTIVE" = true
            then Flow.next (v, p, lp) else Flow.returned) ∧
        (provisions (afterStart w v p n).2).countP isLookup =
          (monitorsToCreate w v (w.Run (n + 2) (cmdListAgents w v lp)).out).length ∧
        ((∀ k, w.LookPath k "fteCreateMonitor" = (mp, none)) →
          provisions (afterStart w v p n).2 =
            (monitorsToCreate w v (w.Run (n + 2) (cmdListAgents w v lp)).out).flatMap
              (provisionOfEntry w v mp))) ∧
      (Contains (w.Run (n + 2) (cmdListAgents w v lp)).out "STOPPED" = true →
        ∃ r2, probes (afterStart w v p n).2 =
            [Probe.query (w.Run (n + 2) (cmdListAgents w v lp)), Probe.wait 10000000000,
              Probe.query r2] ∧
          (r2.err = none →
            ((afterStart w v p n).1 =
              if Contains r2.out "READY" = true ∨ Contains r2.out "ACTIVE" = true
                then Flow.next (v, p, lp) else Flow.returned) ∧
            (provisions (afterStart w v p n).2).countP isLookup =
              (monitorsToCreate w v r2.out).length ∧
            ((∀ k, w.LookPath k "fteCreateMonitor" = (mp, none)) →
              provisions (afterStart w v p n).2 =
                (monitorsToCreate w v r2.out).flatMap (provisionOfEntry w v mp))) ∧
          (r2.err ≠ none →
            (afterStart w v p n).1 = Flow.returned ∧ provisions (afterStart w v p n).2 = [])) ∧
      (v.startOnly = true → provisions (afterStart w v p n).2 = []) := by
  refine ⟨?_, ?_, afterStart_startOnly_provisions w v p n⟩
  · intro hc
    obtain ⟨es, h1, h2⟩ := confirmStart_running w v n lp hlook hq1 hc
    obtain ⟨h3, h4⟩ := afterStart_of_confirm w v p n lp _ es h1
    have h5 := afterStart_provisions w v p n lp _ es h1
    refine ⟨by rw [h4, h2], h3, ?_, fun hmon => ?_⟩
    · rw [h5]
      exact forEach_monitorEntry_lookups w v _ _
    · rw [h5]
      exact forEach_monitorEntry_provisions w v mp hmon _ _
  · intro hc
    obtain ⟨r2, es, h2, hcase⟩ := confirmStart_stopped w v n lp hlook hq1 hc
    rcases hcase with ⟨hr, h1⟩ | ⟨hr, h1⟩
    · obtain ⟨h3, h4⟩ := afterStart_of_confirm w v p n lp _ es h1
      have h5 := afterStart_provisions w v p n lp _ es h1
      refine ⟨r2, by rw [h4, h2], fun _ => ⟨h3, ?_, fun hmon => ?_⟩, fun hne => absurd hr hne⟩
      · rw [h5]
        exact forEach_monitorEntry_lookups w v _ _
      · rw [h5]
        exact forEach_monitorEntry_provisions w v mp hmon _ _
    · have h3 := afterStart_of_confirm_returned w v p n es h1
      refine ⟨r2, by rw [h3]; exact h2, fun he => absurd he hr,
        fun _ => ⟨by rw [h3], afterStart_returned_provisions w v p n es h1⟩⟩

theorem start_confirmation_requeries_once_witness :
    (worldMonitors.LookPath (0 + 1) "fteListAgents" = ("/bin/fteListAgents", none) ∧
      (worldMonitors.Run (0 + 2)
        (cmdListAgents worldMonitors exampleVars "/bin/fteListAgents")).err = none) ∧
    Contains (worldMonitors.Run (0 + 2)
      (cmdListAgents worldMonitors exampleVars "/bin/fteListAgents")).out "STOPPED" = false ∧
    (probes (afterStart worldMonitors exampleVars examplePaths 0).2 =
        [Probe.query (worldMonitors.Run (0 + 2)
          (cmdListAgents worldMonitors exampleVars "/bin/fteListAgents"))] ∧
      ((afterStart worldMonitors exampleVars examplePaths 0).1 =
        if Contains (worldMonitors.Run (0 + 2)
              (cmdListAgents worldMonitors exampleVars "/bin/fteListAgents")).out "READY" = true ∨
            Contains (worldMonitors.Run (0 + 2)
              (cmdListAgents worldMonitors exampleVars "/bin/fteListAgents")).out "ACTIVE" = true
          then Flow.next (exampleVars, examplePaths, "/bin/fteListAgents")
          else Flow.returned) ∧
      (provisions (afterStart worldMonitors exampleVars examplePaths 0).2).countP isLookup =
        (monitorsToCreate worldMonitors exampleVars (worldMonitors.Run (0 + 2)
          (cmdListAgents worldMonitors exampleVars "/bin/fteListAgents")).out).length ∧
      ((∀ k, worldMonitors.LookPath k "fteCreateMonitor" = ("/bin/fteCreateMonitor", none)) →
        provisions (afterStart worldMonitors exampleVars examplePaths 0).2 =
          (monitorsToCreate worldMonitors exampleVars (worldMonitors.Run (0 + 2)
            (cmdListAgents worldMonitors exampleVars "/bin/fteListAgents")).out).flatMap
            (provisionOfEntry worldMonitors exampleVars "/bin/fteCreateMonitor"))) ∧
    (monitorsToCreate worldMonitors exampleVars (worldMonitors.Run (0 + 2)
        (cmdListAgents worldMonitors exampleVars "/bin/fteListAgents")).out).flatMap
        (provisionOfEntry worldMonitors exampleVars "/bin/fteCreateMonitor") =
      [Provision.lookup none,
        Provision.create ⟨"fteCreateMonitor", "/bin/fteCreateMonitor",
          ["/bin/fteCreateMonitor", "-p", "QMC", "-mm", "QMA", "-ma", "AG", "-mn", "MON1",
            "-ix", "/mnt/in", "-f"]⟩,
        Provision.lookup none,
        Provision.create ⟨"fteCreateMonitor", "/bin/fteCreateMonitor",
          ["/bin/fteCreateMonitor", "-p", "QMC", "-mm", "QMA", "-ma", "AG", "-mn", "MON2",
            "-ix", "/mnt/out", "-f"]⟩] ∧
    provisions (afterStart worldMonitors exampleVars examplePaths 0).2 =
      [Provision.lookup none,
        Provision.create ⟨"fteCreateMonitor", "/bin/fteCreateMonitor",
          ["/bin/fteCreateMonitor", "-p", "QMC", "-mm", "QMA", "-ma", "AG", "-mn", "MON1",
            "-ix", "/mnt/in", "-f"]⟩,
        Provision.lookup none,
        Provision.create ⟨"fteCreateMonitor", "/bin/fteCreateMonitor",
          ["/bin/fteCreateMonitor", "-p", "QMC", "-mm", "QMA", "-ma", "AG", "-mn", "MON2",
            "-ix", "/mnt/out", "-f"]⟩] :=
  ⟨⟨by decide, rfl⟩, by decide,
    (start_confirmation_requeries_once worldMonitors exampleVars examplePaths 0
      "/bin/fteListAgents" "/bin/fteCreateMonitor" (by decide) rfl).1 (by decide),
    by decide, by decide⟩

/-- C9, counterexample: started with `true` as second argument and a configuration that
asks for two resource monitors, with the agent reported as `READY` by the one status query,
`main` registers the signal handler and enters the monitoring loop without a lookup or run
of `fteCreateMonitor`. -/
theorem startOnly_ready_skips_provisioning :
    startOnlyOf worldStartOnlyMonitors.Args = true ∧
      (worldStartOnlyMonitors.Get "doc" "agent.resourceMonitors").Exists = true ∧
      (worldStartOnlyMonitors.Get "doc" "agent.resourceMonitors").Each =
        [("MON1", "/mnt/in"), ("MON2", "/mnt/out")] ∧
      probes (main worldStartOnlyMonitors []).2 = [Probe.query ⟨none, "AG QMA READY", ""⟩] ∧
      Contains "AG QMA READY" "READY" = true ∧
      (main worldStartOnlyMonitors []).1 = Flow.next () ∧
      Event.notify ∈ (main worldStartOnlyMonitors []).2 ∧
      provisions (main worldStartOnlyMonitors []).2 = [] := by
  decide

theorem setup_commands (w : World) (v : Vars) (p : Paths) (n : Nat)
    (h1 : (w.Run (n + 1) (cmdSetupCoord w v p)).err = none)
    (h2 : (w.Run (n + 3) (cmdSetupCmds w v p)).err = none) :
    commands (setup w v p n).2 =
      [(cmdSetupCoord w v p, w.Run (n + 1) (cmdSetupCoord w v p)),
        (cmdSetupCmds w v p, w.Run (n + 3) (cmdSetupCmds w v p)),
        (cmdCrtAgnt w v p, w.Run (n + 5) (cmdCrtAgnt w v p))] := by
  simp only [setup, Run, Print, Println, printBuffers, bind_emit, bind_ask, bind_assoc,
    Nat.add_assoc, Nat.reduceAdd, h1, h2]
  rcases h3 : (w.Run (n + 5) (cmdCrtAgnt w v p)).err with _ | err
  · simp only [pure_apply, after_mk, after_after]
    rfl
  · simp only [bind_emit, ret_apply, after_mk, after_after]
    rfl

theorem cmdCrtAgnt_standard (w : World) (v : Vars) (p : Paths)
    (h : EqualFold (w.Get v.agentConfig "agent.type").Str "STANDARD" = true) :
    cmdCrtAgnt w v p = cmdCrtStandardAgnt w v p := by
  unfold cmdCrtAgnt
  rw [if_pos h]

theorem cmdCrtAgnt_bridge (w : World) (v : Vars) (p : Paths)
    (h : EqualFold (w.Get v.agentConfig "agent.type").Str "STANDARD" = false) :
    cmdCrtAgnt w v p = cmdCrtBridgeAgnt w v p := by
  unfold cmdCrtAgnt
  rw [if_neg (by rw [h]; simp)]

/-- C11 (as amended): when the setup block reaches agent creation (both setup commands
having succeeded) exactly one creation command is run, the command `cmdCrtAgnt`: it is
`fteCreateAgent` when `agent.type` equals `STANDARD` under case folding
(`strings.EqualFold`), in particular for the text `STANDARD` itself, and
`fteCreateBridgeAgent` otherwise, in particular for the empty text that `gjson` gives for a
missing `agent.type`. -/
theorem one_creation_command_by_folded_type (w : World) (v : Vars) (p : Paths) (n : Nat)
    (h1 : (w.Run (n + 1) (cmdSetupCoord w v p)).err = none)
    (h2 : (w.Run (n + 3) (cmdSetupCmds w v p)).err = none) :
    creations (setup w v p n).2 = [(cmdCrtAgnt w v p, w.Run (n + 5) (cmdCrtAgnt w v p))] ∧
      (EqualFold (w.Get v.agentConfig "agent.type").Str "STANDARD" = true →
        cmdCrtAgnt w v p = cmdCrtStandardAgnt w v p ∧
          (cmdCrtAgnt w v p).name = "fteCreateAgent") ∧
      (EqualFold (w.Get v.agentConfig "agent.type").Str "STANDARD" = false →
        cmdCrtAgnt w v p = cmdCrtBridgeAgnt w v p ∧
          (cmdCrtAgnt w v p).name = "fteCreateBridgeAgent") ∧
      ((w.Get v.agentConfig "agent.type").Str = "STANDARD" →
        (cmdCrtAgnt w v p).name = "fteCreateAgent") ∧
      ((w.Get v.agentConfig "agent.type").Str = "" →
        (cmdCrtAgnt w v p).name = "fteCreateBridgeAgent") := by
  refine ⟨?_, ?_, ?_, ?_, ?_⟩
  · unfold creations
    rw [setup_commands w v p n h1 h2]
    have hn : (cmdCrtAgnt w v p).name = "fteCreateAgent" ∨
        (cmdCrtAgnt w v p).name = "fteCreateBridgeAgent" := by
      unfold cmdCrtAgnt
      split
      · exact Or.inl rfl
      · exact Or.inr rfl
    simp [List.filter, cmdSetupCoord, cmdSetupCmds, hn]
  · intro h
    rw [cmdCrtAgnt_standard w v p h]
    exact ⟨rfl, rfl⟩
  · intro h
    rw [cmdCrtAgnt_bridge w v p h]
    exact ⟨rfl, rfl⟩
  · intro h
    rw [cmdCrtAgnt_standard w v p (by rw [h]; decide)]
    rfl
  · intro h
    rw [cmdCrtAgnt_bridge w v p (by rw [h]; decide)]
    rfl

/-- C11, counterexample: with `agent.type` spelled `standard`, which is a text other than
`STANDARD`, the one creation command that is run is `fteCreateAgent`, not
`fteCreateBridgeAgent`. -/
theorem lower_case_standard_creates_standard_agent :
    (worldLowerCaseType.Get exampleVars.agentConfig "agent.type").Str ≠ "STANDARD" ∧
      (creations (setup worldLowerCaseType exampleVars examplePaths 0).2).map
        (fun cr => cr.1.name) = ["fteCreateAgent"] := by
  decide

theorem one_creation_command_by_folded_type_witness :
    (((worldAnswering "AG QMA READY").Run (0 + 1)
        (cmdSetupCoord (worldAnswering "AG QMA READY") exampleVars examplePaths)).err = none ∧
      ((worldAnswering "AG QMA READY").Run (0 + 3)
        (cmdSetupCmds (worldAnswering "AG QMA READY") exampleVars examplePaths)).err = none) ∧
    creations (setup (worldAnswering "AG QMA READY") exampleVars examplePaths 0).2 =
      [(cmdCrtAgnt (worldAnswering "AG QMA READY") exampleVars examplePaths,
        (worldAnswering "AG QMA READY").Run (0 + 5)
          (cmdCrtAgnt (worldAnswering "AG QMA READY") exampleVars examplePaths))] :=
  ⟨⟨rfl, rfl⟩, (one_creation_command_by_folded_type (worldAnswering "AG QMA READY") exampleVars examplePaths 0 rfl rfl).1⟩

theorem pairUp_unpair (ps : List (String × String)) : pairUp (unpair ps) = ps := by
  induction ps with
  | nil => rfl
  | cons q ps ih =>
    obtain ⟨a, b⟩ := q
    simp [unpair, pairUp, ih]

theorem unpair_append (ps qs : List (String × String)) :
    unpair (ps ++ qs) = unpair ps ++ unpair qs := by
  induction ps with
  | nil => rfl
  | cons q ps ih =>
    obtain ⟨a, b⟩ := q
    simp [unpair, ih]

theorem unpair_optional (flag : String) (r : Result) :
    unpair (optional flag r) = if r.Exists then [flag, r.Str] else [] := by
  unfold optional
  split <;> rfl

theorem append_ite {α : Type} (c : Prop) [Decidable c] (xs ys : List α) :
    (if c then xs ++ ys else xs) = xs ++ (if c then ys else []) := by
  split <;> simp

theorem append_ite_ite {α : Type} (c : Prop) [Decidable c] (xs ys zs : List α) :
    (if c then xs ++ ys else xs ++ zs) = xs ++ (if c then ys else zs) := by
  split <;> rfl

theorem bridgeParams_eq (w : World) (v : Vars) (p : Paths) :
    bridgeParams w v p =
      p.cmdCrtBridgeAgntPath :: agentArgs w v ++ unpair (bridgePairs w v) := by
  unfold bridgePairs
  unfold bridgeParams
  simp only [append_ite, append_ite_ite, List.append_assoc, List.cons_append]
  cases (w.Get v.agentConfig "agent.protocolBridge.serverType").Exists <;>
    cases (w.Get v.agentConfig "agent.protocolBridge.serverHost").Exists <;>
    by_cases h : ((w.Get v.agentConfig "agent.protocolBridge.serverType").Str ≠ "SFTP" ∧
            (w.Get v.agentConfig "agent.protocolBridge.serverLocale").Exists = true) <;>
    simp [h, unpair, unpair_append, unpair_optional]

theorem bridgeOptions_bridgeParams (w : World) (v : Vars) (p : Paths) :
    bridgeOptions (bridgeParams w v p) = bridgePairs w v := by
  rw [bridgeParams_eq]
  unfold bridgeOptions
  have h : List.drop 16 (p.cmdCrtBridgeAgntPath :: agentArgs w v ++ unpair (bridgePairs w v))
      = unpair (bridgePairs w v) := rfl
  rw [h, pairUp_unpair]

theorem withFlag_append (flag : String) (ps qs : List (String × String)) :
    withFlag flag (ps ++ qs) = withFlag flag ps ++ withFlag flag qs :=
  List.filter_append _ _

theorem withFlag_optional (flag g : String) (r : Result) :
    withFlag flag (optional g r) = if g = flag then optional g r else [] := by
  unfold optional withFlag
  by_cases h : g = flag <;> cases r.Exists <;> simp [h]

theorem bridge_args (w : World) (v : Vars) (p : Paths)
    (hbridge : EqualFold (w.Get v.agentConfig "agent.type").Str "STANDARD" = false) :
    (cmdCrtAgnt w v p).Args = bridgeParams w v p := by
  rw [cmdCrtAgnt_bridge w v p hbridge]
  rfl

theorem withFlag_bsl (w : World) (v : Vars) :
    withFlag "-bsl" (bridgePairs w v) =
      if (w.Get v.agentConfig "agent.protocolBridge.serverType").Str ≠ "SFTP" ∧
          (w.Get v.agentConfig "agent.protocolBridge.serverLocale").Exists = true
        then [("-bsl", (w.Get v.agentConfig "agent.protocolBridge.serverLocale").Str)]
        else [] := by
  unfold bridgePairs
  simp only [withFlag_append, withFlag_optional]
  by_cases h : ((w.Get v.agentConfig "agent.protocolBridge.serverType").Str ≠ "SFTP" ∧
      (w.Get v.agentConfig "agent.protocolBridge.serverLocale").Exists = true) <;>
    simp [h, withFlag]

/-- C12: for a bridge agent (`agent.type` not `STANDARD` under case folding) the arguments
of the creation command are the executable path, the fixed agent arguments and then
flag/value pairs.  Among these pairs none has the flag `-bsl` when the server type is
`SFTP`, whatever `serverLocale` is; and when the server type is `FTP`, or is missing (for
which `gjson` gives the empty text), and `serverLocale` exists, exactly one pair has the
flag `-bsl`, and its value is the configured locale. -/
theorem locale_flag_only_without_sftp (w : World) (v : Vars) (p : Paths)
    (hbridge : EqualFold (w.Get v.agentConfig "agent.type").Str "STANDARD" = false) :
    (cmdCrtAgnt w v p).Args = p.cmdCrtBridgeAgntPath :: agentArgs w v ++
        unpair (bridgeOptions (cmdCrtAgnt w v p).Args) ∧
      ((w.Get v.agentConfig "agent.protocolBridge.serverType").Str = "SFTP" →
        withFlag "-bsl" (bridgeOptions (cmdCrtAgnt w v p).Args) = []) ∧
      (((w.Get v.agentConfig "agent.protocolBridge.serverType").Str = "FTP" ∨
          ((w.Get v.agentConfig "agent.protocolBridge.serverType").Exists = false ∧
            (w.Get v.agentConfig "agent.protocolBridge.serverType").Str = "")) →
        (w.Get v.agentConfig "agent.protocolBridge.serverLocale").Exists = true →
        withFlag "-bsl" (bridgeOptions (cmdCrtAgnt w v p).Args) =
          [("-bsl", (w.Get v.agentConfig "agent.protocolBridge.serverLocale").Str)]) := by
  rw [bridge_args w v p hbridge, bridgeOptions_bridgeParams, withFlag_bsl]
  refine ⟨bridgeParams_eq w v p, ?_, ?_⟩
  · intro h
    rw [if_neg (fun hc => hc.1 h)]
  · intro h hl
    have hne : (w.Get v.agentConfig "agent.protocolBridge.serverType").Str ≠ "SFTP" := by
      rcases h with h | ⟨_, h⟩ <;> simp [h]
    rw [if_pos ⟨hne, hl⟩]

theorem locale_flag_only_without_sftp_witness :
    EqualFold (worldBridge.Get exampleVars.agentConfig "agent.type").Str "STANDARD" = false ∧
      (((worldBridge.Get exampleVars.agentConfig "agent.protocolBridge.serverType").Str = "FTP" ∨
          ((worldBridge.Get exampleVars.agentConfig
              "agent.protocolBridge.serverType").Exists = false ∧
            (worldBridge.Get exampleVars.agentConfig
              "agent.protocolBridge.serverType").Str = "")) →
        (worldBridge.Get exampleVars.agentConfig
          "agent.protocolBridge.serverLocale").Exists = true →
        withFlag "-bsl" (bridgeOptions (cmdCrtAgnt worldBridge exampleVars examplePaths).Args) =
          [("-bsl", (worldBridge.Get exampleVars.agentConfig
            "agent.protocolBridge.serverLocale").Str)]) :=
  ⟨by decide, (locale_flag_only_without_sftp worldBridge exampleVars examplePaths (by decide)).2.2⟩

theorem withFlag_pairs (w : World) (v : Vars) :
    withFlag "-bt" (bridgePairs w v) =
        [("-bt", if (w.Get v.agentConfig "agent.protocolBridge.serverType").Exists
          then (w.Get v.agentConfig "agent.protocolBridge.serverType").Str else "FTP")] ∧
      withFlag "-bh" (bridgePairs w v) =
        [("-bh", if (w.Get v.agentConfig "agent.protocolBridge.serverHost").Exists
          then (w.Get v.agentConfig "agent.protocolBridge.serverHost").Str
          else "localhost")] ∧
      withFlag "-btz" (bridgePairs w v) =
        optional "-btz" (w.Get v.agentConfig "agent.protocolBridge.serverTimezone") ∧
      withFlag "-bm" (bridgePairs w v) =
        optional "-bm" (w.Get v.agentConfig "agent.protocolBridge.serverPlatform") ∧
      withFlag "-bfe" (bridgePairs w v) =
        optional "-bfe" (w.Get v.agentConfig "agent.protocolBridge.serverFileEncoding") ∧
      withFlag "-bp" (bridgePairs w v) =
        optional "-bp" (w.Get v.agentConfig "agent.protocolBridge.serverPort") ∧
      withFlag "-bts" (bridgePairs w v) =
        optional "-bts" (w.Get v.agentConfig "agent.protocolBridge.serverTrustStoreFile") ∧
      withFlag "-blw" (bridgePairs w v) =
        optional "-blw" (w.Get v.agentConfig "agent.protocolBridge.serverLimitedWrite") ∧
      withFlag "-blf" (bridgePairs w v) =
        optional "-blf" (w.Get v.agentConfig "agent.protocolBridge.serverListFormat") := by
  unfold bridgePairs
  simp only [withFlag_append, withFlag_optional]
  by_cases h : ((w.Get v.agentConfig "agent.protocolBridge.serverType").Str ≠ "SFTP" ∧
      (w.Get v.agentConfig "agent.protocolBridge.serverLocale").Exists = true) <;>
    simp [h, withFlag]

/-- C13: for a bridge agent the arguments of the creation command are the executable
path, the fixed agent arguments and then exactly the flag/value pairs `bridgePairs`.  One
pair has the flag `-bt`, with the configured server type or `FTP` when it is missing; one
has the flag `-bh`, with the configured host or `localhost`; and for each of `-btz`, `-bm`,
`-bfe`, `-bp`, `-bts`, `-blw`, `-blf` there is one pair, with the configured value, when
the parameter exists and none when it does not: a missing parameter adds no argument at
all. -/
theorem bridge_options_follow_configuration (w : World) (v : Vars) (p : Paths)
    (hbridge : EqualFold (w.Get v.agentConfig "agent.type").Str "STANDARD" = false) :
    (cmdCrtAgnt w v p).Args = p.cmdCrtBridgeAgntPath :: agentArgs w v ++
        unpair (bridgeOptions (cmdCrtAgnt w v p).Args) ∧
      bridgeOptions (cmdCrtAgnt w v p).Args = bridgePairs w v ∧
      withFlag "-bt" (bridgeOptions (cmdCrtAgnt w v p).Args) =
        [("-bt", if (w.Get v.agentConfig "agent.protocolBridge.serverType").Exists
          then (w.Get v.agentConfig "agent.protocolBridge.serverType").Str else "FTP")] ∧
      withFlag "-bh" (bridgeOptions (cmdCrtAgnt w v p).Args) =
        [("-bh", if (w.Get v.agentConfig "agent.protocolBridge.serverHost").Exists
          then (w.Get v.agentConfig "agent.protocolBridge.serverHost").Str
          else "localhost")] ∧
      withFlag "-btz" (bridgeOptions (cmdCrtAgnt w v p).Args) =
        optional "-btz" (w.Get v.agentConfig "agent.protocolBridge.serverTimezone") ∧
      withFlag "-bm" (bridgeOptions (cmdCrtAgnt w v p).Args) =
        optional "-bm" (w.Get v.agentConfig "agent.protocolBridge.serverPlatform") ∧
      withFlag "-bfe" (bridgeOptions (cmdCrtAgnt w v p).Args) =
        optional "-bfe" (w.Get v.agentConfig "agent.protocolBridge.serverFileEncoding") ∧
      withFlag "-bp" (bridgeOptions (cmdCrtAgnt w v p).Args) =
        optional "-bp" (w.Get v.agentConfig "agent.protocolBridge.serverPort") ∧
      withFlag "-bts" (bridgeOptions (cmdCrtAgnt w v p).Args) =
        optional "-bts" (w.Get v.agentConfig "agent.protocolBridge.serverTrustStoreFile") ∧
      withFlag "-blw" (bridgeOptions (cmdCrtAgnt w v p).Args) =
        optional "-blw" (w.Get v.agentConfig "agent.protocolBridge.serverLimitedWrite") ∧
      withFlag "-blf" (bridgeOptions (cmdCrtAgnt w v p).Args) =
        optional "-blf" (w.Get v.agentConfig "agent.protocolBridge.serverListFormat") := by
  rw [bridge_args w v p hbridge, bridgeOptions_bridgeParams]
  exact ⟨bridgeParams_eq w v p, rfl, withFlag_pairs w v⟩

theorem bridge_options_follow_configuration_witness :
    EqualFold (worldBridge.Get exampleVars.agentConfig "agent.type").Str "STANDARD" = false ∧
      withFlag "-bp" (bridgeOptions (cmdCrtAgnt worldBridge exampleVars examplePaths).Args) =
        optional "-bp" (worldBridge.Get exampleVars.agentConfig
          "agent.protocolBridge.serverPort") ∧
      withFlag "-bts" (bridgeOptions (cmdCrtAgnt worldBridge exampleVars examplePaths).Args) =
        optional "-bts" (worldBridge.Get exampleVars.agentConfig
          "agent.protocolBridge.serverTrustStoreFile") :=
  ⟨by decide, (bridge_options_follow_configuration worldBridge exampleVars examplePaths (by decide)).2.2.2.2.2.2.2.1,
    (bridge_options_follow_configuration worldBridge exampleVars examplePaths (by decide)).2.2.2.2.2.2.2.2.1⟩

end MftCfg
